import Mathlib

/-!
# TUAK over Keccak-f[1600]: a shallow embedding of `oyaguma3/tuak`

Bytes (`byte`) and 64-bit lanes (`uint64`) are natural numbers; every place where the
Go code truncates is an explicit `% 256` or `% 2 ^ 64`.  Go slices are lists, Go loops
are folds over `List.range`, and Go run-time faults (index out of range) are an
explicit error value.
-/

namespace Tuak

/-! ## Package `keccak` (src/keccak/keccak.go) -/

namespace Keccak

/-- `keccakRotc` of keccak.go. -/
def keccakRotc : List Nat :=
  [1, 3, 6, 10, 15, 21, 28, 36, 45, 55, 2, 14,
   27, 41, 56, 8, 25, 43, 62, 18, 39, 61, 20, 44]

/-- `keccakPiLane` of keccak.go. -/
def keccakPiLane : List Nat :=
  [10, 7, 11, 17, 18, 3, 5, 16, 8, 21, 24, 4,
   15, 23, 19, 13, 12, 2, 20, 14, 22, 9, 6, 1]

/-- `keccakRoundConst` of keccak.go. -/
def keccakRoundConst : List Nat :=
  [0x0000000000000001, 0x0000000000008082, 0x800000000000808A, 0x8000000080008000,
   0x000000000000808B, 0x0000000080000001, 0x8000000080008081, 0x8000000000008009,
   0x000000000000008A, 0x0000000000000088, 0x0000000080008009, 0x000000008000000A,
   0x000000008000808B, 0x800000000000008B, 0x8000000000008089, 0x8000000000008003,
   0x8000000000008002, 0x8000000000000080, 0x000000000000800A, 0x800000008000000A,
   0x8000000080008081, 0x8000000000008080, 0x0000000080000001, 0x8000000080008008]

/-- Go `bits.RotateLeft64(x, k)` for `k ≥ 0`: `s := k & 63; x<<s | x>>(64-s)` on `uint64`. -/
def rotateLeft64 (x k : Nat) : Nat :=
  ((x <<< (k % 64)) % 2 ^ 64) ||| (x >>> (64 - k % 64))

/-- Go `^x` on `uint64`: every one of the 64 bits flipped. -/
def not64 (x : Nat) : Nat := (2 ^ 64 - 1) ^^^ x

/-- Read of a fixed-size Go array at an index that the loop bounds keep in range. -/
def at_ (a : List Nat) (i : Nat) : Nat := a.getD i 0

/-- Go `binary.LittleEndian.Uint64(b)`. -/
def leUint64 (b : List Nat) : Nat :=
  at_ b 0 ||| at_ b 1 <<< 8 ||| at_ b 2 <<< 16 ||| at_ b 3 <<< 24 |||
    at_ b 4 <<< 32 ||| at_ b 5 <<< 40 ||| at_ b 6 <<< 48 ||| at_ b 7 <<< 56

/-- Go `binary.LittleEndian.PutUint64(out[off:off+8], v)`; `byte(v >> s)` is `% 256`. -/
def lePutUint64 (out : List Nat) (off v : Nat) : List Nat :=
  let out := out.set off (v % 256)
  let out := out.set (off + 1) ((v >>> 8) % 256)
  let out := out.set (off + 2) ((v >>> 16) % 256)
  let out := out.set (off + 3) ((v >>> 24) % 256)
  let out := out.set (off + 4) ((v >>> 32) % 256)
  let out := out.set (off + 5) ((v >>> 40) % 256)
  let out := out.set (off + 6) ((v >>> 48) % 256)
  out.set (off + 7) ((v >>> 56) % 256)

/-- First loop of a round: `bc[i] = a[i] ^ a[i+5] ^ a[i+10] ^ a[i+15] ^ a[i+20]`. -/
def thetaParity (a bc : List Nat) : List Nat :=
  (List.range 5).foldl
    (fun bc i => bc.set i (at_ a i ^^^ at_ a (i + 5) ^^^ at_ a (i + 10) ^^^ at_ a (i + 15)
      ^^^ at_ a (i + 20))) bc

/-- Second loop of a round: `t := bc[(i+4)%5] ^ rotl(bc[(i+1)%5], 1)` XORed into column `i`. -/
def thetaApply (a bc : List Nat) : List Nat :=
  (List.range 5).foldl
    (fun a i =>
      let t := at_ bc ((i + 4) % 5) ^^^ rotateLeft64 (at_ bc ((i + 1) % 5)) 1
      let a := a.set i (at_ a i ^^^ t)
      let a := a.set (i + 5) (at_ a (i + 5) ^^^ t)
      let a := a.set (i + 10) (at_ a (i + 10) ^^^ t)
      let a := a.set (i + 15) (at_ a (i + 15) ^^^ t)
      a.set (i + 20) (at_ a (i + 20) ^^^ t)) a

/-- The chained in-place rho+pi loop; the state is `(a, bc, t)`. -/
def rhoPiChain (a bc : List Nat) : List Nat × List Nat × Nat :=
  (List.range 24).foldl
    (fun (s : List Nat × List Nat × Nat) i =>
      let j := at_ keccakPiLane i
      let bc := s.2.1.set 0 (at_ s.1 j)
      let a := s.1.set j (rotateLeft64 s.2.2 (at_ keccakRotc i))
      (a, bc, at_ bc 0)) (a, bc, at_ a 1)

/-- The chi loops: for `j = 0, 5, .., 20` copy the row into `bc`, then mix in place. -/
def chiRows (a bc : List Nat) : List Nat × List Nat :=
  [0, 5, 10, 15, 20].foldl
    (fun (s : List Nat × List Nat) j =>
      let bc := (List.range 5).foldl (fun bc i => bc.set i (at_ s.1 (j + i))) s.2
      let a := (List.range 5).foldl
        (fun a i => a.set (j + i)
          (at_ a (j + i) ^^^ (not64 (at_ bc ((i + 1) % 5)) &&& at_ bc ((i + 2) % 5)))) s.1
      (a, bc)) (a, bc)

/-- One iteration of the `round` loop of `keccakF1600`, on the pair `(a, bc)`. -/
def keccakRound (s : List Nat × List Nat) (round : Nat) : List Nat × List Nat :=
  let bc := thetaParity s.1 s.2
  let a := thetaApply s.1 bc
  let r := rhoPiChain a bc
  let c := chiRows r.1 r.2.1
  (c.1.set 0 (at_ c.1 0 ^^^ at_ keccakRoundConst round), c.2)

/-- `keccakF1600`: 24 rounds in place on `a`, with `var bc [5]uint64` zero-initialised. -/
def keccakF1600 (a : List Nat) : List Nat :=
  ((List.range 24).foldl keccakRound (a, List.replicate 5 0)).1

/-- Errors of package keccak. -/
inductive KeccakError where
  | errInvalidLength
deriving DecidableEq, Repr

/-- `PermuteF1600` of keccak.go. -/
def PermuteF1600 (input : List Nat) : Except KeccakError (List Nat) :=
  if input.length ≠ 200 then .error .errInvalidLength
  else
    let a := (List.range 25).foldl
      (fun a i => a.set i (leUint64 ((input.drop (i * 8)).take 8))) (List.replicate 25 0)
    let a := keccakF1600 a
    .ok ((List.range 25).foldl (fun out i => lePutUint64 out (i * 8) (at_ a i))
      (List.replicate 200 0))

/-! ### The reference formulation of Keccak-f[1600]

Lanes are addressed as `A[x, y]`, stored at index `x + 5 * y`; the round is written as the
four named step mappings.  The word operations (XOR, AND, NOT, rotation of a 64-bit word)
are the ones above; the byte/lane conversion is the arithmetic little-endian one. -/

namespace Reference

/-- Lane `A[x, y]`. -/
def lane (A : List Nat) (x y : Nat) : Nat := A.getD (x + 5 * y) 0

/-- The state whose lane `[x, y]` is `f x y`. -/
def tabulate (f : Nat → Nat → Nat) : List Nat :=
  (List.range 25).map (fun i => f (i % 5) (i / 5))

/-- Parity of column `x`. -/
def columnParity (A : List Nat) (x : Nat) : Nat :=
  lane A x 0 ^^^ lane A x 1 ^^^ lane A x 2 ^^^ lane A x 3 ^^^ lane A x 4

/-- Step theta: every lane XORed with parity(column x-1) XOR rotl1(parity(column x+1)). -/
def theta (A : List Nat) : List Nat :=
  tabulate (fun x y =>
    lane A x y ^^^ (columnParity A ((x + 4) % 5) ^^^ rotateLeft64 (columnParity A ((x + 1) % 5)) 1))

/-- The rotation offsets `r[x, y]` of the Keccak reference, stored at `x + 5 * y`. -/
def rotationOffsets : List Nat :=
  [ 0,  1, 62, 28, 27,
   36, 44,  6, 55, 20,
    3, 10, 43, 25, 39,
   41, 45, 15, 21,  8,
   18,  2, 61, 56, 14]

/-- Steps rho and pi: `B[y, 2x+3y mod 5] = rotl(A[x, y], r[x, y])` for all 25 `(x, y)`. -/
def rhoPi (A : List Nat) : List Nat :=
  (List.range 25).foldl
    (fun B i =>
      let x := i % 5
      let y := i / 5
      B.set (y + 5 * ((2 * x + 3 * y) % 5)) (rotateLeft64 (lane A x y) (lane rotationOffsets x y)))
    (List.replicate 25 0)

/-- Step chi: `A[x, y] = B[x, y] XOR (NOT B[x+1, y] AND B[x+2, y])`. -/
def chi (B : List Nat) : List Nat :=
  tabulate (fun x y => lane B x y ^^^ (not64 (lane B ((x + 1) % 5) y) &&& lane B ((x + 2) % 5) y))

/-- One step of the Keccak LFSR `x^8 + x^6 + x^5 + x^4 + 1` on an 8-bit register. -/
def lfsrStep (s : Nat) : Nat :=
  if s &&& 0x80 ≠ 0 then ((s <<< 1) ^^^ 0x71) % 256 else (s <<< 1) % 256

/-- Bit `rc(t)`: the low bit of the register after `t` steps from `0x01`. -/
def rc (t : Nat) : Bool := (lfsrStep^[t] 1) &&& 1 ≠ 0

/-- Round constant `RC[r]`: bit `2^j - 1` is `rc(j + 7r)` for `j = 0..6`, all others zero. -/
def roundConstant (r : Nat) : Nat :=
  (List.range 7).foldl
    (fun acc j => if rc (j + 7 * r) then acc ||| (1 <<< (2 ^ j - 1)) else acc) 0

/-- Step iota: lane 0 XOR `RC[round]`. -/
def iota (A : List Nat) (round : Nat) : List Nat :=
  A.set 0 (lane A 0 0 ^^^ roundConstant round)

/-- One round: theta, rho+pi, chi, iota. -/
def round (A : List Nat) (r : Nat) : List Nat := iota (chi (rhoPi (theta A))) r

/-- The 24 rounds. -/
def rounds (A : List Nat) : List Nat := (List.range 24).foldl round A

/-- The 25 lanes of a 200-byte string: lane `i` is `Σ_j bytes[8i+j] * 256^j`. -/
def lanesOfBytes (bytes : List Nat) : List Nat :=
  (List.range 25).map (fun i =>
    ((List.range 8).map (fun j => bytes.getD (8 * i + j) 0 * 256 ^ j)).sum)

/-- The 200 bytes of 25 lanes: byte `k` is digit `k % 8` (base 256) of lane `k / 8`. -/
def bytesOfLanes (A : List Nat) : List Nat :=
  (List.range 200).map (fun k => A.getD (k / 8) 0 / 256 ^ (k % 8) % 256)

/-- Keccak-f[1600] on a 200-byte string, reference formulation. -/
def keccakF1600 (bytes : List Nat) : List Nat := bytesOfLanes (rounds (lanesOfBytes bytes))

end Reference

end Keccak

/-! ## Package `tuak` (src/options.go, src/tuak.go)

A nil slice and an empty slice are the same list wherever the code only takes `len` and
indexes; `top` and `topc` of a session, which the code compares with `nil`, are options.
The debug hook is a function on a world `σ` that it alone may change; the functions thread
that world and return it. -/

/-- Errors returned by package tuak; `runtimeFault` stands for a Go run-time panic
(index out of range), which is not a returned error. -/
inductive TuakError where
  | invalidKLength
  | kLengthMismatch
  | wrongLength (name : String)
  | macLengthNotSet
  | invalidMACLength
  | lengthsNotSet
  | invalidRESLength
  | invalidCKLength
  | invalidIKLength
  | missingTopcAndTop
  | keccak (e : Keccak.KeccakError)
  | runtimeFault
deriving DecidableEq, Repr

/-- `DebugHook` of debug.go: `func(label string, data []byte)`, or nil. -/
abbrev DebugHook (σ : Type) : Type := Option (String → List Nat → σ → σ)

/-- `Options` of options.go. -/
structure Options (σ : Type) where
  KLength : Int
  MACLength : Int
  RESLength : Int
  CKLength : Int
  IKLength : Int
  KeccakIterations : Int
  DebugHook : DebugHook σ

/-- `Option` of options.go: `func(*Options)`. -/
abbrev Opt (σ : Type) : Type := Options σ → Options σ

def WithKLength {σ : Type} (bits : Int) : Opt σ := fun o => { o with KLength := bits }

def WithMACLength {σ : Type} (bits : Int) : Opt σ := fun o => { o with MACLength := bits }

def WithRESLength {σ : Type} (bits : Int) : Opt σ := fun o => { o with RESLength := bits }

def WithCKLength {σ : Type} (bits : Int) : Opt σ := fun o => { o with CKLength := bits }

def WithIKLength {σ : Type} (bits : Int) : Opt σ := fun o => { o with IKLength := bits }

def WithKeccakIterations {σ : Type} (n : Int) : Opt σ :=
  fun o => { o with KeccakIterations := n }

def WithDebugHook {σ : Type} (h : DebugHook σ) : Opt σ := fun o => { o with DebugHook := h }

/-- `applyOptions` of options.go. -/
def applyOptions {σ : Type} (k : List Nat) (opts : List (Opt σ)) : Options σ :=
  let out : Options σ :=
    { KLength := 0, MACLength := 0, RESLength := 0, CKLength := 0, IKLength := 0,
      KeccakIterations := 1, DebugHook := none }
  let out := opts.foldl (fun o opt => opt o) out
  if out.KLength = 0 ∧ k.length > 0 then { out with KLength := (k.length : Int) * 8 } else out

def inSize : Nat := 200
def offsetTOP : Nat := 0
def offsetInst : Nat := 32
def offsetAlgo : Nat := 33
def offsetRAND : Nat := 40
def offsetAMF : Nat := 56
def offsetSQN : Nat := 58
def offsetK : Nat := 64
def paddingByte96 : Nat := 96
def paddingByte135 : Nat := 135

/-- `algoName = []byte("TUAK1.0")`. -/
def algoName : List Nat := [0x54, 0x55, 0x41, 0x4B, 0x31, 0x2E, 0x30]

/-- `TUAK` of tuak.go. -/
structure TUAK (σ : Type) where
  k : List Nat
  top : Option (List Nat)
  topc : Option (List Nat)
  rand : List Nat
  sqn : List Nat
  amf : List Nat
  opts : Options σ

/-- `New` (its error result is always nil). -/
def New {σ : Type} (k : List Nat) (top : Option (List Nat)) (rand sqn amf : List Nat)
    (opts : List (Opt σ)) : TUAK σ :=
  { k := k, top := top, topc := none, rand := rand, sqn := sqn, amf := amf,
    opts := applyOptions k opts }

/-- `NewWithTOPc` (its error result is always nil). -/
def NewWithTOPc {σ : Type} (k : List Nat) (topc : Option (List Nat)) (rand sqn amf : List Nat)
    (opts : List (Opt σ)) : TUAK σ :=
  { k := k, top := none, topc := topc, rand := rand, sqn := sqn, amf := amf,
    opts := applyOptions k opts }

/-- `newState`. -/
def newState : List Nat :=
  ((List.replicate inSize 0).set paddingByte96 0x1F).set paddingByte135 0x80

/-- `pushData`: `state[offset+i] = data[len(data)-1-i]`, faulting on an index out of range. -/
def pushData (state : List Nat) (offset : Nat) (data : List Nat) : Except TuakError (List Nat) :=
  (List.range data.length).foldlM
    (fun st i =>
      if offset + i < st.length then
        Except.ok (st.set (offset + i) (data.getD (data.length - 1 - i) 0))
      else Except.error TuakError.runtimeFault) state

/-- `pullData`: `out[i] = state[offset+length-1-i]`, faulting on an index out of range. -/
def pullData (state : List Nat) (offset length : Nat) : Except TuakError (List Nat) :=
  (List.range length).foldlM
    (fun out i =>
      if offset + length - 1 - i < state.length then
        Except.ok (out.set i (state.getD (offset + length - 1 - i) 0))
      else Except.error TuakError.runtimeFault) (List.replicate length 0)

/-- `callDebug`: the hook, when present, is run on a copy of `data`. -/
def callDebug {σ : Type} (h : DebugHook σ) (label : String) (data : List Nat) (w : σ) : σ :=
  match h with
  | none => w
  | some f => f label data w

/-- `debugLabel`. -/
def debugLabel (base : String) (idx total : Int) : String :=
  if total ≤ 1 then base ++ ".out" else base ++ ".out." ++ toString (idx + 1)

/-- `permute`: the body of the loop run `iterations` times (once when `iterations <= 0`). -/
def permute {σ : Type} (state : List Nat) (iterations : Int) (hook : DebugHook σ)
    (label : String) (w : σ) : Except TuakError (List Nat) × σ :=
  let iterations : Int := if iterations ≤ 0 then 1 else iterations
  (List.range iterations.toNat).foldl
    (fun (s : Except TuakError (List Nat) × σ) (i : Nat) =>
      match s.1 with
      | .error e => (.error e, s.2)
      | .ok out =>
        match Keccak.PermuteF1600 out with
        | .error e => (.error (TuakError.keccak e), s.2)
        | .ok out =>
          (.ok out, callDebug hook (debugLabel label (Int.ofNat i) iterations) out s.2))
    (.ok state, w)

/-- `resolveKLength`. -/
def resolveKLength {σ : Type} (k : List Nat) (opts : Options σ) : Except TuakError Int :=
  if k.length ≠ 16 ∧ k.length ≠ 32 then .error .invalidKLength
  else if opts.KLength = 0 then .ok ((k.length : Int) * 8)
  else if opts.KLength ≠ (k.length : Int) * 8 then .error .kLengthMismatch
  else .ok opts.KLength

/-- `requireLen`. -/
def requireLen (name : String) (b : List Nat) (want : Nat) : Except TuakError Unit :=
  if b.length ≠ want then .error (.wrongLength name) else .ok ()

/-- `setInstanceBit`: `inst | (1 << (7 - index))` in a byte when `value`. -/
def setInstanceBit (inst : Nat) (index : Nat) (value : Bool) : Nat :=
  if !value then inst else (inst ||| (1 <<< (7 - index))) % 256

/-- `instanceForTOPc`. -/
def instanceForTOPc (kLenBits : Int) : Except TuakError Nat :=
  if kLenBits ≠ 128 ∧ kLenBits ≠ 256 then .error .invalidKLength
  else
    let inst : Nat := 0
    let inst := if kLenBits = 256 then setInstanceBit inst 7 true else inst
    .ok inst

/-- `instanceForF1`. -/
def instanceForF1 (macLenBits kLenBits : Int) (star : Bool) : Except TuakError Nat :=
  if kLenBits ≠ 128 ∧ kLenBits ≠ 256 then .error .invalidKLength
  else
    let inst : Nat := 0
    let inst := setInstanceBit inst 0 star
    let inst := setInstanceBit inst 1 false
    let sw : Except TuakError Nat :=
      if macLenBits = 64 then
        .ok (setInstanceBit (setInstanceBit (setInstanceBit inst 2 false) 3 false) 4 true)
      else if macLenBits = 128 then
        .ok (setInstanceBit (setInstanceBit (setInstanceBit inst 2 false) 3 true) 4 false)
      else if macLenBits = 256 then
        .ok (setInstanceBit (setInstanceBit (setInstanceBit inst 2 true) 3 false) 4 false)
      else .error .invalidMACLength
    match sw with
    | .error e => .error e
    | .ok inst =>
      let inst := setInstanceBit inst 5 false
      let inst := setInstanceBit inst 6 false
      .ok (setInstanceBit inst 7 (decide (kLenBits = 256)))

/-- `instanceForF2345`. -/
def instanceForF2345 (resLenBits ckLenBits ikLenBits kLenBits : Int) : Except TuakError Nat :=
  if kLenBits ≠ 128 ∧ kLenBits ≠ 256 then .error .invalidKLength
  else
    let inst : Nat := 0
    let inst := setInstanceBit inst 0 false
    let inst := setInstanceBit inst 1 true
    let sw1 : Except TuakError Nat :=
      if resLenBits = 32 then
        .ok (setInstanceBit (setInstanceBit (setInstanceBit inst 2 false) 3 false) 4 false)
      else if resLenBits = 64 then
        .ok (setInstanceBit (setInstanceBit (setInstanceBit inst 2 false) 3 false) 4 true)
      else if resLenBits = 128 then
        .ok (setInstanceBit (setInstanceBit (setInstanceBit inst 2 false) 3 true) 4 false)
      else if resLenBits = 256 then
        .ok (setInstanceBit (setInstanceBit (setInstanceBit inst 2 true) 3 false) 4 false)
      else .error .invalidRESLength
    match sw1 with
    | .error e => .error e
    | .ok inst =>
      let sw2 : Except TuakError Nat :=
        if ckLenBits = 128 then .ok (setInstanceBit inst 5 false)
        else if ckLenBits = 256 then .ok (setInstanceBit inst 5 true)
        else .error .invalidCKLength
      match sw2 with
      | .error e => .error e
      | .ok inst =>
        let sw3 : Except TuakError Nat :=
          if ikLenBits = 128 then .ok (setInstanceBit inst 6 false)
          else if ikLenBits = 256 then .ok (setInstanceBit inst 6 true)
          else .error .invalidIKLength
        match sw3 with
        | .error e => .error e
        | .ok inst => .ok (setInstanceBit inst 7 (decide (kLenBits = 256)))

/-- `instanceForF5Star`. -/
def instanceForF5Star (kLenBits : Int) : Except TuakError Nat :=
  if kLenBits ≠ 128 ∧ kLenBits ≠ 256 then .error .invalidKLength
  else
    let inst : Nat := 0
    let inst := setInstanceBit inst 0 true
    let inst := setInstanceBit inst 1 true
    let inst := setInstanceBit inst 2 false
    let inst := setInstanceBit inst 3 false
    let inst := setInstanceBit inst 4 false
    let inst := setInstanceBit inst 5 false
    let inst := setInstanceBit inst 6 false
    .ok (setInstanceBit inst 7 (decide (kLenBits = 256)))

/-- `validateF1Inputs`. -/
def validateF1Inputs {σ : Type} (t : TUAK σ) : Except TuakError Unit :=
  if t.opts.MACLength = 0 then .error .macLengthNotSet
  else if t.opts.MACLength ≠ 64 ∧ t.opts.MACLength ≠ 128 ∧ t.opts.MACLength ≠ 256 then
    .error .invalidMACLength
  else
    match resolveKLength t.k t.opts with
    | .error e => .error e
    | .ok _ =>
      match requireLen "rand" t.rand 16 with
      | .error e => .error e
      | .ok _ =>
        match requireLen "sqn" t.sqn 6 with
        | .error e => .error e
        | .ok _ =>
          match requireLen "amf" t.amf 2 with
          | .error e => .error e
          | .ok _ => .ok ()

/-- `validateF2345Inputs`. -/
def validateF2345Inputs {σ : Type} (t : TUAK σ) : Except TuakError Unit :=
  if t.opts.RESLength = 0 ∨ t.opts.CKLength = 0 ∨ t.opts.IKLength = 0 then .error .lengthsNotSet
  else if ¬ (t.opts.RESLength = 32 ∨ t.opts.RESLength = 64 ∨ t.opts.RESLength = 128
      ∨ t.opts.RESLength = 256) then .error .invalidRESLength
  else if ¬ (t.opts.CKLength = 128 ∨ t.opts.CKLength = 256) then .error .invalidCKLength
  else if ¬ (t.opts.IKLength = 128 ∨ t.opts.IKLength = 256) then .error .invalidIKLength
  else
    match resolveKLength t.k t.opts with
    | .error e => .error e
    | .ok _ =>
      match requireLen "rand" t.rand 16 with
      | .error e => .error e
      | .ok _ => .ok ()

/-- `validateF5StarInputs`. -/
def validateF5StarInputs {σ : Type} (t : TUAK σ) : Except TuakError Unit :=
  match resolveKLength t.k t.opts with
  | .error e => .error e
  | .ok _ =>
    match requireLen "rand" t.rand 16 with
    | .error e => .error e
    | .ok _ => .ok ()

/-- `ComputeTOPc`. -/
def ComputeTOPc {σ : Type} (k top : List Nat) (opts : List (Opt σ)) (w : σ) :
    Except TuakError (List Nat) × σ :=
  let o := applyOptions k opts
  match resolveKLength k o with
  | .error e => (.error e, w)
  | .ok kLenBits =>
    match requireLen "top" top 32 with
    | .error e => (.error e, w)
    | .ok _ =>
      match instanceForTOPc kLenBits with
      | .error e => (.error e, w)
      | .ok inst =>
        let st : Except TuakError (List Nat) :=
          (pushData newState offsetTOP top).bind fun state =>
          (pushData (state.set offsetInst inst) offsetAlgo algoName).bind fun state =>
          pushData state offsetK k
        match st with
        | .error e => (.error e, w)
        | .ok state =>
          let w := callDebug o.DebugHook "topc.in" state w
          match permute state o.KeccakIterations o.DebugHook "topc" w with
          | (.error e, w) => (.error e, w)
          | (.ok out, w) => (pullData out offsetTOP 32, w)

/-- `(*TUAK).ensureTOPc`: the derived TOPc is stored in the session. -/
def ensureTOPc {σ : Type} (t : TUAK σ) (w : σ) : Except TuakError (List Nat) × TUAK σ × σ :=
  match t.topc with
  | some topc => (.ok topc, t, w)
  | none =>
    match t.top with
    | none => (.error .missingTopcAndTop, t, w)
    | some top =>
      match ComputeTOPc t.k top
          [WithKLength t.opts.KLength, WithKeccakIterations t.opts.KeccakIterations] w with
      | (.error e, w) => (.error e, t, w)
      | (.ok topc, w) => (.ok topc, { t with topc := some topc }, w)

/-- `(*TUAK).F1`: MAC-A, the session after the call and the world after the hook calls.
`MACLength/8` is Go's truncating division; `validateF1Inputs` has made it positive before
`pullData` is reached, so the `int` length is read as a natural number. -/
def F1 {σ : Type} (t : TUAK σ) (w : σ) : Except TuakError (List Nat) × TUAK σ × σ :=
  match ensureTOPc t w with
  | (.error e, t, w) => (.error e, t, w)
  | (.ok topc, t, w) =>
    match validateF1Inputs t with
    | .error e => (.error e, t, w)
    | .ok _ =>
      match instanceForF1 t.opts.MACLength ((t.k.length : Int) * 8) false with
      | .error e => (.error e, t, w)
      | .ok inst =>
        let st : Except TuakError (List Nat) :=
          (pushData newState offsetTOP topc).bind fun state =>
          (pushData (state.set offsetInst inst) offsetAlgo algoName).bind fun state =>
          (pushData state offsetRAND t.rand).bind fun state =>
          (pushData state offsetAMF t.amf).bind fun state =>
          (pushData state offsetSQN t.sqn).bind fun state =>
          pushData state offsetK t.k
        match st with
        | .error e => (.error e, t, w)
        | .ok state =>
          let w := callDebug t.opts.DebugHook "f1.in" state w
          match permute state t.opts.KeccakIterations t.opts.DebugHook "f1" w with
          | (.error e, w) => (.error e, t, w)
          | (.ok out, w) => (pullData out offsetTOP (Int.tdiv t.opts.MACLength 8).toNat, t, w)

/-- `(*TUAK).F1Star`: MAC-S. -/
def F1Star {σ : Type} (t : TUAK σ) (w : σ) : Except TuakError (List Nat) × TUAK σ × σ :=
  match ensureTOPc t w with
  | (.error e, t, w) => (.error e, t, w)
  | (.ok topc, t, w) =>
    match validateF1Inputs t with
    | .error e => (.error e, t, w)
    | .ok _ =>
      match instanceForF1 t.opts.MACLength ((t.k.length : Int) * 8) true with
      | .error e => (.error e, t, w)
      | .ok inst =>
        let st : Except TuakError (List Nat) :=
          (pushData newState offsetTOP topc).bind fun state =>
          (pushData (state.set offsetInst inst) offsetAlgo algoName).bind fun state =>
          (pushData state offsetRAND t.rand).bind fun state =>
          (pushData state offsetAMF t.amf).bind fun state =>
          (pushData state offsetSQN t.sqn).bind fun state =>
          pushData state offsetK t.k
        match st with
        | .error e => (.error e, t, w)
        | .ok state =>
          let w := callDebug t.opts.DebugHook "f1star.in" state w
          match permute state t.opts.KeccakIterations t.opts.DebugHook "f1star" w with
          | (.error e, w) => (.error e, t, w)
          | (.ok out, w) => (pullData out offsetTOP (Int.tdiv t.opts.MACLength 8).toNat, t, w)

/-- The four outputs of F2345. -/
structure F2345Out where
  res : List Nat
  ck : List Nat
  ik : List Nat
  ak : List Nat
deriving DecidableEq, Repr

/-- `(*TUAK).F2345`: RES, CK, IK and AK (all four or an error). The lengths are positive
once `validateF2345Inputs` has passed. -/
def F2345 {σ : Type} (t : TUAK σ) (w : σ) : Except TuakError F2345Out × TUAK σ × σ :=
  match ensureTOPc t w with
  | (.error e, t, w) => (.error e, t, w)
  | (.ok topc, t, w) =>
    match validateF2345Inputs t with
    | .error e => (.error e, t, w)
    | .ok _ =>
      match instanceForF2345 t.opts.RESLength t.opts.CKLength t.opts.IKLength
          ((t.k.length : Int) * 8) with
      | .error e => (.error e, t, w)
      | .ok inst =>
        let st : Except TuakError (List Nat) :=
          (pushData newState offsetTOP topc).bind fun state =>
          (pushData (state.set offsetInst inst) offsetAlgo algoName).bind fun state =>
          (pushData state offsetRAND t.rand).bind fun state =>
          pushData state offsetK t.k
        match st with
        | .error e => (.error e, t, w)
        | .ok state =>
          let w := callDebug t.opts.DebugHook "f2345.in" state w
          match permute state t.opts.KeccakIterations t.opts.DebugHook "f2345" w with
          | (.error e, w) => (.error e, t, w)
          | (.ok out, w) =>
            ((pullData out offsetTOP (Int.tdiv t.opts.RESLength 8).toNat).bind fun res =>
              (pullData out 32 (Int.tdiv t.opts.CKLength 8).toNat).bind fun ck =>
              (pullData out 64 (Int.tdiv t.opts.IKLength 8).toNat).bind fun ik =>
              (pullData out 96 6).bind fun ak =>
              .ok { res := res, ck := ck, ik := ik, ak := ak }, t, w)

/-- `(*TUAK).F5Star`: AK*. -/
def F5Star {σ : Type} (t : TUAK σ) (w : σ) : Except TuakError (List Nat) × TUAK σ × σ :=
  match ensureTOPc t w with
  | (.error e, t, w) => (.error e, t, w)
  | (.ok topc, t, w) =>
    match validateF5StarInputs t with
    | .error e => (.error e, t, w)
    | .ok _ =>
      match instanceForF5Star ((t.k.length : Int) * 8) with
      | .error e => (.error e, t, w)
      | .ok inst =>
        let st : Except TuakError (List Nat) :=
          (pushData newState offsetTOP topc).bind fun state =>
          (pushData (state.set offsetInst inst) offsetAlgo algoName).bind fun state =>
          (pushData state offsetRAND t.rand).bind fun state =>
          pushData state offsetK t.k
        match st with
        | .error e => (.error e, t, w)
        | .ok state =>
          let w := callDebug t.opts.DebugHook "f5star.in" state w
          match permute state t.opts.KeccakIterations t.opts.DebugHook "f5star" w with
          | (.error e, w) => (.error e, t, w)
          | (.ok out, w) => (pullData out 96 6, t, w)

end Tuak
namespace Tuak

/-! ## Specification-side definitions used to state the contracts -/

/-- All entries are 64-bit words. -/
def Keccak.Bounded64 (a : List Nat) : Prop := ∀ x ∈ a, x < 2 ^ 64

/-- `PermuteF1600` applied `n` times, each call's output being the next call's input. -/
def permuteTimes : Nat → List Nat → Except Keccak.KeccakError (List Nat)
  | 0, s => .ok s
  | n + 1, s => (permuteTimes n s).bind Keccak.PermuteF1600

/-- The 200-byte state described field by field: reversed TOP/TOPc at 0, the instance byte
at 32, the reversed algorithm name at 33, the reversed RAND at 40, AMF at 56, SQN at 58 and
K at 64, zeros up to 96, `0x1F` at 96, `0x80` at 135 and zeros elsewhere. -/
def layoutState (top : List Nat) (inst : Nat) (rand amf sqn k : List Nat) : List Nat :=
  top.reverse ++ [inst] ++ algoName.reverse ++ rand.reverse ++ amf.reverse ++ sqn.reverse
    ++ k.reverse ++ List.replicate (32 - k.length) 0
    ++ [0x1F] ++ List.replicate 38 0 ++ [0x80] ++ List.replicate 64 0

instance instDecidableEqExcept {ε α : Type} [DecidableEq ε] [DecidableEq α] :
    DecidableEq (Except ε α) := fun a b =>
  match a, b with
  | .ok x, .ok y =>
    if h : x = y then isTrue (by rw [h]) else isFalse (fun h2 => h (Except.ok.inj h2))
  | .error x, .error y =>
    if h : x = y then isTrue (by rw [h]) else isFalse (fun h2 => h (Except.error.inj h2))
  | .ok _, .error _ => isFalse (fun h => Except.noConfusion h)
  | .error _, .ok _ => isFalse (fun h => Except.noConfusion h)

/-- What F1 and F1Star do with an assembled state: report it to the hook, run the iterated
permutation and pull MACLength/8 bytes from offset 0. -/
def macFromState {σ : Type} (t : TUAK σ) (label labelIn : String) (state : List Nat) (w : σ) :
    Except TuakError (List Nat) × TUAK σ × σ :=
  match permute state t.opts.KeccakIterations t.opts.DebugHook label
      (callDebug t.opts.DebugHook labelIn state w) with
  | (.error e, w) => (.error e, t, w)
  | (.ok out, w) => (pullData out offsetTOP (Int.tdiv t.opts.MACLength 8).toNat, t, w)

/-! ### The common shape of the four session functions -/

/-- The shape shared by F1, F1Star, F2345 and F5Star: resolve TOPc, validate, select the
instance byte, assemble the state, report it, run the iterated permutation, extract. -/
def driver {σ α : Type} (validate : TUAK σ → Except TuakError Unit)
    (inst : TUAK σ → Except TuakError Nat)
    (assemble : List Nat → Nat → TUAK σ → Except TuakError (List Nat))
    (label labelIn : String) (extract : TUAK σ → List Nat → Except TuakError α)
    (t : TUAK σ) (w : σ) : Except TuakError α × TUAK σ × σ :=
  match ensureTOPc t w with
  | (.error e, t, w) => (.error e, t, w)
  | (.ok topc, t, w) =>
    match validate t with
    | .error e => (.error e, t, w)
    | .ok _ =>
      match inst t with
      | .error e => (.error e, t, w)
      | .ok i =>
        match assemble topc i t with
        | .error e => (.error e, t, w)
        | .ok state =>
          match permute state t.opts.KeccakIterations t.opts.DebugHook label
              (callDebug t.opts.DebugHook labelIn state w) with
          | (.error e, w) => (.error e, t, w)
          | (.ok out, w) => (extract t out, t, w)

/-- State assembly of F1 and F1Star. -/
def assembleF1 {σ : Type} (topc : List Nat) (inst : Nat) (t : TUAK σ) :
    Except TuakError (List Nat) :=
  (pushData newState offsetTOP topc).bind fun state =>
  (pushData (state.set offsetInst inst) offsetAlgo algoName).bind fun state =>
  (pushData state offsetRAND t.rand).bind fun state =>
  (pushData state offsetAMF t.amf).bind fun state =>
  (pushData state offsetSQN t.sqn).bind fun state =>
  pushData state offsetK t.k

/-- State assembly of F2345 and F5Star. -/
def assembleF2345 {σ : Type} (topc : List Nat) (inst : Nat) (t : TUAK σ) :
    Except TuakError (List Nat) :=
  (pushData newState offsetTOP topc).bind fun state =>
  (pushData (state.set offsetInst inst) offsetAlgo algoName).bind fun state =>
  (pushData state offsetRAND t.rand).bind fun state =>
  pushData state offsetK t.k

/-- Output extraction of F1 and F1Star. -/
def extractMAC {σ : Type} (t : TUAK σ) (out : List Nat) : Except TuakError (List Nat) :=
  pullData out offsetTOP (Int.tdiv t.opts.MACLength 8).toNat

/-- Output extraction of F2345. -/
def extractF2345 {σ : Type} (t : TUAK σ) (out : List Nat) : Except TuakError F2345Out :=
  (pullData out offsetTOP (Int.tdiv t.opts.RESLength 8).toNat).bind fun res =>
  (pullData out 32 (Int.tdiv t.opts.CKLength 8).toNat).bind fun ck =>
  (pullData out 64 (Int.tdiv t.opts.IKLength 8).toNat).bind fun ik =>
  (pullData out 96 6).bind fun ak =>
  .ok { res := res, ck := ck, ik := ik, ak := ak }

/-- The options as configured, before `applyOptions` infers the K length. -/
def configuredOptions {σ : Type} (opts : List (Opt σ)) : Options σ :=
  opts.foldl (fun o opt => opt o)
    { KLength := 0, MACLength := 0, RESLength := 0, CKLength := 0, IKLength := 0,
      KeccakIterations := 1, DebugHook := none }

/-- A session as the constructors `New` and `NewWithTOPc` build it (the fields of `TUAK` are
not exported): its options are the result of `applyOptions` on its key. -/
def Constructed {σ : Type} (t : TUAK σ) : Prop :=
  ∃ opts : List (Opt σ), t.opts = applyOptions t.k opts

/-! ### Concrete inputs: test set 1 of 3GPP TS 35.233 -/

def exampleK : List Nat := List.replicate 16 0xab

def exampleTOP : List Nat := List.replicate 32 0x55

def exampleTOPc : List Nat :=
  [0xbd, 0x04, 0xd9, 0x53, 0x0e, 0x87, 0x51, 0x3c, 0x5d, 0x83, 0x7a, 0xc2, 0xad, 0x95, 0x46, 0x23,
   0xa8, 0xe2, 0x33, 0x0c, 0x11, 0x53, 0x05, 0xa7, 0x3e, 0xb4, 0x5d, 0x1f, 0x40, 0xcc, 0xcb, 0xff]

def exampleRAND : List Nat := List.replicate 16 0x42

def exampleSQN : List Nat := List.replicate 6 0x11

def exampleAMF : List Nat := [0xff, 0xff]

/-- A session on test set 1 holding the precomputed TOPc. -/
def exampleSession : TUAK Unit :=
  NewWithTOPc exampleK (some exampleTOPc) exampleRAND exampleSQN exampleAMF
    [WithMACLength 64, WithRESLength 32, WithCKLength 128, WithIKLength 128]

/-- The same session with `WithKeccakIterations(0)`. -/
def exampleSessionZeroIter : TUAK Unit :=
  NewWithTOPc exampleK (some exampleTOPc) exampleRAND exampleSQN exampleAMF
    [WithMACLength 64, WithRESLength 32, WithCKLength 128, WithIKLength 128,
     WithKeccakIterations 0]

end Tuak
namespace Tuak

/-! ### Concrete sessions for the session claims -/

/-- A TOPc of 5 bytes. -/
def exampleShortTOPc : List Nat := [0xbd, 0x04, 0xd9, 0x53, 0x0e]

/-- `NewWithTOPc` with the 5-byte TOPc; every other input is the one of test set 1. -/
def shortTopcSession : TUAK Unit :=
  NewWithTOPc exampleK (some exampleShortTOPc) exampleRAND exampleSQN exampleAMF
    [WithMACLength 64, WithRESLength 32, WithCKLength 128, WithIKLength 128]

/-- The state that `F1` assembles on `shortTopcSession`: the 5 reversed TOPc bytes, then 27
zero bytes up to the instance byte. -/
def shortTopcState : List Nat :=
  exampleShortTOPc.reverse ++ List.replicate 27 0 ++ [0x08] ++ algoName.reverse
    ++ exampleRAND.reverse ++ exampleAMF.reverse ++ exampleSQN.reverse ++ exampleK.reverse
    ++ List.replicate 16 0 ++ [0x1F] ++ List.replicate 38 0 ++ [0x80] ++ List.replicate 64 0

/-- `NewWithTOPc` with a TOPc of 201 bytes. -/
def longTopcSession : TUAK Unit :=
  NewWithTOPc exampleK (some (List.replicate 201 0x55)) exampleRAND exampleSQN exampleAMF
    [WithMACLength 64, WithRESLength 32, WithCKLength 128, WithIKLength 128]

/-- `New` on test set 1 with no output length configured: valid K and TOP, MACLength unset. -/
def topSessionNoLengths : TUAK Unit :=
  New exampleK (some exampleTOP) exampleRAND exampleSQN exampleAMF []

/-- `New` with a nil TOP: the session holds neither TOP nor TOPc. -/
def noTopSession : TUAK Unit :=
  New exampleK none exampleRAND exampleSQN exampleAMF
    [WithMACLength 64, WithRESLength 32, WithCKLength 128, WithIKLength 128]

end Tuak
namespace Tuak

/-! ### `debug.go` -/

/-- Go `encoding/hex`: the digit table that `hex.Encode` indexes. -/
def hextable : List Char := "0123456789abcdef".toList

/-- Go `hex.Encode(buf[:], []byte{v})`: `buf[0] = hextable[v>>4]`, `buf[1] = hextable[v&0x0f]`. -/
def hexEncode (v : Nat) : List Char :=
  [hextable.getD (v >>> 4) '0', hextable.getD (v &&& 0x0f) '0']

/-- `DebugHexBytes`: the `strings.Builder` is the list of characters written so far. -/
def DebugHexBytes (data : List Nat) : String :=
  if data.length = 0 then ""
  else
    String.mk ((List.range data.length).foldl
      (fun (b : List Char) (i : Nat) =>
        let b := if i > 0 then b ++ [' '] else b
        b ++ hexEncode (data.getD i 0)) [])

/-- The lowercase hexadecimal digit of `d < 16`: `0`..`9`, then `a`..`f`. -/
def lowerHexDigit (d : Nat) : Char :=
  if d < 10 then Char.ofNat (48 + d) else Char.ofNat (87 + d)

end Tuak

namespace Tuak.Keccak.Reference

/-- The lane walk of rho and pi: `(x, y) ↦ (y, (2x + 3y) mod 5)`. -/
def piStep (p : Nat × Nat) : Nat × Nat := (p.2, (2 * p.1 + 3 * p.2) % 5)

end Tuak.Keccak.Reference

namespace Tuak

/-! ### Legal parameters of the instance byte -/

/-- The K lengths (bits) the instance functions accept. -/
def legalKLengths : List Int := [128, 256]

/-- The MAC lengths (bits) `instanceForF1` accepts. -/
def legalMACLengths : List Int := [64, 128, 256]

/-- The RES lengths (bits) `instanceForF2345` accepts. -/
def legalRESLengths : List Int := [32, 64, 128, 256]

/-- The CK and IK lengths (bits) `instanceForF2345` accepts. -/
def legalCKIKLengths : List Int := [128, 256]

end Tuak

namespace Tuak

/-! ### Padding and hook reports -/

/-- The padding of `newState` is in place: 200 bytes, `0x1F` at byte 96, `0x80` at byte 135
and zero on bytes [97,135) and [136,200). -/
def PaddingIntact (S : List Nat) : Prop :=
  S.length = 200 ∧ S.getD 96 0 = 0x1F ∧ S.getD 135 0 = 0x80 ∧
  (∀ i, 97 ≤ i → i < 135 → S.getD i 0 = 0) ∧ (∀ i, 136 ≤ i → i < 200 → S.getD i 0 = 0)

/-- The label of the report of iteration `i` (counted from 1) in a run configured with `n`
iterations: `<fn>.out` when n <= 1, `<fn>.out.<i>` when n >= 2. -/
def reportLabel (fn : String) (n : Int) (i : Nat) : String :=
  if n ≤ 1 then fn ++ ".out" else fn ++ ".out." ++ toString i

/-- The reports of one run in order: `<fn>.in` with the packed state, then the output of
iteration 1, 2, .. under its label. -/
def expectedReports (fn : String) (n : Int) (S : List Nat) (outs : List (List Nat)) :
    List (String × List Nat) :=
  (fn ++ ".in", S) ::
    (List.range outs.length).map (fun i => (reportLabel fn n (i + 1), outs.getD i []))

/-- Handing a sequence of reports to the hook, first to last. -/
def deliver {σ : Type} (hook : DebugHook σ) (reports : List (String × List Nat)) (w : σ) : σ :=
  reports.foldl (fun w r => callDebug hook r.1 r.2 w) w

/-- The list `outs` holds the states after 1, 2, .., N applications of `PermuteF1600` to `S`,
each of 200 bytes. -/
def IteratesOf (S : List Nat) (N : Nat) (outs : List (List Nat)) : Prop :=
  outs.length = N ∧
    ∀ i, i < N → permuteTimes (i + 1) S = .ok (outs.getD i []) ∧ (outs.getD i []).length = 200

/-- The session `t` with its debug hook replaced by `hook` (`none`: no hook). -/
def withHook {σ : Type} (t : TUAK σ) (hook : DebugHook σ) : TUAK σ :=
  { t with opts := { t.opts with DebugHook := hook } }

end Tuak
namespace Tuak

/-! ### Sessions that differ in SQN, AMF and MACLength -/

/-- The session `t` with its SQN, AMF and MACLength replaced. -/
def withSqnAmfMac {σ : Type} (t : TUAK σ) (sqn amf : List Nat) (mac : Int) : TUAK σ :=
  { t with sqn := sqn, amf := amf, opts := { t.opts with MACLength := mac } }

/-- The session of test set 1 with no SQN, a 3-byte AMF and MACLength 7. -/
def exampleSessionOtherSqnAmfMac : TUAK Unit :=
  NewWithTOPc exampleK (some exampleTOPc) exampleRAND [] [0x01, 0x02, 0x03]
    [WithMACLength 7, WithRESLength 32, WithCKLength 128, WithIKLength 128]

end Tuak
namespace Tuak

/-! ### A hook that is present -/

/-- What a hook function makes of a sequence of reports when it is called once on each of
them, first to last, each call on a label and a snapshot. -/
def calledOnEach {σ : Type} (f : String → List Nat → σ → σ)
    (reports : List (String × List Nat)) (w : σ) : σ :=
  reports.foldl (fun w r => f r.1 r.2 w) w

/-- A hook that appends every call it receives to a log. -/
def recordCall (label : String) (data : List Nat) (log : List (String × List Nat)) :
    List (String × List Nat) :=
  log ++ [(label, data)]

/-- Test set 1 with two Keccak iterations and the logging hook installed. -/
def recordingSession : TUAK (List (String × List Nat)) :=
  NewWithTOPc exampleK (some exampleTOPc) exampleRAND exampleSQN exampleAMF
    [WithMACLength 64, WithRESLength 32, WithCKLength 128, WithIKLength 128,
     WithKeccakIterations 2, WithDebugHook (some recordCall)]

end Tuak
namespace Tuak

/-! ## A loop of in-place writes at consecutive indices -/

theorem foldl_set_range (f : Nat → Nat) (off : Nat) (st : List Nat) :
    ∀ n, off + n ≤ st.length →
      (List.range n).foldl (fun st i => st.set (off + i) (f i)) st
        = st.take off ++ (List.range n).map f ++ st.drop (off + n) := by
  intro n
  induction n with
  | zero => intro _; simp
  | succ n ih =>
    intro h
    have hlt : off + n < st.length := by omega
    rw [List.range_succ, List.foldl_append, ih (by omega)]
    simp only [List.foldl_cons, List.foldl_nil, List.map_append, List.map_cons, List.map_nil]
    have hlen : (st.take off ++ (List.range n).map f).length = off + n := by
      simp; omega
    rw [List.set_append_right _ _ (by rw [hlen]), hlen, Nat.sub_self,
      List.drop_eq_getElem_cons hlt]
    simp [Nat.add_assoc]

end Tuak
namespace Tuak
namespace Keccak

/-! ## Word-level facts -/

theorem rotateLeft64_zero (x : Nat) (h : x < 2 ^ 64) : rotateLeft64 x 0 = x := by
  have h1 : x % 2 ^ 64 = x := Nat.mod_eq_of_lt h
  have h2 : x / 2 ^ 64 = 0 := Nat.div_eq_of_lt h
  simp only [rotateLeft64, Nat.zero_mod, Nat.shiftLeft_zero, Nat.sub_zero,
    Nat.shiftRight_eq_div_pow, h1, h2, Nat.or_zero]

theorem rotateLeft64_lt (x k : Nat) (h : x < 2 ^ 64) : rotateLeft64 x k < 2 ^ 64 := by
  unfold rotateLeft64
  apply Nat.or_lt_two_pow
  · exact Nat.mod_lt _ (by norm_num)
  · rw [Nat.shiftRight_eq_div_pow]
    exact lt_of_le_of_lt (Nat.div_le_self _ _) h

theorem getD_lt_of_bounded {a : List Nat} (h : Bounded64 a) (i : Nat) : a.getD i 0 < 2 ^ 64 := by
  rw [List.getD_eq_getElem?_getD]
  cases hi : a[i]? with
  | none => simp
  | some v => simpa using h v (List.getElem?_mem hi)

theorem bounded_set {a : List Nat} (h : Bounded64 a) (i v : Nat) (hv : v < 2 ^ 64) :
    Bounded64 (a.set i v) := by
  intro x hx
  rcases List.mem_or_eq_of_mem_set hx with h1 | h1
  · exact h x h1
  · exact h1 ▸ hv

theorem bounded_replicate_zero (n : Nat) : Bounded64 (List.replicate n 0) := by
  intro x hx
  rw [List.eq_of_mem_replicate hx]
  norm_num

/-! ## Every list of 25 lanes (5 parities) is an explicit list -/

theorem length_eq_five {l : List Nat} (h : l.length = 5) :
    ∃ b0 b1 b2 b3 b4, l = [b0, b1, b2, b3, b4] := by
  match l, h with
  | [b0, b1, b2, b3, b4], _ => exact ⟨b0, b1, b2, b3, b4, rfl⟩

theorem length_eq_twentyfive {l : List Nat} (h : l.length = 25) :
    ∃ a0 a1 a2 a3 a4 a5 a6 a7 a8 a9 a10 a11 a12 a13 a14 a15 a16 a17 a18 a19 a20 a21 a22 a23
      a24, l = [a0, a1, a2, a3, a4, a5, a6, a7, a8, a9, a10, a11, a12, a13, a14, a15, a16, a17,
        a18, a19, a20, a21, a22, a23, a24] := by
  match l, h with
  | [a0, a1, a2, a3, a4, a5, a6, a7, a8, a9, a10, a11, a12, a13, a14, a15, a16, a17,
        a18, a19, a20, a21, a22, a23, a24], _ =>
    exact ⟨a0, a1, a2, a3, a4, a5, a6, a7, a8, a9, a10, a11, a12, a13, a14, a15, a16, a17,
        a18, a19, a20, a21, a22, a23, a24, rfl⟩

/-! ## The three loops against the three step mappings -/

theorem thetaParity_length (a bc : List Nat) : (thetaParity a bc).length = bc.length := by
  unfold thetaParity
  generalize List.range 5 = l
  induction l generalizing bc with
  | nil => rfl
  | cons i l ih => simp only [List.foldl_cons]; rw [ih]; simp

theorem theta_refines (a bc : List Nat) (ha : a.length = 25) (hbc : bc.length = 5) :
    thetaApply a (thetaParity a bc) = Reference.theta a := by
  obtain ⟨a0, a1, a2, a3, a4, a5, a6, a7, a8, a9, a10, a11, a12, a13, a14, a15, a16, a17,
    a18, a19, a20, a21, a22, a23, a24, rfl⟩ := length_eq_twentyfive ha
  obtain ⟨b0, b1, b2, b3, b4, rfl⟩ := length_eq_five hbc
  simp [thetaApply, thetaParity, Reference.theta, Reference.tabulate, Reference.lane,
    Reference.columnParity, at_, List.range, List.range.loop]

theorem rhoPi_refines (a bc : List Nat) (ha : a.length = 25) (hbc : bc.length = 5)
    (h0 : a.getD 0 0 < 2 ^ 64) :
    (rhoPiChain a bc).1 = Reference.rhoPi a ∧ (rhoPiChain a bc).2.1.length = 5 := by
  obtain ⟨a0, a1, a2, a3, a4, a5, a6, a7, a8, a9, a10, a11, a12, a13, a14, a15, a16, a17,
    a18, a19, a20, a21, a22, a23, a24, rfl⟩ := length_eq_twentyfive ha
  obtain ⟨b0, b1, b2, b3, b4, rfl⟩ := length_eq_five hbc
  have h0' : a0 < 2 ^ 64 := by simpa using h0
  simp [rhoPiChain, Reference.rhoPi, Reference.lane, Reference.rotationOffsets, keccakPiLane,
    keccakRotc, at_, List.range, List.range.loop, rotateLeft64_zero _ h0']

theorem chi_refines (a bc : List Nat) (ha : a.length = 25) (hbc : bc.length = 5) :
    (chiRows a bc).1 = Reference.chi a ∧ (chiRows a bc).2.length = 5 := by
  obtain ⟨a0, a1, a2, a3, a4, a5, a6, a7, a8, a9, a10, a11, a12, a13, a14, a15, a16, a17,
    a18, a19, a20, a21, a22, a23, a24, rfl⟩ := length_eq_twentyfive ha
  obtain ⟨b0, b1, b2, b3, b4, rfl⟩ := length_eq_five hbc
  simp [chiRows, Reference.chi, Reference.tabulate, Reference.lane, at_, List.range,
    List.range.loop]

/-! ## Lengths and 64-bit bounds of the reference steps -/

theorem tabulate_length (f : Nat → Nat → Nat) : (Reference.tabulate f).length = 25 := by
  simp [Reference.tabulate]

theorem tabulate_bounded (f : Nat → Nat → Nat) (h : ∀ x y, f x y < 2 ^ 64) :
    Bounded64 (Reference.tabulate f) := by
  intro v hv
  simp only [Reference.tabulate, List.mem_map] at hv
  obtain ⟨i, _, rfl⟩ := hv
  exact h _ _

theorem lane_lt {A : List Nat} (h : Bounded64 A) (x y : Nat) : Reference.lane A x y < 2 ^ 64 :=
  getD_lt_of_bounded h _

theorem columnParity_lt {A : List Nat} (h : Bounded64 A) (x : Nat) :
    Reference.columnParity A x < 2 ^ 64 := by
  unfold Reference.columnParity
  repeat' apply Nat.xor_lt_two_pow
  all_goals exact lane_lt h _ _

theorem theta_length (A : List Nat) : (Reference.theta A).length = 25 := tabulate_length _

theorem theta_bounded {A : List Nat} (h : Bounded64 A) : Bounded64 (Reference.theta A) := by
  apply tabulate_bounded
  intro x y
  apply Nat.xor_lt_two_pow (lane_lt h _ _)
  exact Nat.xor_lt_two_pow (columnParity_lt h _) (rotateLeft64_lt _ _ (columnParity_lt h _))

theorem rhoPi_length_bounded {A : List Nat} (h : Bounded64 A) :
    (Reference.rhoPi A).length = 25 ∧ Bounded64 (Reference.rhoPi A) := by
  unfold Reference.rhoPi
  have key : ∀ (l : List Nat) (B : List Nat), B.length = 25 → Bounded64 B →
      (l.foldl (fun B i => B.set (i / 5 + 5 * ((2 * (i % 5) + 3 * (i / 5)) % 5))
        (rotateLeft64 (Reference.lane A (i % 5) (i / 5))
          (Reference.lane Reference.rotationOffsets (i % 5) (i / 5)))) B).length = 25 ∧
      Bounded64 (l.foldl (fun B i => B.set (i / 5 + 5 * ((2 * (i % 5) + 3 * (i / 5)) % 5))
        (rotateLeft64 (Reference.lane A (i % 5) (i / 5))
          (Reference.lane Reference.rotationOffsets (i % 5) (i / 5)))) B) := by
    intro l
    induction l with
    | nil => intro B h1 h2; exact ⟨h1, h2⟩
    | cons i l ih =>
      intro B h1 h2
      simp only [List.foldl_cons]
      exact ih _ (by simpa using h1) (bounded_set h2 _ _ (rotateLeft64_lt _ _ (lane_lt h _ _)))
  exact key _ _ (by simp) (bounded_replicate_zero _)

theorem chi_length (B : List Nat) : (Reference.chi B).length = 25 := tabulate_length _

theorem chi_bounded {B : List Nat} (h : Bounded64 B) : Bounded64 (Reference.chi B) := by
  apply tabulate_bounded
  intro x y
  exact Nat.xor_lt_two_pow (lane_lt h _ _) (Nat.and_lt_two_pow _ (lane_lt h _ _))

theorem roundConstant_eq_table :
    ∀ r < 24, at_ keccakRoundConst r = Reference.roundConstant r := by
  decide

theorem roundConstant_lt : ∀ r < 24, Reference.roundConstant r < 2 ^ 64 := by
  decide

end Keccak
end Tuak
namespace Tuak
namespace Keccak

/-! ## One round, then 24 rounds -/

theorem round_length_bounded {A : List Nat} (h : Bounded64 A) (r : Nat) (hr : r < 24) :
    (Reference.round A r).length = 25 ∧ Bounded64 (Reference.round A r) := by
  have h1 := rhoPi_length_bounded (theta_bounded h)
  have h2 := chi_bounded h1.2
  unfold Reference.round Reference.iota
  refine ⟨by simp [chi_length], bounded_set h2 _ _ ?_⟩
  exact Nat.xor_lt_two_pow (lane_lt h2 _ _) (roundConstant_lt r hr)

theorem keccakRound_refines (a bc : List Nat) (ha : a.length = 25) (hbc : bc.length = 5)
    (hb : Bounded64 a) (r : Nat) (hr : r < 24) :
    (keccakRound (a, bc) r).1 = Reference.round a r ∧ (keccakRound (a, bc) r).2.length = 5 := by
  have hbc1 : (thetaParity a bc).length = 5 := by rw [thetaParity_length, hbc]
  have h1 := theta_refines a bc ha hbc
  have h2 := rhoPi_refines (Reference.theta a) (thetaParity a bc) (theta_length a) hbc1
    (getD_lt_of_bounded (theta_bounded hb) 0)
  have h3 := chi_refines (Reference.rhoPi (Reference.theta a))
    (rhoPiChain (Reference.theta a) (thetaParity a bc)).2.1
    (rhoPi_length_bounded (theta_bounded hb)).1 h2.2
  simp only [keccakRound, h1, h2.1, h3.1, h3.2, roundConstant_eq_table r hr, and_true]
  rfl

theorem keccakRounds_refine (n : Nat) (hn : n ≤ 24) (a bc : List Nat) (ha : a.length = 25)
    (hbc : bc.length = 5) (hb : Bounded64 a) :
    ((List.range n).foldl keccakRound (a, bc)).1 = (List.range n).foldl Reference.round a ∧
    ((List.range n).foldl keccakRound (a, bc)).2.length = 5 ∧
    ((List.range n).foldl Reference.round a).length = 25 ∧
    Bounded64 ((List.range n).foldl Reference.round a) := by
  induction n with
  | zero => exact ⟨rfl, hbc, ha, hb⟩
  | succ n ih =>
    obtain ⟨e1, e2, e3, e4⟩ := ih (by omega)
    simp only [List.range_succ, List.foldl_append, List.foldl_cons, List.foldl_nil]
    have hrb := round_length_bounded e4 n (by omega)
    generalize List.foldl keccakRound (a, bc) (List.range n) = s at e1 e2 ⊢
    obtain ⟨s1, s2⟩ := s
    simp only at e1 e2
    subst e1
    have hstep := keccakRound_refines _ _ e3 e2 e4 n (by omega)
    exact ⟨hstep.1, hstep.2, hrb.1, hrb.2⟩

theorem keccakF1600_refines (a : List Nat) (ha : a.length = 25) (hb : Bounded64 a) :
    keccakF1600 a = Reference.rounds a :=
  (keccakRounds_refine 24 (le_refl _) a (List.replicate 5 0) ha (by simp) hb).1

end Keccak
end Tuak
namespace Tuak
namespace Keccak

/-! ## Bytes to lanes and back -/

theorem or_shiftLeft_eq_add (p b k : Nat) (hp : p < 2 ^ k) : p ||| b <<< k = p + b * 2 ^ k := by
  rw [Nat.shiftLeft_eq, Nat.or_comm, Nat.mul_comm, ← Nat.mul_add_lt_is_or hp, Nat.add_comm]

theorem leUint64_eq_sum (b : List Nat) (hb : ∀ j, at_ b j < 256) :
    leUint64 b = at_ b 0 + at_ b 1 * 256 + at_ b 2 * 256 ^ 2 + at_ b 3 * 256 ^ 3
      + at_ b 4 * 256 ^ 4 + at_ b 5 * 256 ^ 5 + at_ b 6 * 256 ^ 6 + at_ b 7 * 256 ^ 7 := by
  have h0 := hb 0
  have h1 := hb 1
  have h2 := hb 2
  have h3 := hb 3
  have h4 := hb 4
  have h5 := hb 5
  have h6 := hb 6
  unfold leUint64
  rw [or_shiftLeft_eq_add _ _ 8 (by norm_num; omega)]
  rw [or_shiftLeft_eq_add _ _ 16 (by norm_num; omega)]
  rw [or_shiftLeft_eq_add _ _ 24 (by norm_num; omega)]
  rw [or_shiftLeft_eq_add _ _ 32 (by norm_num; omega)]
  rw [or_shiftLeft_eq_add _ _ 40 (by norm_num; omega)]
  rw [or_shiftLeft_eq_add _ _ 48 (by norm_num; omega)]
  rw [or_shiftLeft_eq_add _ _ 56 (by norm_num; omega)]
  norm_num

theorem leUint64_lt (b : List Nat) (hb : ∀ j, at_ b j < 256) : leUint64 b < 2 ^ 64 := by
  rw [leUint64_eq_sum b hb]
  have h0 := hb 0
  have h1 := hb 1
  have h2 := hb 2
  have h3 := hb 3
  have h4 := hb 4
  have h5 := hb 5
  have h6 := hb 6
  have h7 := hb 7
  norm_num
  omega

end Keccak
end Tuak
namespace Tuak
namespace Keccak

theorem at_take_drop (input : List Nat) (k j : Nat) (hj : j < 8) :
    at_ ((input.drop k).take 8) j = input.getD (k + j) 0 := by
  simp [at_, List.getElem?_take, hj]

theorem at_take_drop_lt (input : List Nat) (hb : ∀ b ∈ input, b < 256) (k j : Nat) :
    at_ ((input.drop k).take 8) j < 256 := by
  unfold at_
  rw [List.getD_eq_getElem?_getD]
  cases hi : ((input.drop k).take 8)[j]? with
  | none => simp
  | some v =>
    have := List.getElem?_mem hi
    have := hb v (List.mem_of_mem_drop (List.mem_of_mem_take this))
    simpa using this

theorem load_lane_eq (input : List Nat) (hb : ∀ b ∈ input, b < 256) (i : Nat) :
    leUint64 ((input.drop (i * 8)).take 8) =
      ((List.range 8).map (fun j => input.getD (8 * i + j) 0 * 256 ^ j)).sum := by
  rw [leUint64_eq_sum _ (at_take_drop_lt input hb _)]
  simp only [at_take_drop _ _ _ (by norm_num : 0 < 8), at_take_drop _ _ _ (by norm_num : 1 < 8),
    at_take_drop _ _ _ (by norm_num : 2 < 8), at_take_drop _ _ _ (by norm_num : 3 < 8),
    at_take_drop _ _ _ (by norm_num : 4 < 8), at_take_drop _ _ _ (by norm_num : 5 < 8),
    at_take_drop _ _ _ (by norm_num : 6 < 8), at_take_drop _ _ _ (by norm_num : 7 < 8)]
  simp [List.range, List.range.loop, Nat.mul_comm i 8]
  ring

theorem load_refines (input : List Nat) (hb : ∀ b ∈ input, b < 256) :
    (List.range 25).foldl (fun a i => a.set i (leUint64 ((input.drop (i * 8)).take 8)))
      (List.replicate 25 0) = Reference.lanesOfBytes input := by
  unfold Reference.lanesOfBytes
  simp only [← load_lane_eq input hb]
  simp [List.range, List.range.loop, List.replicate]

theorem lanesOfBytes_length (input : List Nat) : (Reference.lanesOfBytes input).length = 25 := by
  simp [Reference.lanesOfBytes]

theorem lanesOfBytes_bounded (input : List Nat) (hb : ∀ b ∈ input, b < 256) :
    Bounded64 (Reference.lanesOfBytes input) := by
  intro v hv
  simp only [Reference.lanesOfBytes, List.mem_map] at hv
  obtain ⟨i, _, rfl⟩ := hv
  rw [← load_lane_eq input hb]
  exact leUint64_lt _ (at_take_drop_lt input hb _)

end Keccak
end Tuak
namespace Tuak
namespace Keccak

theorem lePutUint64_eq (out : List Nat) (off v : Nat) (h : off + 8 ≤ out.length) :
    lePutUint64 out off v
      = out.take off ++ (List.range 8).map (fun j => (v >>> (8 * j)) % 256)
        ++ out.drop (off + 8) := by
  have e : lePutUint64 out off v
      = (List.range 8).foldl (fun o j => o.set (off + j) ((v >>> (8 * j)) % 256)) out := rfl
  rw [e, foldl_set_range _ _ _ 8 h]

theorem store_fold (a : List Nat) (n : Nat) (hn : n ≤ 25) :
    (List.range n).foldl (fun out i => lePutUint64 out (i * 8) (at_ a i)) (List.replicate 200 0)
      = (List.range (8 * n)).map (fun k => (at_ a (k / 8) >>> (8 * (k % 8))) % 256)
        ++ List.replicate (200 - 8 * n) 0 := by
  induction n with
  | zero => rfl
  | succ n ih =>
    rw [List.range_succ, List.foldl_append, ih (by omega)]
    simp only [List.foldl_cons, List.foldl_nil]
    have hlen : ((List.range (8 * n)).map
        (fun k => (at_ a (k / 8) >>> (8 * (k % 8))) % 256)).length = n * 8 := by
      simp [Nat.mul_comm]
    rw [lePutUint64_eq _ _ _ (by simp; omega), List.take_left' hlen,
      List.drop_append_eq_append_drop, List.drop_of_length_le (by rw [hlen]; omega), hlen,
      List.drop_replicate]
    have e1 : 8 * (n + 1) = 8 * n + 8 := by ring
    have e2 : 200 - 8 * n - (n * 8 + 8 - n * 8) = 200 - (8 * n + 8) := by omega
    rw [e1, List.range_add, List.map_append, List.map_map, e2, List.nil_append]
    congr 2
    apply List.map_congr_left
    intro j hj
    have hj8 : j < 8 := List.mem_range.mp hj
    have d1 : (8 * n + j) / 8 = n := by omega
    have d2 : (8 * n + j) % 8 = j := by omega
    simp only [Function.comp, d1, d2]

theorem store_refines (a : List Nat) :
    (List.range 25).foldl (fun out i => lePutUint64 out (i * 8) (at_ a i))
      (List.replicate 200 0) = Reference.bytesOfLanes a := by
  rw [store_fold a 25 (le_refl _)]
  unfold Reference.bytesOfLanes
  have e : List.replicate (200 - 8 * 25) 0 = ([] : List Nat) := rfl
  rw [e, List.append_nil]
  apply List.map_congr_left
  intro k _
  rw [Nat.shiftRight_eq_div_pow, Nat.pow_mul]
  rfl

end Keccak
end Tuak
namespace Tuak

/-! ## The state codec -/

theorem foldlM_guard_set (off len : Nat) (g : Nat → Nat) (b : Nat → Nat) :
    ∀ (l : List Nat) (st : List Nat), (∀ i ∈ l, b i < len) → st.length = len →
      l.foldlM (fun st i => if b i < st.length then Except.ok (st.set (off + i) (g i))
        else Except.error TuakError.runtimeFault) st
        = Except.ok (l.foldl (fun st i => st.set (off + i) (g i)) st) := by
  intro l
  induction l with
  | nil => intro st _ _; rfl
  | cons i l ih =>
    intro st h hst
    have hi : b i < st.length := by rw [hst]; exact h i (List.mem_cons_self _ _)
    simp only [List.foldlM_cons, List.foldl_cons, hi, if_true]
    exact ih _ (fun j hj => h j (List.mem_cons_of_mem _ hj)) (by simpa using hst)

theorem foldlM_guard_const (g : Nat → Nat) (c : Nat → Prop) [DecidablePred c] :
    ∀ (l : List Nat) (out : List Nat), (∀ i ∈ l, c i) →
      l.foldlM (fun out i => if c i then Except.ok (out.set i (g i))
        else Except.error TuakError.runtimeFault) out
        = Except.ok (l.foldl (fun out i => out.set i (g i)) out) := by
  intro l
  induction l with
  | nil => intro out _; rfl
  | cons i l ih =>
    intro out h
    have hi : c i := h i (List.mem_cons_self _ _)
    simp only [List.foldlM_cons, List.foldl_cons, hi, if_true]
    exact ih _ (fun j hj => h j (List.mem_cons_of_mem _ hj))

theorem map_range_reverse_index (data : List Nat) :
    (List.range data.length).map (fun i => data.getD (data.length - 1 - i) 0) = data.reverse := by
  apply List.ext_getElem
  · simp
  · intro n h1 h2
    simp only [List.length_map, List.length_range] at h1
    simp only [List.getElem_map, List.getElem_range, List.getElem_reverse]
    rw [List.getD_eq_getElem _ _ (by omega)]

theorem pushData_ok (state : List Nat) (offset : Nat) (data : List Nat)
    (h : offset + data.length ≤ state.length) :
    pushData state offset data
      = .ok (state.take offset ++ data.reverse ++ state.drop (offset + data.length)) := by
  unfold pushData
  rw [foldlM_guard_set offset state.length (fun i => data.getD (data.length - 1 - i) 0)
    (fun i => offset + i) _ state
    (by intro i hi; have := List.mem_range.mp hi; show offset + i < _; omega) rfl]
  rw [foldl_set_range _ _ _ _ h, map_range_reverse_index]

theorem pullData_ok (state : List Nat) (offset length : Nat)
    (h : offset + length ≤ state.length) :
    pullData state offset length = .ok ((state.drop offset).take length).reverse := by
  unfold pullData
  rw [foldlM_guard_const (fun i => state.getD (offset + length - 1 - i) 0)
    (fun i => offset + length - 1 - i < state.length) _ _
    (by intro i hi; have := List.mem_range.mp hi; show _ < _; omega)]
  have h0 := foldl_set_range (fun i => state.getD (offset + length - 1 - i) 0) 0
    (List.replicate length 0) length (by simp)
  simp only [Nat.zero_add, List.take_zero, List.nil_append] at h0
  rw [h0]
  have hd : (List.replicate length 0).drop length = ([] : List Nat) := by simp
  rw [hd, List.append_nil]
  congr 1
  apply List.ext_getElem
  · simp; omega
  · intro n h1 h2
    simp only [List.length_map, List.length_range] at h1
    simp only [List.getElem_map, List.getElem_range, List.getElem_reverse, List.getElem_take,
      List.getElem_drop]
    rw [List.getD_eq_getElem _ _ (by omega)]
    congr 1
    simp only [List.length_take, List.length_drop]
    omega

end Tuak
namespace Tuak

theorem pushData_into_zeros (P T data : List Nat) (m off : Nat) (hoff : P.length ≤ off)
    (hfit : off - P.length + data.length ≤ m) :
    pushData (P ++ (List.replicate m 0 ++ T)) off data
      = .ok (P ++ List.replicate (off - P.length) 0 ++ data.reverse
          ++ (List.replicate (m - (off - P.length) - data.length) 0 ++ T)) := by
  rw [pushData_ok _ _ _ (by simp; omega)]
  congr 1
  have h1 : List.take off (P ++ (List.replicate m 0 ++ T))
      = P ++ List.replicate (off - P.length) 0 := by
    rw [List.take_append_eq_append_take, List.take_of_length_le hoff,
      List.take_append_eq_append_take, List.take_replicate, List.length_replicate]
    have e1 : min (off - P.length) m = off - P.length := by omega
    have e2 : off - P.length - m = 0 := by omega
    rw [e1, e2]
    simp
  have h2 : List.drop (off + data.length) (P ++ (List.replicate m 0 ++ T))
      = List.replicate (m - (off - P.length) - data.length) 0 ++ T := by
    rw [List.drop_append_eq_append_drop, List.drop_of_length_le (by omega),
      List.drop_append_eq_append_drop, List.drop_replicate, List.length_replicate]
    have e1 : m - (off + data.length - P.length) = m - (off - P.length) - data.length := by
      omega
    have e2 : off + data.length - P.length - m = 0 := by omega
    rw [e1, e2]
    simp
  rw [h1, h2]

theorem set_into_zeros (P T : List Nat) (m off v : Nat) (hoff : off = P.length) (hm : 1 ≤ m) :
    (P ++ (List.replicate m 0 ++ T)).set off v
      = P ++ [v] ++ (List.replicate (m - 1) 0 ++ T) := by
  subst hoff
  obtain ⟨m, rfl⟩ : ∃ k, m = k + 1 := ⟨m - 1, by omega⟩
  rw [List.set_append_right _ _ (le_refl _)]
  simp [List.replicate_succ]

set_option maxRecDepth 10000 in
theorem newState_eq :
    newState = [] ++ (List.replicate 96 0 ++ ([0x1F] ++ List.replicate 38 0 ++ [0x80]
      ++ List.replicate 64 0)) := by
  decide

theorem pushData_step (P T data : List Nat) (m off m' : Nat) (hoff : off = P.length)
    (hfit : data.length + m' = m) :
    pushData (P ++ (List.replicate m 0 ++ T)) off data
      = .ok (P ++ data.reverse ++ (List.replicate m' 0 ++ T)) := by
  rw [pushData_into_zeros P T data m off (by omega) (by omega)]
  have e1 : off - P.length = 0 := by omega
  have e2 : m - 0 - data.length = m' := by omega
  rw [e1, e2]
  simp

theorem pushData_step_gap (P T data : List Nat) (m off g m' : Nat) (hoff : off = P.length + g)
    (hfit : g + data.length + m' = m) :
    pushData (P ++ (List.replicate m 0 ++ T)) off data
      = .ok (P ++ List.replicate g 0 ++ data.reverse ++ (List.replicate m' 0 ++ T)) := by
  rw [pushData_into_zeros P T data m off (by omega) (by omega)]
  have e1 : off - P.length = g := by omega
  have e2 : m - g - data.length = m' := by omega
  rw [e1, e2]

/-- The state assembly of F1 and F1Star. -/
theorem assemble_f1 (topc rand amf sqn k : List Nat) (inst : Nat) (htopc : topc.length = 32)
    (hrand : rand.length = 16) (hamf : amf.length = 2) (hsqn : sqn.length = 6)
    (hk : k.length ≤ 32) :
    ((pushData newState offsetTOP topc).bind fun state =>
      (pushData (state.set offsetInst inst) offsetAlgo algoName).bind fun state =>
      (pushData state offsetRAND rand).bind fun state =>
      (pushData state offsetAMF amf).bind fun state =>
      (pushData state offsetSQN sqn).bind fun state =>
      pushData state offsetK k)
      = .ok (layoutState topc inst rand amf sqn k) := by
  rw [newState_eq, pushData_step [] _ topc 96 offsetTOP 64 rfl (by omega)]
  simp only [Except.bind]
  rw [set_into_zeros _ _ 64 offsetInst inst (by simp [offsetInst, htopc]) (by omega),
    pushData_step _ _ algoName 63 offsetAlgo 56 (by simp [offsetAlgo, htopc])
      (by simp [algoName])]
  simp only [Except.bind]
  rw [pushData_step _ _ rand 56 offsetRAND 40 (by simp [offsetRAND, htopc, algoName])
    (by omega)]
  simp only [Except.bind]
  rw [pushData_step _ _ amf 40 offsetAMF 38 (by simp [offsetAMF, htopc, algoName, hrand])
    (by omega)]
  simp only [Except.bind]
  rw [pushData_step _ _ sqn 38 offsetSQN 32
    (by simp [offsetSQN, htopc, algoName, hrand, hamf]) (by omega)]
  simp only [Except.bind]
  rw [pushData_step _ _ k 32 offsetK (32 - k.length)
    (by simp [offsetK, htopc, algoName, hrand, hamf, hsqn]) (by omega)]
  simp [layoutState, List.append_assoc]

/-- The state assembly of F2345 and F5Star: the AMF and SQN ranges stay zero. -/
theorem assemble_f2345 (topc rand k : List Nat) (inst : Nat) (htopc : topc.length = 32)
    (hrand : rand.length = 16) (hk : k.length ≤ 32) :
    ((pushData newState offsetTOP topc).bind fun state =>
      (pushData (state.set offsetInst inst) offsetAlgo algoName).bind fun state =>
      (pushData state offsetRAND rand).bind fun state =>
      pushData state offsetK k)
      = .ok (layoutState topc inst rand (List.replicate 2 0) (List.replicate 6 0) k) := by
  rw [newState_eq, pushData_step [] _ topc 96 offsetTOP 64 rfl (by omega)]
  simp only [Except.bind]
  rw [set_into_zeros _ _ 64 offsetInst inst (by simp [offsetInst, htopc]) (by omega),
    pushData_step _ _ algoName 63 offsetAlgo 56 (by simp [offsetAlgo, htopc])
      (by simp [algoName])]
  simp only [Except.bind]
  rw [pushData_step _ _ rand 56 offsetRAND 40 (by simp [offsetRAND, htopc, algoName])
    (by omega)]
  simp only [Except.bind]
  rw [pushData_step_gap _ _ k 40 offsetK 8 (32 - k.length)
    (by simp [offsetK, htopc, algoName, hrand]) (by omega)]
  simp [layoutState, List.append_assoc, List.replicate]

/-- The state assembly of ComputeTOPc: the RAND, AMF and SQN ranges stay zero. -/
theorem assemble_topc (top k : List Nat) (inst : Nat) (htop : top.length = 32)
    (hk : k.length ≤ 32) :
    ((pushData newState offsetTOP top).bind fun state =>
      (pushData (state.set offsetInst inst) offsetAlgo algoName).bind fun state =>
      pushData state offsetK k)
      = .ok (layoutState top inst (List.replicate 16 0) (List.replicate 2 0)
          (List.replicate 6 0) k) := by
  rw [newState_eq, pushData_step [] _ top 96 offsetTOP 64 rfl (by omega)]
  simp only [Except.bind]
  rw [set_into_zeros _ _ 64 offsetInst inst (by simp [offsetInst, htop]) (by omega),
    pushData_step _ _ algoName 63 offsetAlgo 56 (by simp [offsetAlgo, htop])
      (by simp [algoName])]
  simp only [Except.bind]
  rw [pushData_step_gap _ _ k 56 offsetK 24 (32 - k.length)
    (by simp [offsetK, htop, algoName]) (by omega)]
  simp [layoutState, List.append_assoc, List.replicate]

theorem layoutState_length (top rand amf sqn k : List Nat) (inst : Nat) (htop : top.length = 32)
    (hrand : rand.length = 16) (hamf : amf.length = 2) (hsqn : sqn.length = 6)
    (hk : k.length ≤ 32) : (layoutState top inst rand amf sqn k).length = 200 := by
  simp [layoutState, htop, hrand, hamf, hsqn, algoName]
  omega

end Tuak
namespace Tuak

/-! ## `PermuteF1600` succeeds on 200 bytes; the iterated permutation -/

theorem lePutUint64_length (out : List Nat) (off v : Nat) :
    (Keccak.lePutUint64 out off v).length = out.length := by
  simp [Keccak.lePutUint64]

theorem store_length (a : List Nat) (l : List Nat) (out : List Nat) :
    (l.foldl (fun out i => Keccak.lePutUint64 out (i * 8) (Keccak.at_ a i)) out).length
      = out.length := by
  induction l generalizing out with
  | nil => rfl
  | cons i l ih => rw [List.foldl_cons, ih, lePutUint64_length]

theorem permuteF1600_ok (input : List Nat) (h : input.length = 200) :
    ∃ out, Keccak.PermuteF1600 input = .ok out ∧ out.length = 200 := by
  unfold Keccak.PermuteF1600
  rw [if_neg (by simp [h])]
  exact ⟨_, rfl, by rw [store_length, List.length_replicate]⟩

theorem permuteF1600_error (input : List Nat) (h : input.length ≠ 200) :
    Keccak.PermuteF1600 input = .error .errInvalidLength := by
  unfold Keccak.PermuteF1600
  rw [if_pos h]

theorem permuteTimes_ok (n : Nat) (s : List Nat) (h : s.length = 200) :
    ∃ out, permuteTimes n s = .ok out ∧ out.length = 200 := by
  induction n with
  | zero => exact ⟨s, rfl, h⟩
  | succ n ih =>
    obtain ⟨o, ho, hl⟩ := ih
    obtain ⟨o', ho', hl'⟩ := permuteF1600_ok o hl
    exact ⟨o', by simp only [permuteTimes, ho, Except.bind, ho'], hl'⟩

/-- The loop of `permute` after `m` iterations holds `PermuteF1600` applied `m` times. -/
theorem permute_loop {σ : Type} (state : List Nat) (hook : DebugHook σ) (label : String)
    (total : Int) (w : σ) (m : Nat) :
    ((List.range m).foldl
      (fun (s : Except TuakError (List Nat) × σ) (i : Nat) =>
        match s.1 with
        | .error e => (.error e, s.2)
        | .ok out =>
          match Keccak.PermuteF1600 out with
          | .error e => (.error (TuakError.keccak e), s.2)
          | .ok out =>
            (.ok out, callDebug hook (debugLabel label (Int.ofNat i) total) out s.2))
      (.ok state, w)).1 = (permuteTimes m state).mapError TuakError.keccak := by
  induction m with
  | zero => rfl
  | succ m ih =>
    rw [List.range_succ, List.foldl_append]
    simp only [List.foldl_cons, List.foldl_nil]
    rw [ih, permuteTimes]
    cases h1 : permuteTimes m state with
    | error e => rfl
    | ok o =>
      simp only [Except.mapError, Except.bind]
      cases h2 : Keccak.PermuteF1600 o with
      | error e => rfl
      | ok o' => rfl

theorem permute_fst {σ : Type} (state : List Nat) (n : Int) (hook : DebugHook σ)
    (label : String) (w : σ) :
    (permute state n hook label w).1
      = (permuteTimes (max n 1).toNat state).mapError TuakError.keccak := by
  unfold permute
  have e : (if n ≤ 0 then (1 : Int) else n) = max n 1 := by
    split_ifs with h
    · omega
    · omega
  simp only [e]
  exact permute_loop state hook label (max n 1) w _

theorem permute_ok {σ : Type} (state : List Nat) (n : Int) (hook : DebugHook σ)
    (label : String) (w : σ) (h : state.length = 200) :
    ∃ out, permuteTimes (max n 1).toNat state = .ok out ∧ out.length = 200 ∧
      (permute state n hook label w).1 = .ok out := by
  obtain ⟨o, ho, hl⟩ := permuteTimes_ok (max n 1).toNat state h
  exact ⟨o, ho, hl, by rw [permute_fst, ho]; rfl⟩

end Tuak
namespace Tuak

/-! ## Validation and instance selection on valid inputs -/

theorem resolveKLength_ok {σ : Type} (k : List Nat) (opts : Options σ)
    (hk : k.length = 16 ∨ k.length = 32)
    (hkl : opts.KLength = 0 ∨ opts.KLength = 8 * (k.length : Int)) :
    resolveKLength k opts = .ok ((k.length : Int) * 8) := by
  unfold resolveKLength
  rw [if_neg (by omega)]
  by_cases h0 : opts.KLength = 0
  · rw [if_pos h0]
  · have h1 : opts.KLength = 8 * (k.length : Int) := by
      rcases hkl with h | h
      · exact absurd h h0
      · exact h
    rw [if_neg h0, if_neg (by rw [h1, Int.mul_comm]; simp), h1, Int.mul_comm]

theorem requireLen_ok (name : String) (b : List Nat) (want : Nat) (h : b.length = want) :
    requireLen name b want = .ok () := by
  unfold requireLen
  rw [if_neg (by simp [h])]

theorem validateF1Inputs_ok {σ : Type} (t : TUAK σ)
    (hmac : t.opts.MACLength = 64 ∨ t.opts.MACLength = 128 ∨ t.opts.MACLength = 256)
    (hk : t.k.length = 16 ∨ t.k.length = 32)
    (hkl : t.opts.KLength = 0 ∨ t.opts.KLength = 8 * (t.k.length : Int))
    (hrand : t.rand.length = 16) (hsqn : t.sqn.length = 6) (hamf : t.amf.length = 2) :
    validateF1Inputs t = .ok () := by
  unfold validateF1Inputs
  rw [if_neg (by omega), if_neg (by omega), resolveKLength_ok _ _ hk hkl,
    requireLen_ok _ _ _ hrand, requireLen_ok _ _ _ hsqn, requireLen_ok _ _ _ hamf]

theorem validateF2345Inputs_ok {σ : Type} (t : TUAK σ)
    (hres : t.opts.RESLength = 32 ∨ t.opts.RESLength = 64 ∨ t.opts.RESLength = 128
      ∨ t.opts.RESLength = 256)
    (hck : t.opts.CKLength = 128 ∨ t.opts.CKLength = 256)
    (hik : t.opts.IKLength = 128 ∨ t.opts.IKLength = 256)
    (hk : t.k.length = 16 ∨ t.k.length = 32)
    (hkl : t.opts.KLength = 0 ∨ t.opts.KLength = 8 * (t.k.length : Int))
    (hrand : t.rand.length = 16) :
    validateF2345Inputs t = .ok () := by
  unfold validateF2345Inputs
  rw [if_neg (by omega), if_neg (not_not.mpr hres), if_neg (not_not.mpr hck),
    if_neg (not_not.mpr hik), resolveKLength_ok _ _ hk hkl, requireLen_ok _ _ _ hrand]

theorem validateF5StarInputs_ok {σ : Type} (t : TUAK σ)
    (hk : t.k.length = 16 ∨ t.k.length = 32)
    (hkl : t.opts.KLength = 0 ∨ t.opts.KLength = 8 * (t.k.length : Int))
    (hrand : t.rand.length = 16) :
    validateF5StarInputs t = .ok () := by
  unfold validateF5StarInputs
  rw [resolveKLength_ok _ _ hk hkl, requireLen_ok _ _ _ hrand]

theorem klen_bits (k : List Nat) (hk : k.length = 16 ∨ k.length = 32) :
    (k.length : Int) * 8 = 128 ∨ (k.length : Int) * 8 = 256 := by
  omega

theorem instanceForTOPc_isOk (k : Int) (hk : k = 128 ∨ k = 256) :
    ∃ b, instanceForTOPc k = .ok b := by
  rcases hk with rfl | rfl <;> exact ⟨_, rfl⟩

theorem instanceForF1_isOk (mac k : Int) (star : Bool)
    (hm : mac = 64 ∨ mac = 128 ∨ mac = 256) (hk : k = 128 ∨ k = 256) :
    ∃ b, instanceForF1 mac k star = .ok b := by
  rcases hm with rfl | rfl | rfl <;> rcases hk with rfl | rfl <;> exact ⟨_, rfl⟩

theorem instanceForF2345_isOk (res ck ik k : Int)
    (hr : res = 32 ∨ res = 64 ∨ res = 128 ∨ res = 256) (hc : ck = 128 ∨ ck = 256)
    (hi : ik = 128 ∨ ik = 256) (hk : k = 128 ∨ k = 256) :
    ∃ b, instanceForF2345 res ck ik k = .ok b := by
  rcases hr with rfl | rfl | rfl | rfl <;> rcases hc with rfl | rfl <;>
    rcases hi with rfl | rfl <;> rcases hk with rfl | rfl <;> exact ⟨_, rfl⟩

theorem instanceForF5Star_isOk (k : Int) (hk : k = 128 ∨ k = 256) :
    ∃ b, instanceForF5Star k = .ok b := by
  rcases hk with rfl | rfl <;> exact ⟨_, rfl⟩

theorem ensureTOPc_of_topc {σ : Type} (t : TUAK σ) (w : σ) (topc : List Nat)
    (h : t.topc = some topc) : ensureTOPc t w = (.ok topc, t, w) := by
  unfold ensureTOPc
  rw [h]

theorem permute_eq_pair {σ : Type} (state : List Nat) (n : Int) (hook : DebugHook σ)
    (label : String) (w : σ) (out : List Nat)
    (h : (permute state n hook label w).1 = .ok out) :
    permute state n hook label w = (.ok out, (permute state n hook label w).2) :=
  Prod.ext h rfl

theorem pullData_take (out : List Nat) (n : Nat) (h : n ≤ out.length) :
    pullData out offsetTOP n = .ok (out.take n).reverse := by
  rw [pullData_ok out offsetTOP n (by simp [offsetTOP]; exact h)]
  simp [offsetTOP]

end Tuak
namespace Tuak

/-! ## Evaluations on test set 1 -/

set_option maxRecDepth 100000 in
theorem F1_exampleSessionZeroIter :
    (F1 exampleSessionZeroIter ()).1
      = .ok [0xf9, 0xa5, 0x4e, 0x6a, 0xea, 0xa8, 0x61, 0x8d] := by
  decide!

set_option maxRecDepth 100000 in
theorem ComputeTOPc_example_zeroIter :
    (ComputeTOPc exampleK exampleTOP ([WithKeccakIterations 0] : List (Opt Unit)) ()).1
      = .ok exampleTOPc := by
  decide!

theorem layoutState_amf_sqn_zero (top rand k : List Nat) (inst : Nat) (htop : top.length = 32)
    (hrand : rand.length = 16) :
    ((layoutState top inst rand (List.replicate 2 0) (List.replicate 6 0) k).drop 56).take 8
      = List.replicate 8 0 := by
  have e : layoutState top inst rand (List.replicate 2 0) (List.replicate 6 0) k
      = (top.reverse ++ [inst] ++ algoName.reverse ++ rand.reverse)
        ++ (List.replicate 8 0 ++ (k.reverse ++ List.replicate (32 - k.length) 0
          ++ [0x1F] ++ List.replicate 38 0 ++ [0x80] ++ List.replicate 64 0)) := by
    simp [layoutState, List.replicate]
  rw [e, List.drop_left' (by simp [htop, hrand, algoName]), List.take_left' (by simp)]

theorem layoutState_rand_amf_sqn_zero (top k : List Nat) (inst : Nat) (htop : top.length = 32) :
    ((layoutState top inst (List.replicate 16 0) (List.replicate 2 0) (List.replicate 6 0)
      k).drop 40).take 24 = List.replicate 24 0 := by
  have e : layoutState top inst (List.replicate 16 0) (List.replicate 2 0)
        (List.replicate 6 0) k
      = (top.reverse ++ [inst] ++ algoName.reverse)
        ++ (List.replicate 24 0 ++ (k.reverse ++ List.replicate (32 - k.length) 0
          ++ [0x1F] ++ List.replicate 38 0 ++ [0x80] ++ List.replicate 64 0)) := by
    simp [layoutState, List.replicate]
  rw [e, List.drop_left' (by simp [htop, algoName]), List.take_left' (by simp)]

end Tuak
namespace Tuak

/-! ## The bytes before a write are not touched by it -/

theorem pushData_length (state : List Nat) (offset : Nat) (data s : List Nat)
    (h : pushData state offset data = .ok s) : s.length = state.length := by
  unfold pushData at h
  generalize List.range data.length = l at h
  induction l generalizing state with
  | nil =>
    simp only [List.foldlM_nil] at h
    cases h
    rfl
  | cons i l ih =>
    simp only [List.foldlM_cons] at h
    by_cases hi : offset + i < state.length
    · rw [if_pos hi] at h
      have := ih _ h
      simpa using this
    · rw [if_neg hi] at h
      cases h

theorem pushData_append_left (P rest data : List Nat) (off : Nat) (h : P.length ≤ off) :
    pushData (P ++ rest) off data
      = (pushData rest (off - P.length) data).map (fun s => P ++ s) := by
  unfold pushData
  generalize List.range data.length = l
  induction l generalizing rest with
  | nil => rfl
  | cons i l ih =>
    simp only [List.foldlM_cons]
    by_cases hi : off - P.length + i < rest.length
    · have hi' : off + i < (P ++ rest).length := by
        rw [List.length_append]; omega
      rw [if_pos hi, if_pos hi']
      have e : (P ++ rest).set (off + i) (data.getD (data.length - 1 - i) 0)
          = P ++ rest.set (off - P.length + i) (data.getD (data.length - 1 - i) 0) := by
        rw [List.set_append_right _ _ (by omega)]
        congr 2
        omega
      simp only [bind, Except.bind]
      rw [e]
      exact ih _
    · have hi' : ¬ off + i < (P ++ rest).length := by
        rw [List.length_append]; omega
      rw [if_neg hi, if_neg hi']
      rfl

theorem validateF1Inputs_inv {σ : Type} (t : TUAK σ) (h : validateF1Inputs t = .ok ()) :
    (t.opts.MACLength = 64 ∨ t.opts.MACLength = 128 ∨ t.opts.MACLength = 256) ∧
    (t.k.length = 16 ∨ t.k.length = 32) := by
  unfold validateF1Inputs at h
  by_cases h0 : t.opts.MACLength = 0
  · rw [if_pos h0] at h
    cases h
  · rw [if_neg h0] at h
    by_cases h1 : t.opts.MACLength ≠ 64 ∧ t.opts.MACLength ≠ 128 ∧ t.opts.MACLength ≠ 256
    · rw [if_pos h1] at h
      cases h
    · rw [if_neg h1] at h
      refine ⟨by omega, ?_⟩
      by_cases h2 : t.k.length ≠ 16 ∧ t.k.length ≠ 32
      · simp only [resolveKLength, if_pos h2] at h
        cases h
      · omega

theorem instanceForF1_star_pair (mac k : Int)
    (hm : mac = 64 ∨ mac = 128 ∨ mac = 256) (hk : k = 128 ∨ k = 256) :
    ∃ b, instanceForF1 mac k false = .ok b ∧ instanceForF1 mac k true = .ok (b ||| 0x80) ∧
      b &&& 0x80 = 0 := by
  rcases hm with rfl | rfl | rfl <;> rcases hk with rfl | rfl <;>
    exact ⟨_, rfl, by decide, by decide⟩

end Tuak
namespace Tuak

theorem bind_ok_length (x : Except TuakError (List Nat))
    (f : List Nat → Except TuakError (List Nat)) (s : List Nat) (n : Nat)
    (hx : ∀ a, x = .ok a → a.length = n)
    (hf : ∀ a, a.length = n → f a = .ok s → s.length = n) (h : x.bind f = .ok s) :
    s.length = n := by
  cases x with
  | error e => cases h
  | ok a => exact hf a (hx a rfl) h

theorem set_eq_take_drop (s : List Nat) (x : Nat) (h : 33 ≤ s.length) :
    s.set offsetInst x = (s.take 32 ++ [x]) ++ s.drop 33 := by
  have e : s = s.take 32 ++ (s.drop 32) := (List.take_append_drop 32 s).symm
  have e2 : s.drop 32 = s[32] :: s.drop 33 := List.drop_eq_getElem_cons (by omega)
  have hl : (s.take 32).length = 32 := by rw [List.length_take]; omega
  conv_lhs => rw [e, e2]
  rw [List.set_append_right _ _ (by rw [hl]; decide), hl]
  simp [offsetInst]
  rw [e2]
  rfl

theorem push_factor (P rest data : List Nat) (off off' : Nat) (hP : P.length = 33)
    (hoff : off = off' + 33) (g g' : List Nat → Except TuakError (List Nat))
    (hg : ∀ b, g (P ++ b) = (g' b).map (fun s => P ++ s)) :
    (pushData (P ++ rest) off data).bind g
      = ((pushData rest off' data).bind g').map (fun s => P ++ s) := by
  rw [pushData_append_left _ _ _ off (by omega), hP]
  have e : off - 33 = off' := by omega
  rw [e]
  cases pushData rest off' data with
  | error e => rfl
  | ok b => exact hg b

/-- After the instance byte is stored, the later writes of F1 and F1Star act on the bytes from
33 on only. -/
theorem f1_chain_factor (s1 rand amf sqn k : List Nat) (x : Nat) (h : 33 ≤ s1.length) :
    ((pushData (s1.set offsetInst x) offsetAlgo algoName).bind fun state =>
      (pushData state offsetRAND rand).bind fun state =>
      (pushData state offsetAMF amf).bind fun state =>
      (pushData state offsetSQN sqn).bind fun state =>
      pushData state offsetK k)
    = (((pushData (s1.drop 33) 0 algoName).bind fun b =>
        (pushData b 7 rand).bind fun b =>
        (pushData b 23 amf).bind fun b =>
        (pushData b 25 sqn).bind fun b =>
        pushData b 31 k)).map (fun s => (s1.take 32 ++ [x]) ++ s) := by
  have hP : (s1.take 32 ++ [x]).length = 33 := by simp; omega
  rw [set_eq_take_drop s1 x h]
  refine push_factor _ _ _ _ 0 hP rfl _ _ (fun b1 => ?_)
  refine push_factor _ _ _ _ 7 hP rfl _ _ (fun b2 => ?_)
  refine push_factor _ _ _ _ 23 hP rfl _ _ (fun b3 => ?_)
  refine push_factor _ _ _ _ 25 hP rfl _ _ (fun b4 => ?_)
  rw [pushData_append_left _ _ _ offsetK (by rw [hP]; decide), hP]
  rfl

theorem macFromState_ok {σ : Type} (t : TUAK σ) (label labelIn : String) (S : List Nat) (w : σ)
    (hS : S.length = 200)
    (hm : t.opts.MACLength = 64 ∨ t.opts.MACLength = 128 ∨ t.opts.MACLength = 256) :
    ∃ m, (macFromState t label labelIn S w).1 = .ok m := by
  obtain ⟨out, _, houtlen, hperm⟩ := permute_ok S t.opts.KeccakIterations t.opts.DebugHook label
    (callDebug t.opts.DebugHook labelIn S w) hS
  have hn : (Int.tdiv t.opts.MACLength 8).toNat ≤ 200 := by
    rcases hm with h | h | h <;> rw [h] <;> decide
  unfold macFromState
  rw [permute_eq_pair _ _ _ _ _ out hperm]
  exact ⟨_, pullData_take out _ (by rw [houtlen]; exact hn)⟩

theorem f1_tail_length (B rand amf sqn k Bf : List Nat)
    (h : ((pushData B 0 algoName).bind fun b =>
        (pushData b 7 rand).bind fun b =>
        (pushData b 23 amf).bind fun b =>
        (pushData b 25 sqn).bind fun b =>
        pushData b 31 k) = .ok Bf) : Bf.length = B.length := by
  refine bind_ok_length _ _ _ _ (fun a ha => pushData_length _ _ _ _ ha) (fun a1 h1 h => ?_) h
  refine bind_ok_length _ _ _ _ (fun a ha => (pushData_length _ _ _ _ ha).trans h1)
    (fun a2 h2 h => ?_) h
  refine bind_ok_length _ _ _ _ (fun a ha => (pushData_length _ _ _ _ ha).trans h2)
    (fun a3 h3 h => ?_) h
  refine bind_ok_length _ _ _ _ (fun a ha => (pushData_length _ _ _ _ ha).trans h3)
    (fun a4 h4 h => ?_) h
  exact (pushData_length _ _ _ _ h).trans h4

theorem bind_ok_eq (a : List Nat) (f : List Nat → Except TuakError (List Nat)) :
    (Except.ok a : Except TuakError (List Nat)).bind f = f a := rfl

end Tuak
namespace Tuak

/-! ## The four session functions are instances of one shape -/

theorem F1_eq_driver {σ : Type} (t : TUAK σ) (w : σ) :
    F1 t w = driver validateF1Inputs
      (fun t => instanceForF1 t.opts.MACLength ((t.k.length : Int) * 8) false)
      assembleF1 "f1" "f1.in" extractMAC t w := rfl

theorem F1Star_eq_driver {σ : Type} (t : TUAK σ) (w : σ) :
    F1Star t w = driver validateF1Inputs
      (fun t => instanceForF1 t.opts.MACLength ((t.k.length : Int) * 8) true)
      assembleF1 "f1star" "f1star.in" extractMAC t w := rfl

theorem F2345_eq_driver {σ : Type} (t : TUAK σ) (w : σ) :
    F2345 t w = driver validateF2345Inputs
      (fun t => instanceForF2345 t.opts.RESLength t.opts.CKLength t.opts.IKLength
        ((t.k.length : Int) * 8))
      assembleF2345 "f2345" "f2345.in" extractF2345 t w := rfl

theorem F5Star_eq_driver {σ : Type} (t : TUAK σ) (w : σ) :
    F5Star t w = driver validateF5StarInputs
      (fun t => instanceForF5Star ((t.k.length : Int) * 8))
      assembleF2345 "f5star" "f5star.in" (fun _ out => pullData out 96 6) t w := rfl

end Tuak
namespace Tuak

/-! ## Resolving TOPc -/

theorem ensureTOPc_missing {σ : Type} (t : TUAK σ) (w : σ) (h1 : t.topc = none)
    (h2 : t.top = none) : ensureTOPc t w = (.error .missingTopcAndTop, t, w) := by
  unfold ensureTOPc
  rw [h1, h2]

theorem ensureTOPc_derive_error {σ : Type} (t : TUAK σ) (w w' : σ) (top : List Nat)
    (e : TuakError) (h1 : t.topc = none) (h2 : t.top = some top)
    (h : ComputeTOPc t.k top
      [WithKLength t.opts.KLength, WithKeccakIterations t.opts.KeccakIterations] w
        = (.error e, w')) :
    ensureTOPc t w = (.error e, t, w') := by
  unfold ensureTOPc
  rw [h1, h2]
  simp only [h]

theorem ensureTOPc_derive_ok {σ : Type} (t : TUAK σ) (w w' : σ) (top c : List Nat)
    (h1 : t.topc = none) (h2 : t.top = some top)
    (h : ComputeTOPc t.k top
      [WithKLength t.opts.KLength, WithKeccakIterations t.opts.KeccakIterations] w
        = (.ok c, w')) :
    ensureTOPc t w = (.ok c, { t with topc := some c }, w') := by
  unfold ensureTOPc
  rw [h1, h2]
  simp only [h]

/-! ## The hook only changes the world -/

theorem permute_snd_none {σ : Type} (state : List Nat) (n : Int) (label : String) (w : σ) :
    (permute state n none label w).2 = w := by
  unfold permute
  dsimp only
  generalize (if n ≤ 0 then (1 : Int) else n) = total
  generalize List.range total.toNat = l
  suffices h : ∀ (s : Except TuakError (List Nat) × σ), (l.foldl
      (fun (s : Except TuakError (List Nat) × σ) (i : Nat) =>
        match s.1 with
        | .error e => (.error e, s.2)
        | .ok out =>
          match Keccak.PermuteF1600 out with
          | .error e => (.error (TuakError.keccak e), s.2)
          | .ok out =>
            (.ok out, callDebug none (debugLabel label (Int.ofNat i) total) out s.2)) s).2
      = s.2 from h _
  induction l with
  | nil => intro s; rfl
  | cons i l ih =>
    intro s
    rw [List.foldl_cons, ih]
    obtain ⟨r, w0⟩ := s
    cases r with
    | error e => rfl
    | ok out =>
      simp only []
      cases Keccak.PermuteF1600 out with
      | error e => rfl
      | ok o => rfl

theorem applyOptions_hookless {σ : Type} (k : List Nat) (a b : Int) :
    (applyOptions k ([WithKLength a, WithKeccakIterations b] : List (Opt σ))).DebugHook
      = none := by
  unfold applyOptions
  simp only [List.foldl_cons, List.foldl_nil]
  split <;> rfl

theorem ComputeTOPc_snd_hookless {σ : Type} (k top : List Nat) (opts : List (Opt σ)) (w : σ)
    (h : (applyOptions k opts).DebugHook = none) : (ComputeTOPc k top opts w).2 = w := by
  unfold ComputeTOPc
  simp only [h]
  cases resolveKLength k (applyOptions k opts) with
  | error e => rfl
  | ok kl =>
    simp only []
    cases requireLen "top" top 32 with
    | error e => rfl
    | ok u =>
      simp only []
      cases instanceForTOPc kl with
      | error e => rfl
      | ok inst =>
        simp only []
        cases (pushData newState offsetTOP top).bind fun state =>
            (pushData (state.set offsetInst inst) offsetAlgo algoName).bind fun state =>
            pushData state offsetK k with
        | error e => rfl
        | ok state =>
          simp only [callDebug]
          have hp := permute_snd_none state (applyOptions k opts).KeccakIterations "topc" w
          rcases hq : permute state (applyOptions k opts).KeccakIterations none "topc" w
            with ⟨r, w2⟩
          rw [hq] at hp
          cases r with
          | error e => exact hp
          | ok out => exact hp

/-! ## The common shape, case by case -/

theorem driver_missing {σ α : Type} (V : TUAK σ → Except TuakError Unit)
    (I : TUAK σ → Except TuakError Nat)
    (A : List Nat → Nat → TUAK σ → Except TuakError (List Nat)) (l li : String)
    (X : TUAK σ → List Nat → Except TuakError α) (t : TUAK σ) (w : σ)
    (h1 : t.topc = none) (h2 : t.top = none) :
    driver V I A l li X t w = (.error .missingTopcAndTop, t, w) := by
  unfold driver
  rw [ensureTOPc_missing t w h1 h2]

theorem driver_derive_error {σ α : Type} (V : TUAK σ → Except TuakError Unit)
    (I : TUAK σ → Except TuakError Nat)
    (A : List Nat → Nat → TUAK σ → Except TuakError (List Nat)) (l li : String)
    (X : TUAK σ → List Nat → Except TuakError α) (t : TUAK σ) (w w' : σ) (top : List Nat)
    (e : TuakError) (h1 : t.topc = none) (h2 : t.top = some top)
    (h : ComputeTOPc t.k top
      [WithKLength t.opts.KLength, WithKeccakIterations t.opts.KeccakIterations] w
        = (.error e, w')) :
    driver V I A l li X t w = (.error e, t, w') := by
  unfold driver
  rw [ensureTOPc_derive_error t w w' top e h1 h2 h]

theorem driver_derive_ok {σ α : Type} (V : TUAK σ → Except TuakError Unit)
    (I : TUAK σ → Except TuakError Nat)
    (A : List Nat → Nat → TUAK σ → Except TuakError (List Nat)) (l li : String)
    (X : TUAK σ → List Nat → Except TuakError α) (t : TUAK σ) (w w' : σ) (top c : List Nat)
    (h1 : t.topc = none) (h2 : t.top = some top)
    (h : ComputeTOPc t.k top
      [WithKLength t.opts.KLength, WithKeccakIterations t.opts.KeccakIterations] w
        = (.ok c, w')) :
    driver V I A l li X t w = driver V I A l li X { t with topc := some c } w' := by
  unfold driver
  rw [ensureTOPc_derive_ok t w w' top c h1 h2 h,
    ensureTOPc_of_topc { t with topc := some c } w' c rfl]

theorem driver_topc_session {σ α : Type} (V : TUAK σ → Except TuakError Unit)
    (I : TUAK σ → Except TuakError Nat)
    (A : List Nat → Nat → TUAK σ → Except TuakError (List Nat)) (l li : String)
    (X : TUAK σ → List Nat → Except TuakError α) (t : TUAK σ) (w : σ) (c : List Nat)
    (h : t.topc = some c) : (driver V I A l li X t w).2.1 = t := by
  unfold driver
  rw [ensureTOPc_of_topc t w c h]
  simp only []
  cases V t with
  | error e => rfl
  | ok u =>
    simp only []
    cases I t with
    | error e => rfl
    | ok i =>
      simp only []
      cases A c i t with
      | error e => rfl
      | ok S =>
        simp only []
        rcases permute S t.opts.KeccakIterations t.opts.DebugHook l
          (callDebug t.opts.DebugHook li S w) with ⟨r, w2⟩
        cases r <;> rfl

theorem driver_topc_invalid {σ α : Type} (V : TUAK σ → Except TuakError Unit)
    (I : TUAK σ → Except TuakError Nat)
    (A : List Nat → Nat → TUAK σ → Except TuakError (List Nat)) (l li : String)
    (X : TUAK σ → List Nat → Except TuakError α) (t : TUAK σ) (w : σ) (c : List Nat)
    (e : TuakError) (h : t.topc = some c) (hV : V t = .error e) :
    driver V I A l li X t w = (.error e, t, w) := by
  unfold driver
  rw [ensureTOPc_of_topc t w c h]
  simp only [hV]

theorem driver_topc_fault {σ α : Type} (V : TUAK σ → Except TuakError Unit)
    (I : TUAK σ → Except TuakError Nat)
    (A : List Nat → Nat → TUAK σ → Except TuakError (List Nat)) (l li : String)
    (X : TUAK σ → List Nat → Except TuakError α) (t : TUAK σ) (w : σ) (c : List Nat)
    (i : Nat) (e : TuakError) (h : t.topc = some c) (hV : V t = .ok ()) (hI : I t = .ok i)
    (hA : A c i t = .error e) :
    driver V I A l li X t w = (.error e, t, w) := by
  unfold driver
  rw [ensureTOPc_of_topc t w c h]
  simp only [hV, hI, hA]

theorem driver_topc_run {σ α : Type} (V : TUAK σ → Except TuakError Unit)
    (I : TUAK σ → Except TuakError Nat)
    (A : List Nat → Nat → TUAK σ → Except TuakError (List Nat)) (l li : String)
    (X : TUAK σ → List Nat → Except TuakError α) (t : TUAK σ) (w : σ) (c S : List Nat)
    (i : Nat) (h : t.topc = some c) (hV : V t = .ok ()) (hI : I t = .ok i)
    (hA : A c i t = .ok S) (hS : S.length = 200) :
    ∃ out, permuteTimes (max t.opts.KeccakIterations 1).toNat S = .ok out ∧ out.length = 200 ∧
      driver V I A l li X t w = (X t out, t,
        (permute S t.opts.KeccakIterations t.opts.DebugHook l
          (callDebug t.opts.DebugHook li S w)).2) := by
  obtain ⟨out, hout, hlen, hperm⟩ := permute_ok S t.opts.KeccakIterations t.opts.DebugHook l
    (callDebug t.opts.DebugHook li S w) hS
  refine ⟨out, hout, hlen, ?_⟩
  unfold driver
  rw [ensureTOPc_of_topc t w c h]
  simp only [hV, hI, hA]
  rw [permute_eq_pair _ _ _ _ _ out hperm]

/-- The result (not the world) of a call on a session that holds a TOPc does not depend on
the world it starts from. -/
theorem driver_fst_world {σ α : Type} (V : TUAK σ → Except TuakError Unit)
    (I : TUAK σ → Except TuakError Nat)
    (A : List Nat → Nat → TUAK σ → Except TuakError (List Nat)) (l li : String)
    (X : TUAK σ → List Nat → Except TuakError α) (t : TUAK σ) (w w2 : σ) (c : List Nat)
    (h : t.topc = some c) :
    (driver V I A l li X t w).1 = (driver V I A l li X t w2).1 := by
  unfold driver
  rw [ensureTOPc_of_topc t w c h, ensureTOPc_of_topc t w2 c h]
  simp only []
  cases V t with
  | error e => rfl
  | ok u =>
    simp only []
    cases I t with
    | error e => rfl
    | ok i =>
      simp only []
      cases A c i t with
      | error e => rfl
      | ok S =>
        simp only []
        have h1 := permute_fst S t.opts.KeccakIterations t.opts.DebugHook l
          (callDebug t.opts.DebugHook li S w)
        have h2 := permute_fst S t.opts.KeccakIterations t.opts.DebugHook l
          (callDebug t.opts.DebugHook li S w2)
        rcases hp1 : permute S t.opts.KeccakIterations t.opts.DebugHook l
          (callDebug t.opts.DebugHook li S w) with ⟨r1, x1⟩
        rcases hp2 : permute S t.opts.KeccakIterations t.opts.DebugHook l
          (callDebug t.opts.DebugHook li S w2) with ⟨r2, x2⟩
        rw [hp1] at h1
        rw [hp2] at h2
        have e : r1 = r2 := h1.trans h2.symm
        subst e
        cases r1 <;> rfl

/-- Two sessions that hold the same TOPc and agree on validation, instance byte, assembly,
extraction and options return the same result and leave the same world. -/
theorem driver_congr {σ α : Type} (V : TUAK σ → Except TuakError Unit)
    (I : TUAK σ → Except TuakError Nat)
    (A : List Nat → Nat → TUAK σ → Except TuakError (List Nat)) (l li : String)
    (X : TUAK σ → List Nat → Except TuakError α) (t1 t2 : TUAK σ) (w : σ) (c : List Nat)
    (h1 : t1.topc = some c) (h2 : t2.topc = some c) (hV : V t1 = V t2) (hI : I t1 = I t2)
    (hA : ∀ i, A c i t1 = A c i t2) (hX : ∀ out, X t1 out = X t2 out)
    (ho : t1.opts = t2.opts) :
    (driver V I A l li X t1 w).1 = (driver V I A l li X t2 w).1 ∧
    (driver V I A l li X t1 w).2.2 = (driver V I A l li X t2 w).2.2 := by
  unfold driver
  rw [ensureTOPc_of_topc t1 w c h1, ensureTOPc_of_topc t2 w c h2]
  simp only [hV, hI, hA, ho]
  cases V t2 with
  | error e => exact ⟨rfl, rfl⟩
  | ok u =>
    simp only []
    cases I t2 with
    | error e => exact ⟨rfl, rfl⟩
    | ok i =>
      simp only []
      cases A c i t2 with
      | error e => exact ⟨rfl, rfl⟩
      | ok S =>
        simp only []
        rcases permute S t2.opts.KeccakIterations t2.opts.DebugHook l
          (callDebug t2.opts.DebugHook li S w) with ⟨r, x⟩
        cases r with
        | error e => exact ⟨rfl, rfl⟩
        | ok out => exact ⟨hX out, rfl⟩

end Tuak
namespace Tuak

/-! ## Validation, exactly -/

theorem resolveKLength_isOk_iff {σ : Type} (k : List Nat) (o : Options σ) :
    (∃ x, resolveKLength k o = .ok x) ↔
      (k.length = 16 ∨ k.length = 32) ∧ (o.KLength = 0 ∨ o.KLength = 8 * (k.length : Int)) := by
  constructor
  · rintro ⟨x, hx⟩
    unfold resolveKLength at hx
    split_ifs at hx with h1 h2 h3
    · exact ⟨by omega, Or.inl h2⟩
    · exact ⟨by omega, Or.inr (by omega)⟩
  · rintro ⟨hk, hkl⟩
    exact ⟨_, resolveKLength_ok k o hk hkl⟩

theorem resolveKLength_error_kind {σ : Type} (k : List Nat) (o : Options σ) (e : TuakError)
    (h : resolveKLength k o = .error e) : e ≠ .runtimeFault := by
  unfold resolveKLength at h
  split_ifs at h <;> cases h <;> simp

theorem requireLen_isOk_iff (name : String) (b : List Nat) (want : Nat) :
    requireLen name b want = .ok () ↔ b.length = want := by
  unfold requireLen
  split_ifs with h
  · simp [h]
  · simp only [true_iff]
    exact not_not.mp h

theorem requireLen_error_kind (name : String) (b : List Nat) (want : Nat) (e : TuakError)
    (h : requireLen name b want = .error e) : e ≠ .runtimeFault := by
  unfold requireLen at h
  split_ifs at h
  cases h
  simp

theorem validateF1Inputs_iff {σ : Type} (t : TUAK σ) :
    validateF1Inputs t = .ok () ↔
      (t.opts.MACLength = 64 ∨ t.opts.MACLength = 128 ∨ t.opts.MACLength = 256) ∧
      (t.k.length = 16 ∨ t.k.length = 32) ∧
      (t.opts.KLength = 0 ∨ t.opts.KLength = 8 * (t.k.length : Int)) ∧
      t.rand.length = 16 ∧ t.sqn.length = 6 ∧ t.amf.length = 2 := by
  constructor
  · intro h
    unfold validateF1Inputs at h
    split_ifs at h with h0 h1
    have hm : t.opts.MACLength = 64 ∨ t.opts.MACLength = 128 ∨ t.opts.MACLength = 256 := by
      omega
    cases hr : resolveKLength t.k t.opts with
    | error e => rw [hr] at h; cases h
    | ok x =>
      rw [hr] at h
      have hk := (resolveKLength_isOk_iff t.k t.opts).mp ⟨x, hr⟩
      cases h1 : requireLen "rand" t.rand 16 with
      | error e => rw [h1] at h; cases h
      | ok u1 =>
        rw [h1] at h
        cases h2 : requireLen "sqn" t.sqn 6 with
        | error e => rw [h2] at h; cases h
        | ok u2 =>
          rw [h2] at h
          cases h3 : requireLen "amf" t.amf 2 with
          | error e => rw [h3] at h; cases h
          | ok u3 =>
            exact ⟨hm, hk.1, hk.2, (requireLen_isOk_iff _ _ _).mp h1,
              (requireLen_isOk_iff _ _ _).mp h2, (requireLen_isOk_iff _ _ _).mp h3⟩
  · rintro ⟨hm, hk, hkl, hr, hs, ha⟩
    exact validateF1Inputs_ok t hm hk hkl hr hs ha

theorem validateF1Inputs_error_kind {σ : Type} (t : TUAK σ) (e : TuakError)
    (h : validateF1Inputs t = .error e) : e ≠ .runtimeFault := by
  unfold validateF1Inputs at h
  split_ifs at h with h0 h1
  · cases h; simp
  · cases h; simp
  · cases hr : resolveKLength t.k t.opts with
    | error e' =>
      rw [hr] at h
      cases h
      exact resolveKLength_error_kind _ _ _ hr
    | ok x =>
      rw [hr] at h
      cases h1 : requireLen "rand" t.rand 16 with
      | error e' => rw [h1] at h; cases h; exact requireLen_error_kind _ _ _ _ h1
      | ok u1 =>
        rw [h1] at h
        cases h2 : requireLen "sqn" t.sqn 6 with
        | error e' => rw [h2] at h; cases h; exact requireLen_error_kind _ _ _ _ h2
        | ok u2 =>
          rw [h2] at h
          cases h3 : requireLen "amf" t.amf 2 with
          | error e' => rw [h3] at h; cases h; exact requireLen_error_kind _ _ _ _ h3
          | ok u3 => rw [h3] at h; cases h

theorem validateF2345Inputs_iff {σ : Type} (t : TUAK σ) :
    validateF2345Inputs t = .ok () ↔
      (t.opts.RESLength = 32 ∨ t.opts.RESLength = 64 ∨ t.opts.RESLength = 128
        ∨ t.opts.RESLength = 256) ∧
      (t.opts.CKLength = 128 ∨ t.opts.CKLength = 256) ∧
      (t.opts.IKLength = 128 ∨ t.opts.IKLength = 256) ∧
      (t.k.length = 16 ∨ t.k.length = 32) ∧
      (t.opts.KLength = 0 ∨ t.opts.KLength = 8 * (t.k.length : Int)) ∧
      t.rand.length = 16 := by
  constructor
  · intro h
    unfold validateF2345Inputs at h
    split_ifs at h with h0 h1 h2 h3
    cases hr : resolveKLength t.k t.opts with
    | error e => rw [hr] at h; cases h
    | ok x =>
      rw [hr] at h
      have hk := (resolveKLength_isOk_iff t.k t.opts).mp ⟨x, hr⟩
      cases h4 : requireLen "rand" t.rand 16 with
      | error e => rw [h4] at h; cases h
      | ok u1 =>
        exact ⟨h1, h2, h3, hk.1, hk.2,
          (requireLen_isOk_iff _ _ _).mp h4⟩
  · rintro ⟨hr, hc, hi, hk, hkl, hrand⟩
    exact validateF2345Inputs_ok t hr hc hi hk hkl hrand

theorem validateF2345Inputs_error_kind {σ : Type} (t : TUAK σ) (e : TuakError)
    (h : validateF2345Inputs t = .error e) : e ≠ .runtimeFault := by
  unfold validateF2345Inputs at h
  split_ifs at h with h0 h1 h2 h3
  all_goals first
    | (cases h; simp)
    | (cases hr : resolveKLength t.k t.opts with
        | error e' =>
          rw [hr] at h
          cases h
          exact resolveKLength_error_kind _ _ _ hr
        | ok x =>
          rw [hr] at h
          cases h1 : requireLen "rand" t.rand 16 with
          | error e' => rw [h1] at h; cases h; exact requireLen_error_kind _ _ _ _ h1
          | ok u1 => rw [h1] at h; cases h)

theorem validateF5StarInputs_iff {σ : Type} (t : TUAK σ) :
    validateF5StarInputs t = .ok () ↔
      (t.k.length = 16 ∨ t.k.length = 32) ∧
      (t.opts.KLength = 0 ∨ t.opts.KLength = 8 * (t.k.length : Int)) ∧
      t.rand.length = 16 := by
  constructor
  · intro h
    unfold validateF5StarInputs at h
    cases hr : resolveKLength t.k t.opts with
    | error e => rw [hr] at h; cases h
    | ok x =>
      rw [hr] at h
      have hk := (resolveKLength_isOk_iff t.k t.opts).mp ⟨x, hr⟩
      cases h4 : requireLen "rand" t.rand 16 with
      | error e => rw [h4] at h; cases h
      | ok u1 => exact ⟨hk.1, hk.2, (requireLen_isOk_iff _ _ _).mp h4⟩
  · rintro ⟨hk, hkl, hrand⟩
    exact validateF5StarInputs_ok t hk hkl hrand

theorem validateF5StarInputs_error_kind {σ : Type} (t : TUAK σ) (e : TuakError)
    (h : validateF5StarInputs t = .error e) : e ≠ .runtimeFault := by
  unfold validateF5StarInputs at h
  cases hr : resolveKLength t.k t.opts with
  | error e' =>
    rw [hr] at h
    cases h
    exact resolveKLength_error_kind _ _ _ hr
  | ok x =>
    rw [hr] at h
    cases h1 : requireLen "rand" t.rand 16 with
    | error e' => rw [h1] at h; cases h; exact requireLen_error_kind _ _ _ _ h1
    | ok u1 => rw [h1] at h; cases h

/-- In a constructed session with a non-empty key the K length option is never zero. -/
theorem constructed_klength {σ : Type} (t : TUAK σ) (hc : Constructed t)
    (hk : 0 < t.k.length) : t.opts.KLength ≠ 0 := by
  obtain ⟨opts, ho⟩ := hc
  have e : applyOptions t.k opts =
      if (configuredOptions opts).KLength = 0 ∧ t.k.length > 0 then
        { configuredOptions opts with KLength := (t.k.length : Int) * 8 }
      else configuredOptions opts := rfl
  rw [ho, e]
  by_cases h : (configuredOptions opts).KLength = 0 ∧ t.k.length > 0
  · rw [if_pos h]
    intro h0
    have h1 : (t.k.length : Int) * 8 = 0 := h0
    omega
  · rw [if_neg h]
    intro h0
    exact h ⟨h0, hk⟩

end Tuak
namespace Tuak

/-! ## Assembly keeps 200 bytes; extraction succeeds on 200 bytes -/

theorem newState_length : newState.length = 200 := by
  unfold newState
  rw [List.length_set, List.length_set, List.length_replicate]
  rfl

theorem assembleF1_length {σ : Type} (c : List Nat) (i : Nat) (t : TUAK σ) (S : List Nat)
    (h : assembleF1 c i t = .ok S) : S.length = 200 := by
  unfold assembleF1 at h
  refine bind_ok_length _ _ _ 200
    (fun a ha => (pushData_length _ _ _ _ ha).trans newState_length) (fun a1 h1 h => ?_) h
  refine bind_ok_length _ _ _ 200
    (fun a ha => (pushData_length _ _ _ _ ha).trans (by rw [List.length_set]; exact h1))
    (fun a2 h2 h => ?_) h
  refine bind_ok_length _ _ _ 200 (fun a ha => (pushData_length _ _ _ _ ha).trans h2)
    (fun a3 h3 h => ?_) h
  refine bind_ok_length _ _ _ 200 (fun a ha => (pushData_length _ _ _ _ ha).trans h3)
    (fun a4 h4 h => ?_) h
  refine bind_ok_length _ _ _ 200 (fun a ha => (pushData_length _ _ _ _ ha).trans h4)
    (fun a5 h5 h => ?_) h
  exact (pushData_length _ _ _ _ h).trans h5

theorem assembleF2345_length {σ : Type} (c : List Nat) (i : Nat) (t : TUAK σ) (S : List Nat)
    (h : assembleF2345 c i t = .ok S) : S.length = 200 := by
  unfold assembleF2345 at h
  refine bind_ok_length _ _ _ 200
    (fun a ha => (pushData_length _ _ _ _ ha).trans newState_length) (fun a1 h1 h => ?_) h
  refine bind_ok_length _ _ _ 200
    (fun a ha => (pushData_length _ _ _ _ ha).trans (by rw [List.length_set]; exact h1))
    (fun a2 h2 h => ?_) h
  refine bind_ok_length _ _ _ 200 (fun a ha => (pushData_length _ _ _ _ ha).trans h2)
    (fun a3 h3 h => ?_) h
  exact (pushData_length _ _ _ _ h).trans h3

theorem extractMAC_ok {σ : Type} (t : TUAK σ) (out : List Nat) (hout : out.length = 200)
    (hm : t.opts.MACLength = 64 ∨ t.opts.MACLength = 128 ∨ t.opts.MACLength = 256) :
    extractMAC t out = .ok (out.take (t.opts.MACLength / 8).toNat).reverse ∧
    (out.take (t.opts.MACLength / 8).toNat).reverse.length = (t.opts.MACLength / 8).toNat := by
  have hn : (Int.tdiv t.opts.MACLength 8).toNat = (t.opts.MACLength / 8).toNat ∧
      (t.opts.MACLength / 8).toNat ≤ 200 := by
    rcases hm with h | h | h <;> rw [h] <;> decide
  unfold extractMAC
  rw [hn.1]
  refine ⟨pullData_take out _ (by rw [hout]; exact hn.2), ?_⟩
  rw [List.length_reverse, List.length_take, hout]
  exact Nat.min_eq_left hn.2

theorem extractF2345_ok {σ : Type} (t : TUAK σ) (out : List Nat) (hout : out.length = 200)
    (hres : t.opts.RESLength = 32 ∨ t.opts.RESLength = 64 ∨ t.opts.RESLength = 128
      ∨ t.opts.RESLength = 256)
    (hck : t.opts.CKLength = 128 ∨ t.opts.CKLength = 256)
    (hik : t.opts.IKLength = 128 ∨ t.opts.IKLength = 256) :
    ∃ r, extractF2345 t out = .ok r ∧
      r.res.length = (t.opts.RESLength / 8).toNat ∧ r.ck.length = (t.opts.CKLength / 8).toNat ∧
      r.ik.length = (t.opts.IKLength / 8).toNat ∧ r.ak.length = 6 := by
  have hr : (Int.tdiv t.opts.RESLength 8).toNat = (t.opts.RESLength / 8).toNat ∧
      (t.opts.RESLength / 8).toNat ≤ 32 := by
    rcases hres with h | h | h | h <;> rw [h] <;> decide
  have hc : (Int.tdiv t.opts.CKLength 8).toNat = (t.opts.CKLength / 8).toNat ∧
      (t.opts.CKLength / 8).toNat ≤ 32 := by
    rcases hck with h | h <;> rw [h] <;> decide
  have hi : (Int.tdiv t.opts.IKLength 8).toNat = (t.opts.IKLength / 8).toNat ∧
      (t.opts.IKLength / 8).toNat ≤ 32 := by
    rcases hik with h | h <;> rw [h] <;> decide
  unfold extractF2345
  rw [hr.1, hc.1, hi.1, pullData_take out _ (by have := hr.2; omega),
    pullData_ok out 32 _ (by have := hc.2; omega),
    pullData_ok out 64 _ (by have := hi.2; omega),
    pullData_ok out 96 6 (by omega)]
  refine ⟨_, rfl, ?_, ?_, ?_, ?_⟩
  · simp only [List.length_reverse, List.length_take, hout]
    have := hr.2
    omega
  · simp only [List.length_reverse, List.length_take, List.length_drop, hout]
    have := hc.2
    omega
  · simp only [List.length_reverse, List.length_take, List.length_drop, hout]
    have := hi.2
    omega
  · simp [hout]

theorem extractAK_ok (out : List Nat) (hout : out.length = 200) :
    ∃ ak, pullData out 96 6 = .ok ak ∧ ak.length = 6 :=
  ⟨_, pullData_ok out 96 6 (by omega), by simp [hout]⟩

/-! ## On a session that holds a TOPc an error leaves session and world as they were -/

theorem driver_error_unchanged {σ α : Type} (V : TUAK σ → Except TuakError Unit)
    (I : TUAK σ → Except TuakError Nat)
    (A : List Nat → Nat → TUAK σ → Except TuakError (List Nat)) (l li : String)
    (X : TUAK σ → List Nat → Except TuakError α) (t : TUAK σ) (w : σ) (c : List Nat)
    (e : TuakError) (h : t.topc = some c)
    (hI : V t = .ok () → ∃ i, I t = .ok i)
    (hA : ∀ i S, A c i t = .ok S → S.length = 200)
    (hX : V t = .ok () → ∀ out, out.length = 200 → ∃ x, X t out = .ok x)
    (he : (driver V I A l li X t w).1 = .error e) :
    driver V I A l li X t w = (.error e, t, w) := by
  cases hV : V t with
  | error e' =>
    have h1 := driver_topc_invalid V I A l li X t w c e' h hV
    rw [h1] at he ⊢
    cases he
    rfl
  | ok u =>
    obtain ⟨i, hi⟩ := hI hV
    cases hAS : A c i t with
    | error e' =>
      have h1 := driver_topc_fault V I A l li X t w c i e' h hV hi hAS
      rw [h1] at he ⊢
      cases he
      rfl
    | ok S =>
      obtain ⟨out, _, hlen, hrun⟩ := driver_topc_run V I A l li X t w c S i h hV hi hAS
        (hA i S hAS)
      obtain ⟨x, hx⟩ := hX hV out hlen
      rw [hrun, hx] at he
      cases he

end Tuak
namespace Tuak

/-! ## What ComputeTOPc depends on -/

theorem resolveKLength_congr {σ τ : Type} (k : List Nat) (o1 : Options σ) (o2 : Options τ)
    (h : o1.KLength = o2.KLength) : resolveKLength k o1 = resolveKLength k o2 := by
  unfold resolveKLength
  rw [h]

/-- The value of `ComputeTOPc` depends on the options only through the resolved K length and
the effective number of iterations; the hook and the world play no part. -/
theorem ComputeTOPc_fst_congr {σ τ : Type} (k top : List Nat) (opts1 : List (Opt σ))
    (opts2 : List (Opt τ)) (w1 : σ) (w2 : τ)
    (hk : (applyOptions k opts1).KLength = (applyOptions k opts2).KLength)
    (hn : max (applyOptions k opts1).KeccakIterations 1
      = max (applyOptions k opts2).KeccakIterations 1) :
    (ComputeTOPc k top opts1 w1).1 = (ComputeTOPc k top opts2 w2).1 := by
  unfold ComputeTOPc
  dsimp only
  rw [resolveKLength_congr k _ _ hk]
  cases resolveKLength k (applyOptions k opts2) with
  | error e => rfl
  | ok kl =>
    dsimp only
    cases requireLen "top" top 32 with
    | error e => rfl
    | ok u =>
      dsimp only
      cases instanceForTOPc kl with
      | error e => rfl
      | ok inst =>
        dsimp only
        cases (pushData newState offsetTOP top).bind fun state =>
            (pushData (state.set offsetInst inst) offsetAlgo algoName).bind fun state =>
            pushData state offsetK k with
        | error e => rfl
        | ok state =>
          dsimp only
          have h1 := permute_fst state (applyOptions k opts1).KeccakIterations
            (applyOptions k opts1).DebugHook "topc"
            (callDebug (applyOptions k opts1).DebugHook "topc.in" state w1)
          have h2 := permute_fst state (applyOptions k opts2).KeccakIterations
            (applyOptions k opts2).DebugHook "topc"
            (callDebug (applyOptions k opts2).DebugHook "topc.in" state w2)
          rcases hp1 : permute state (applyOptions k opts1).KeccakIterations
            (applyOptions k opts1).DebugHook "topc"
            (callDebug (applyOptions k opts1).DebugHook "topc.in" state w1) with ⟨r1, x1⟩
          rcases hp2 : permute state (applyOptions k opts2).KeccakIterations
            (applyOptions k opts2).DebugHook "topc"
            (callDebug (applyOptions k opts2).DebugHook "topc.in" state w2) with ⟨r2, x2⟩
          rw [hp1] at h1
          rw [hp2] at h2
          have e : r1 = r2 := by
            rw [show r1 = _ from h1, show r2 = _ from h2, hn]
          subst e
          cases r1 <;> rfl

theorem applyOptions_eq {σ : Type} (k : List Nat) (opts : List (Opt σ)) :
    applyOptions k opts =
      if (configuredOptions opts).KLength = 0 ∧ k.length > 0 then
        { configuredOptions opts with KLength := (k.length : Int) * 8 }
      else configuredOptions opts := rfl

theorem applyOptions_reapply {σ τ : Type} (k : List Nat) (opts : List (Opt σ)) :
    (applyOptions k ([WithKLength (applyOptions k opts).KLength,
        WithKeccakIterations (applyOptions k opts).KeccakIterations] : List (Opt τ))).KLength
      = (applyOptions k opts).KLength ∧
    (applyOptions k ([WithKLength (applyOptions k opts).KLength,
        WithKeccakIterations (applyOptions k opts).KeccakIterations]
          : List (Opt τ))).KeccakIterations
      = (applyOptions k opts).KeccakIterations := by
  have e : ∀ a b : Int, applyOptions k ([WithKLength a, WithKeccakIterations b] : List (Opt τ))
      = if a = 0 ∧ k.length > 0 then
          { KLength := (k.length : Int) * 8, MACLength := 0, RESLength := 0, CKLength := 0,
            IKLength := 0, KeccakIterations := b, DebugHook := none }
        else
          { KLength := a, MACLength := 0, RESLength := 0, CKLength := 0,
            IKLength := 0, KeccakIterations := b, DebugHook := none } := fun _ _ => rfl
  rw [e]
  by_cases h : (applyOptions k opts).KLength = 0 ∧ k.length > 0
  · rw [if_pos h]
    refine ⟨?_, rfl⟩
    exfalso
    have h0 := h.1
    rw [applyOptions_eq] at h0
    by_cases h2 : (configuredOptions opts).KLength = 0 ∧ k.length > 0
    · rw [if_pos h2] at h0
      have h3 : (k.length : Int) * 8 = 0 := h0
      have := h.2
      omega
    · rw [if_neg h2] at h0
      exact h2 ⟨h0, h.2⟩
  · rw [if_neg h]
    exact ⟨rfl, rfl⟩

/-- After `applyOptions`, "KLength unset or equal to 8*len(K)" is "no non-zero configured
KLength that differs from 8*len(K)". -/
theorem applyOptions_klength_iff {σ : Type} (k : List Nat) (opts : List (Opt σ))
    (hk : 0 < k.length) :
    ((applyOptions k opts).KLength = 0 ∨ (applyOptions k opts).KLength = 8 * (k.length : Int)) ↔
      ¬ ((configuredOptions opts).KLength ≠ 0 ∧
        (configuredOptions opts).KLength ≠ 8 * (k.length : Int)) := by
  rw [applyOptions_eq]
  by_cases h : (configuredOptions opts).KLength = 0 ∧ k.length > 0
  · rw [if_pos h]
    constructor
    · intro _ hn
      exact hn.1 h.1
    · intro _
      right
      show (k.length : Int) * 8 = 8 * (k.length : Int)
      omega
  · rw [if_neg h]
    have h0 : (configuredOptions opts).KLength ≠ 0 := fun e => h ⟨e, hk⟩
    constructor
    · rintro (h1 | h1) hn
      · exact h0 h1
      · exact hn.2 h1
    · intro hn
      right
      by_contra h1
      exact hn ⟨h0, h1⟩

end Tuak
namespace Tuak

/-! ## ComputeTOPc succeeds exactly on valid inputs -/

theorem ComputeTOPc_ok_of_valid {σ : Type} (k top : List Nat) (opts : List (Opt σ)) (w : σ)
    (hk : k.length = 16 ∨ k.length = 32)
    (hkl : (applyOptions k opts).KLength = 0
      ∨ (applyOptions k opts).KLength = 8 * (k.length : Int))
    (htop : top.length = 32) :
    ∃ topc, (ComputeTOPc k top opts w).1 = .ok topc ∧ topc.length = 32 := by
  obtain ⟨inst, hinst⟩ := instanceForTOPc_isOk ((k.length : Int) * 8) (klen_bits k hk)
  have hS := assemble_topc top k inst htop (by omega)
  obtain ⟨out, hout, houtlen, hperm⟩ := permute_ok
    (layoutState top inst (List.replicate 16 0) (List.replicate 2 0) (List.replicate 6 0) k)
    (applyOptions k opts).KeccakIterations (applyOptions k opts).DebugHook "topc"
    (callDebug (applyOptions k opts).DebugHook "topc.in"
      (layoutState top inst (List.replicate 16 0) (List.replicate 2 0) (List.replicate 6 0) k) w)
    (layoutState_length _ _ _ _ _ _ htop (by simp) (by simp) (by simp) (by omega))
  refine ⟨(out.take 32).reverse, ?_, by simp [houtlen]⟩
  unfold ComputeTOPc
  simp only [resolveKLength_ok k (applyOptions k opts) hk hkl, requireLen_ok _ _ _ htop, hinst,
    hS]
  rw [permute_eq_pair _ _ _ _ _ out hperm]
  exact pullData_take out 32 (by omega)

theorem ComputeTOPc_error_of_invalid {σ : Type} (k top : List Nat) (opts : List (Opt σ)) (w : σ)
    (h : ¬ ((k.length = 16 ∨ k.length = 32) ∧
      ((applyOptions k opts).KLength = 0
        ∨ (applyOptions k opts).KLength = 8 * (k.length : Int)) ∧ top.length = 32)) :
    ∃ e, (ComputeTOPc k top opts w).1 = .error e ∧ e ≠ .runtimeFault := by
  unfold ComputeTOPc
  dsimp only
  cases hr : resolveKLength k (applyOptions k opts) with
  | error e => exact ⟨e, rfl, resolveKLength_error_kind _ _ _ hr⟩
  | ok kl =>
    have hk := (resolveKLength_isOk_iff k (applyOptions k opts)).mp ⟨kl, hr⟩
    dsimp only
    cases ht : requireLen "top" top 32 with
    | error e => exact ⟨e, rfl, requireLen_error_kind _ _ _ _ ht⟩
    | ok u => exact absurd ⟨hk.1, hk.2, (requireLen_isOk_iff _ _ _).mp ht⟩ h

theorem ComputeTOPc_example {σ : Type} (opts : List (Opt σ)) (w : σ)
    (hk : (applyOptions exampleK opts).KLength = 128)
    (hn : max (applyOptions exampleK opts).KeccakIterations 1 = 1) :
    (ComputeTOPc exampleK exampleTOP opts w).1 = .ok exampleTOPc := by
  rw [ComputeTOPc_fst_congr exampleK exampleTOP opts
    ([WithKeccakIterations 0] : List (Opt Unit)) w () (by rw [hk]; rfl) (by rw [hn]; rfl)]
  exact ComputeTOPc_example_zeroIter

end Tuak
namespace Tuak

/-! ## Runs on a session that holds a 32-byte TOPc -/

theorem assembleF1_topc32 {σ : Type} (c : List Nat) (i : Nat) (t : TUAK σ)
    (hlen : c.length = 32) (hv : validateF1Inputs t = .ok ()) :
    assembleF1 c i t = .ok (layoutState c i t.rand t.amf t.sqn t.k) := by
  obtain ⟨_, hk, _, hr, hs, ha⟩ := (validateF1Inputs_iff t).mp hv
  exact assemble_f1 c t.rand t.amf t.sqn t.k i hlen hr ha hs (by omega)

theorem F1_valid_run {σ : Type} (t : TUAK σ) (w : σ) (c : List Nat) (htopc : t.topc = some c)
    (hlen : c.length = 32) (hv : validateF1Inputs t = .ok ()) :
    ∃ m, (F1 t w).1 = .ok m ∧ m.length = (t.opts.MACLength / 8).toNat := by
  obtain ⟨hm, hk, _, hr, hs, ha⟩ := (validateF1Inputs_iff t).mp hv
  obtain ⟨i, hi⟩ := instanceForF1_isOk t.opts.MACLength ((t.k.length : Int) * 8) false hm
    (klen_bits t.k hk)
  obtain ⟨out, _, hout, hrun⟩ := driver_topc_run validateF1Inputs
    (fun t => instanceForF1 t.opts.MACLength ((t.k.length : Int) * 8) false)
    assembleF1 "f1" "f1.in" extractMAC t w c _ i htopc hv hi
    (assembleF1_topc32 c i t hlen hv)
    (layoutState_length _ _ _ _ _ _ hlen hr ha hs (by omega))
  rw [F1_eq_driver, hrun]
  exact ⟨_, (extractMAC_ok t out hout hm).1, (extractMAC_ok t out hout hm).2⟩

theorem F1_invalid {σ : Type} (t : TUAK σ) (w : σ) (c : List Nat) (e : TuakError)
    (htopc : t.topc = some c) (hv : validateF1Inputs t = .error e) :
    F1 t w = (.error e, t, w) := by
  rw [F1_eq_driver]
  exact driver_topc_invalid _ _ _ _ _ _ t w c e htopc hv

theorem assembleF2345_topc32 {σ : Type} (c : List Nat) (i : Nat) (t : TUAK σ)
    (hlen : c.length = 32) (hk : t.k.length = 16 ∨ t.k.length = 32)
    (hr : t.rand.length = 16) :
    assembleF2345 c i t
      = .ok (layoutState c i t.rand (List.replicate 2 0) (List.replicate 6 0) t.k) :=
  assemble_f2345 c t.rand t.k i hlen hr (by omega)

theorem F2345_valid_run {σ : Type} (t : TUAK σ) (w : σ) (c : List Nat)
    (htopc : t.topc = some c) (hlen : c.length = 32) (hv : validateF2345Inputs t = .ok ()) :
    ∃ r, (F2345 t w).1 = .ok r ∧
      r.res.length = (t.opts.RESLength / 8).toNat ∧ r.ck.length = (t.opts.CKLength / 8).toNat ∧
      r.ik.length = (t.opts.IKLength / 8).toNat ∧ r.ak.length = 6 := by
  obtain ⟨hres, hck, hik, hk, _, hr⟩ := (validateF2345Inputs_iff t).mp hv
  obtain ⟨i, hi⟩ := instanceForF2345_isOk t.opts.RESLength t.opts.CKLength t.opts.IKLength
    ((t.k.length : Int) * 8) hres hck hik (klen_bits t.k hk)
  obtain ⟨out, _, hout, hrun⟩ := driver_topc_run validateF2345Inputs
    (fun t => instanceForF2345 t.opts.RESLength t.opts.CKLength t.opts.IKLength
      ((t.k.length : Int) * 8))
    assembleF2345 "f2345" "f2345.in" extractF2345 t w c _ i htopc hv hi
    (assembleF2345_topc32 c i t hlen hk hr)
    (layoutState_length _ _ _ _ _ _ hlen hr (by simp) (by simp) (by omega))
  rw [F2345_eq_driver, hrun]
  exact extractF2345_ok t out hout hres hck hik

theorem F2345_invalid {σ : Type} (t : TUAK σ) (w : σ) (c : List Nat) (e : TuakError)
    (htopc : t.topc = some c) (hv : validateF2345Inputs t = .error e) :
    F2345 t w = (.error e, t, w) := by
  rw [F2345_eq_driver]
  exact driver_topc_invalid _ _ _ _ _ _ t w c e htopc hv

end Tuak
namespace Tuak

/-! ## Deriving TOPc inside a session call -/

theorem ComputeTOPc_session_pair {σ : Type} (t : TUAK σ) (w : σ) (top c : List Nat)
    (h : (ComputeTOPc t.k top
      [WithKLength t.opts.KLength, WithKeccakIterations t.opts.KeccakIterations] w).1 = .ok c) :
    ComputeTOPc t.k top
      [WithKLength t.opts.KLength, WithKeccakIterations t.opts.KeccakIterations] w
        = (.ok c, w) :=
  Prod.ext h (ComputeTOPc_snd_hookless _ _ _ _ (applyOptions_hookless _ _ _))

theorem driver_derive {σ α : Type} (V : TUAK σ → Except TuakError Unit)
    (I : TUAK σ → Except TuakError Nat)
    (A : List Nat → Nat → TUAK σ → Except TuakError (List Nat)) (l li : String)
    (X : TUAK σ → List Nat → Except TuakError α) (t : TUAK σ) (w : σ) (top c : List Nat)
    (h1 : t.topc = none) (h2 : t.top = some top)
    (h : (ComputeTOPc t.k top
      [WithKLength t.opts.KLength, WithKeccakIterations t.opts.KeccakIterations] w).1 = .ok c) :
    driver V I A l li X t w = driver V I A l li X { t with topc := some c } w ∧
    (driver V I A l li X t w).2.1 = { t with topc := some c } := by
  have e := driver_derive_ok V I A l li X t w w top c h1 h2
    (ComputeTOPc_session_pair t w top c h)
  exact ⟨e, by rw [e]; exact driver_topc_session V I A l li X _ w c rfl⟩

/-- After a call that derived TOPc, the same call again returns the same result. -/
theorem driver_repeat {σ α : Type} (V : TUAK σ → Except TuakError Unit)
    (I : TUAK σ → Except TuakError Nat)
    (A : List Nat → Nat → TUAK σ → Except TuakError (List Nat)) (l li : String)
    (X : TUAK σ → List Nat → Except TuakError α) (t : TUAK σ) (w w2 : σ) (top c : List Nat)
    (h1 : t.topc = none) (h2 : t.top = some top)
    (h : (ComputeTOPc t.k top
      [WithKLength t.opts.KLength, WithKeccakIterations t.opts.KeccakIterations] w).1 = .ok c) :
    (driver V I A l li X (driver V I A l li X t w).2.1 w2).1 = (driver V I A l li X t w).1 := by
  obtain ⟨e1, e2⟩ := driver_derive V I A l li X t w top c h1 h2 h
  rw [e2, e1]
  exact driver_fst_world V I A l li X _ w2 w c rfl

/-! ## Errors on a session that holds a TOPc, function by function -/

theorem F1_error_unchanged {σ : Type} (t : TUAK σ) (w : σ) (c : List Nat) (e : TuakError)
    (h : t.topc = some c) (he : (F1 t w).1 = .error e) : F1 t w = (.error e, t, w) := by
  rw [F1_eq_driver] at he ⊢
  refine driver_error_unchanged _ _ _ _ _ _ t w c e h (fun hv => ?_)
    (fun i S hA => assembleF1_length c i t S hA) (fun hv out hout => ?_) he
  · obtain ⟨hm, hk, _⟩ := (validateF1Inputs_iff t).mp hv
    exact instanceForF1_isOk _ _ _ hm (klen_bits t.k hk)
  · exact ⟨_, (extractMAC_ok t out hout ((validateF1Inputs_iff t).mp hv).1).1⟩

theorem F1Star_error_unchanged {σ : Type} (t : TUAK σ) (w : σ) (c : List Nat) (e : TuakError)
    (h : t.topc = some c) (he : (F1Star t w).1 = .error e) :
    F1Star t w = (.error e, t, w) := by
  rw [F1Star_eq_driver] at he ⊢
  refine driver_error_unchanged _ _ _ _ _ _ t w c e h (fun hv => ?_)
    (fun i S hA => assembleF1_length c i t S hA) (fun hv out hout => ?_) he
  · obtain ⟨hm, hk, _⟩ := (validateF1Inputs_iff t).mp hv
    exact instanceForF1_isOk _ _ _ hm (klen_bits t.k hk)
  · exact ⟨_, (extractMAC_ok t out hout ((validateF1Inputs_iff t).mp hv).1).1⟩

theorem F2345_error_unchanged {σ : Type} (t : TUAK σ) (w : σ) (c : List Nat) (e : TuakError)
    (h : t.topc = some c) (he : (F2345 t w).1 = .error e) :
    F2345 t w = (.error e, t, w) := by
  rw [F2345_eq_driver] at he ⊢
  refine driver_error_unchanged _ _ _ _ _ _ t w c e h (fun hv => ?_)
    (fun i S hA => assembleF2345_length c i t S hA) (fun hv out hout => ?_) he
  · obtain ⟨hr, hc, hi, hk, _⟩ := (validateF2345Inputs_iff t).mp hv
    exact instanceForF2345_isOk _ _ _ _ hr hc hi (klen_bits t.k hk)
  · obtain ⟨hr, hc, hi, _⟩ := (validateF2345Inputs_iff t).mp hv
    obtain ⟨r, hr', _⟩ := extractF2345_ok t out hout hr hc hi
    exact ⟨r, hr'⟩

theorem F5Star_error_unchanged {σ : Type} (t : TUAK σ) (w : σ) (c : List Nat) (e : TuakError)
    (h : t.topc = some c) (he : (F5Star t w).1 = .error e) :
    F5Star t w = (.error e, t, w) := by
  rw [F5Star_eq_driver] at he ⊢
  refine driver_error_unchanged _ _ _ _ _ _ t w c e h (fun hv => ?_)
    (fun i S hA => assembleF2345_length c i t S hA) (fun hv out hout => ?_) he
  · obtain ⟨hk, _⟩ := (validateF5StarInputs_iff t).mp hv
    exact instanceForF5Star_isOk _ (klen_bits t.k hk)
  · obtain ⟨ak, hak, _⟩ := extractAK_ok out hout
    exact ⟨ak, hak⟩

end Tuak
namespace Tuak

/-! ## Evaluations on the concrete sessions -/

set_option maxRecDepth 100000 in
theorem assembleF1_shortTopc :
    assembleF1 exampleShortTOPc 0x08 shortTopcSession = .ok shortTopcState := by
  decide!

set_option maxRecDepth 100000 in
theorem assembleF1_longTopc :
    assembleF1 (List.replicate 201 0x55) 0x08 longTopcSession = .error .runtimeFault := by
  decide!

theorem validateF1Inputs_shortTopc : validateF1Inputs shortTopcSession = .ok () := by
  decide

theorem validateF1Inputs_longTopc : validateF1Inputs longTopcSession = .ok () := by
  decide

end Tuak
namespace Tuak

/-! ## `DebugHexBytes` -/

theorem hextable_digit : ∀ d, d < 16 → hextable.getD d '0' = lowerHexDigit d := by decide

/-- The builder of `DebugHexBytes` after `n` iterations of the loop. -/
theorem hex_loop (data : List Nat) (n : Nat) :
    ((List.range n).foldl
      (fun (b : List Char) (i : Nat) =>
        let b := if i > 0 then b ++ [' '] else b
        b ++ hexEncode (data.getD i 0)) []).length = 3 * n - 1 ∧
    ∀ i, i < n →
      ((List.range n).foldl
        (fun (b : List Char) (i : Nat) =>
          let b := if i > 0 then b ++ [' '] else b
          b ++ hexEncode (data.getD i 0)) []).getD (3 * i) 'X'
        = hextable.getD (data.getD i 0 >>> 4) '0' ∧
      ((List.range n).foldl
        (fun (b : List Char) (i : Nat) =>
          let b := if i > 0 then b ++ [' '] else b
          b ++ hexEncode (data.getD i 0)) []).getD (3 * i + 1) 'X'
        = hextable.getD (data.getD i 0 &&& 0x0f) '0' ∧
      (i + 1 < n →
        ((List.range n).foldl
          (fun (b : List Char) (i : Nat) =>
            let b := if i > 0 then b ++ [' '] else b
            b ++ hexEncode (data.getD i 0)) []).getD (3 * i + 2) 'X' = ' ') := by
  induction n with
  | zero => exact ⟨rfl, fun i hi => absurd hi (Nat.not_lt_zero i)⟩
  | succ n ih =>
    rw [List.range_succ, List.foldl_append]
    simp only [List.foldl_cons, List.foldl_nil]
    generalize (List.range n).foldl
      (fun (b : List Char) (i : Nat) =>
        let b := if i > 0 then b ++ [' '] else b
        b ++ hexEncode (data.getD i 0)) [] = R at ih ⊢
    obtain ⟨hl, hc⟩ := ih
    rcases Nat.eq_zero_or_pos n with h0 | hpos
    · subst h0
      have hR : R = [] := List.length_eq_zero.mp (by omega)
      subst hR
      refine ⟨rfl, ?_⟩
      intro i hi
      have : i = 0 := by omega
      subst this
      exact ⟨rfl, rfl, fun h => absurd h (by omega)⟩
    · rw [if_pos hpos]
      have hl1 : (R ++ [' ']).length = 3 * n := by
        rw [List.length_append, hl]
        simp only [List.length_singleton]
        omega
      refine ⟨?_, ?_⟩
      · rw [List.length_append, hl1]
        simp only [hexEncode, List.length_cons, List.length_nil]
        omega
      · intro i hi
        rcases Nat.lt_or_ge i n with hin | hin
        · obtain ⟨c0, c1, c2⟩ := hc i hin
          refine ⟨?_, ?_, ?_⟩
          · rw [List.append_assoc, List.getD_append _ _ _ _ (by omega)]
            exact c0
          · rw [List.append_assoc, List.getD_append _ _ _ _ (by omega)]
            exact c1
          · intro _
            rcases Nat.lt_or_ge (i + 1) n with h2 | h2
            · rw [List.append_assoc, List.getD_append _ _ _ _ (by omega)]
              exact c2 h2
            · have hi2 : 3 * i + 2 = R.length := by omega
              rw [List.getD_append _ _ _ _ (by omega), List.getD_append_right _ _ _ _ (by omega),
                hi2, Nat.sub_self]
              rfl
        · have hi2 : i = n := by omega
          subst hi2
          refine ⟨?_, ?_, fun h => absurd h (by omega)⟩
          · rw [List.getD_append_right _ _ _ _ (by omega), hl1, Nat.sub_self]
            rfl
          · rw [List.getD_append_right _ _ _ _ (by omega), hl1, Nat.add_sub_cancel_left]
            rfl

theorem DebugHexBytes_data (data : List Nat) (h : 1 ≤ data.length) :
    (DebugHexBytes data).data = (List.range data.length).foldl
      (fun (b : List Char) (i : Nat) =>
        let b := if i > 0 then b ++ [' '] else b
        b ++ hexEncode (data.getD i 0)) [] := by
  unfold DebugHexBytes
  rw [if_neg (by omega)]

theorem hexEncode_digits (v : Nat) (h : v < 256) :
    hextable.getD (v >>> 4) '0' = lowerHexDigit (v / 16) ∧
    hextable.getD (v &&& 0x0f) '0' = lowerHexDigit (v % 16) := by
  have e1 : v >>> 4 = v / 16 := Nat.shiftRight_eq_div_pow v 4
  have e2 : v &&& 0x0f = v % 16 := Nat.and_pow_two_sub_one_eq_mod v 4
  rw [e1, e2]
  exact ⟨hextable_digit _ (by omega), hextable_digit _ (by omega)⟩

end Tuak
namespace Tuak

/-! ## The reports of the iterated permutation -/

theorem debugLabel_eq (label : String) (n : Int) (i : Nat) :
    debugLabel label (Int.ofNat i) (max n 1) = reportLabel label n (i + 1) := by
  unfold debugLabel reportLabel
  by_cases h : n ≤ 1
  · rw [if_pos (by omega), if_pos h]
  · rw [if_neg (by omega), if_neg h]
    rfl

/-- The loop of `permute` on a 200-byte state: after `m` iterations it holds the `m`-th
iterate and has reported the iterates 1..m. -/
theorem permute_loop_run {σ : Type} (S : List Nat) (hook : DebugHook σ) (label : String)
    (total : Int) (w : σ) (h : S.length = 200) (m : Nat) :
    (List.range m).foldl
      (fun (s : Except TuakError (List Nat) × σ) (i : Nat) =>
        match s.1 with
        | .error e => (.error e, s.2)
        | .ok out =>
          match Keccak.PermuteF1600 out with
          | .error e => (.error (TuakError.keccak e), s.2)
          | .ok out =>
            (.ok out, callDebug hook (debugLabel label (Int.ofNat i) total) out s.2))
      (.ok S, w)
    = (.ok ((permuteTimes m S).toOption.getD []),
        (List.range m).foldl (fun w i => callDebug hook (debugLabel label (Int.ofNat i) total)
          ((permuteTimes (i + 1) S).toOption.getD []) w) w) := by
  induction m with
  | zero => rfl
  | succ m ih =>
    rw [List.range_succ, List.foldl_append, List.foldl_append, ih]
    simp only [List.foldl_cons, List.foldl_nil]
    obtain ⟨o, ho, hl⟩ := permuteTimes_ok m S h
    obtain ⟨o', ho', _⟩ := permuteF1600_ok o hl
    have e1 : (permuteTimes m S).toOption.getD [] = o := by rw [ho]; rfl
    have e2 : permuteTimes (m + 1) S = .ok o' := by
      rw [permuteTimes, ho]
      exact ho'
    rw [e1, e2, ho']
    rfl

theorem permute_run {σ : Type} (S : List Nat) (n : Int) (hook : DebugHook σ) (label : String)
    (w : σ) (h : S.length = 200) :
    ∃ outs, IteratesOf S (max n 1).toNat outs ∧
      permute S n hook label w = (.ok (outs.getD (outs.length - 1) []),
        deliver hook ((List.range outs.length).map
          (fun i => (reportLabel label n (i + 1), outs.getD i []))) w) := by
  have hN : 0 < (max n 1).toNat := by omega
  have hget : ∀ i, i < (max n 1).toNat →
      ((List.range (max n 1).toNat).map
        (fun i => (permuteTimes (i + 1) S).toOption.getD [])).getD i []
        = (permuteTimes (i + 1) S).toOption.getD [] := by
    intro i hi
    rw [List.getD_eq_getElem _ _ (by rw [List.length_map, List.length_range]; exact hi),
      List.getElem_map, List.getElem_range]
  refine ⟨(List.range (max n 1).toNat).map (fun i => (permuteTimes (i + 1) S).toOption.getD []),
    ⟨by rw [List.length_map, List.length_range], ?_⟩, ?_⟩
  · intro i hi
    rw [hget i hi]
    obtain ⟨o, ho, hl⟩ := permuteTimes_ok (i + 1) S h
    rw [ho]
    exact ⟨rfl, hl⟩
  · rw [List.length_map, List.length_range, hget _ (by omega)]
    have hm : (max n 1).toNat - 1 + 1 = (max n 1).toNat := by omega
    rw [hm]
    unfold permute
    have e : (if n ≤ 0 then (1 : Int) else n) = max n 1 := by
      split_ifs with h0
      · omega
      · omega
    simp only [e]
    refine Eq.trans (permute_loop_run S hook label (max n 1) w h _) ?_
    congr 1
    unfold deliver
    rw [List.foldl_map]
    apply List.foldl_ext
    intro a i hi
    have hi2 : i < (max n 1).toNat := List.mem_range.mp hi
    rw [hget i hi2, debugLabel_eq]

end Tuak
namespace Tuak

/-! ## The run of a function on valid inputs: packed state, iterates, reports -/

theorem session_topc_eta {σ : Type} (t : TUAK σ) (c : List Nat) (h : t.topc = some c) :
    { t with topc := some c } = t := by
  cases t
  simp only at h
  subst h
  rfl

theorem applyOptions_session_klength {σ : Type} (k : List Nat) (a b : Int)
    (ha : a = 0 ∨ a = 8 * (k.length : Int)) :
    (applyOptions k ([WithKLength a, WithKeccakIterations b] : List (Opt σ))).KLength = 0 ∨
    (applyOptions k ([WithKLength a, WithKeccakIterations b] : List (Opt σ))).KLength
      = 8 * (k.length : Int) := by
  have e : applyOptions k ([WithKLength a, WithKeccakIterations b] : List (Opt σ))
      = if a = 0 ∧ k.length > 0 then
          { KLength := (k.length : Int) * 8, MACLength := 0, RESLength := 0, CKLength := 0,
            IKLength := 0, KeccakIterations := b, DebugHook := none }
        else
          { KLength := a, MACLength := 0, RESLength := 0, CKLength := 0,
            IKLength := 0, KeccakIterations := b, DebugHook := none } := rfl
  rw [e]
  by_cases h : a = 0 ∧ k.length > 0
  · rw [if_pos h]
    right
    show (k.length : Int) * 8 = 8 * (k.length : Int)
    omega
  · rw [if_neg h]
    exact ha

/-- A valid session resolves a TOPc of 32 bytes: the one it holds, or the one derived from
its TOP; the call then behaves as on the session that holds it. -/
theorem driver_resolve {σ α : Type} (V : TUAK σ → Except TuakError Unit)
    (I : TUAK σ → Except TuakError Nat)
    (A : List Nat → Nat → TUAK σ → Except TuakError (List Nat)) (l li : String)
    (X : TUAK σ → List Nat → Except TuakError α) (t : TUAK σ) (w : σ)
    (hsrc : (∃ c, t.topc = some c ∧ c.length = 32) ∨
      (t.topc = none ∧ ∃ top, t.top = some top ∧ top.length = 32))
    (hk : t.k.length = 16 ∨ t.k.length = 32)
    (hkl : t.opts.KLength = 0 ∨ t.opts.KLength = 8 * (t.k.length : Int)) :
    ∃ c, c.length = 32 ∧
      driver V I A l li X t w = driver V I A l li X { t with topc := some c } w := by
  rcases hsrc with ⟨c, hc, hlen⟩ | ⟨h1, top, h2, hlen⟩
  · exact ⟨c, hlen, by rw [session_topc_eta t c hc]⟩
  · obtain ⟨c, hc, hclen⟩ := ComputeTOPc_ok_of_valid t.k top
      ([WithKLength t.opts.KLength, WithKeccakIterations t.opts.KeccakIterations] : List (Opt σ))
      w hk (applyOptions_session_klength t.k _ _ hkl) hlen
    exact ⟨c, hclen, (driver_derive V I A l li X t w top c h1 h2 hc).1⟩

theorem driver_reports_topc {σ α : Type} (V : TUAK σ → Except TuakError Unit)
    (I : TUAK σ → Except TuakError Nat)
    (A : List Nat → Nat → TUAK σ → Except TuakError (List Nat)) (l li : String)
    (X : TUAK σ → List Nat → Except TuakError α) (t : TUAK σ) (w : σ) (c S : List Nat)
    (i : Nat) (h : t.topc = some c) (hV : V t = .ok ()) (hI : I t = .ok i)
    (hA : A c i t = .ok S) (hS : S.length = 200) :
    ∃ outs, IteratesOf S (max t.opts.KeccakIterations 1).toNat outs ∧
      driver V I A l li X t w = (X t (outs.getD (outs.length - 1) []), t,
        deliver t.opts.DebugHook ((li, S) :: (List.range outs.length).map
          (fun i => (reportLabel l t.opts.KeccakIterations (i + 1), outs.getD i []))) w) := by
  obtain ⟨outs, hit, hrun⟩ := permute_run S t.opts.KeccakIterations t.opts.DebugHook l
    (callDebug t.opts.DebugHook li S w) hS
  refine ⟨outs, hit, ?_⟩
  unfold driver
  rw [ensureTOPc_of_topc t w c h]
  simp only [hV, hI, hA]
  rw [hrun]
  rfl

/-- The run of a session function on valid inputs. -/
theorem driver_reports {σ α : Type} (V : TUAK σ → Except TuakError Unit)
    (I : TUAK σ → Except TuakError Nat)
    (A : List Nat → Nat → TUAK σ → Except TuakError (List Nat)) (l li : String)
    (X : TUAK σ → List Nat → Except TuakError α) (t : TUAK σ) (w : σ) (i : Nat)
    (L : List Nat → List Nat)
    (hsrc : (∃ c, t.topc = some c ∧ c.length = 32) ∨
      (t.topc = none ∧ ∃ top, t.top = some top ∧ top.length = 32))
    (hk : t.k.length = 16 ∨ t.k.length = 32)
    (hkl : t.opts.KLength = 0 ∨ t.opts.KLength = 8 * (t.k.length : Int))
    (hV : ∀ c, V { t with topc := some c } = .ok ())
    (hI : ∀ c, I { t with topc := some c } = .ok i)
    (hA : ∀ c, c.length = 32 → A c i { t with topc := some c } = .ok (L c))
    (hL : ∀ c, c.length = 32 → (L c).length = 200)
    (hX : ∀ c out, X { t with topc := some c } out = X t out) :
    ∃ c outs, c.length = 32 ∧
      IteratesOf (L c) (max t.opts.KeccakIterations 1).toNat outs ∧
      driver V I A l li X t w = (X t (outs.getD (outs.length - 1) []),
        { t with topc := some c },
        deliver t.opts.DebugHook ((li, L c) :: (List.range outs.length).map
          (fun i => (reportLabel l t.opts.KeccakIterations (i + 1), outs.getD i []))) w) := by
  obtain ⟨c, hlen, hd⟩ := driver_resolve V I A l li X t w hsrc hk hkl
  obtain ⟨outs, hit, hrun⟩ := driver_reports_topc V I A l li X { t with topc := some c } w c
    (L c) i rfl (hV c) (hI c) (hA c hlen) (hL c hlen)
  refine ⟨c, outs, hlen, hit, ?_⟩
  rw [hd, hrun, hX]

end Tuak
namespace Tuak

/-! ## The packed state keeps the padding -/

theorem layoutState_padding (top rand amf sqn k : List Nat) (inst : Nat)
    (htop : top.length = 32) (hrand : rand.length = 16) (hamf : amf.length = 2)
    (hsqn : sqn.length = 6) (hk : k.length = 16 ∨ k.length = 32) :
    PaddingIntact (layoutState top inst rand amf sqn k) := by
  have hlen : (top.reverse ++ [inst] ++ algoName.reverse ++ rand.reverse ++ amf.reverse
      ++ sqn.reverse ++ k.reverse ++ List.replicate (32 - k.length) 0).length = 96 := by
    simp only [List.length_append, List.length_reverse, List.length_singleton,
      List.length_replicate, htop, hrand, hamf, hsqn]
    have : algoName.length = 7 := rfl
    omega
  have e : layoutState top inst rand amf sqn k
      = (top.reverse ++ [inst] ++ algoName.reverse ++ rand.reverse ++ amf.reverse
        ++ sqn.reverse ++ k.reverse ++ List.replicate (32 - k.length) 0)
        ++ ([0x1F] ++ List.replicate 38 0 ++ [0x80] ++ List.replicate 64 0) := by
    unfold layoutState
    simp only [List.append_assoc]
  have tail : ∀ j, j < 104 →
      ([0x1F] ++ List.replicate 38 0 ++ [0x80] ++ List.replicate 64 0 : List Nat).getD j 0
        = if j = 0 then 0x1F else if j = 39 then 0x80 else 0 := by decide
  have key : ∀ i, 96 ≤ i → i < 200 →
      (layoutState top inst rand amf sqn k).getD i 0
        = if i - 96 = 0 then 0x1F else if i - 96 = 39 then 0x80 else 0 := by
    intro i h1 h2
    rw [e, List.getD_append_right _ _ _ _ (by omega), hlen]
    exact tail (i - 96) (by omega)
  refine ⟨layoutState_length _ _ _ _ _ _ htop hrand hamf hsqn (by omega), ?_, ?_, ?_, ?_⟩
  · rw [key 96 (by omega) (by omega)]
    rfl
  · rw [key 135 (by omega) (by omega)]
    rfl
  · intro i h1 h2
    rw [key i (by omega) (by omega), if_neg (by omega), if_neg (by omega)]
  · intro i h1 h2
    rw [key i (by omega) (by omega), if_neg (by omega), if_neg (by omega)]

/-! ## The run of each function on valid inputs -/

theorem ComputeTOPc_reports {σ : Type} (k top : List Nat) (opts : List (Opt σ)) (w : σ)
    (hk : k.length = 16 ∨ k.length = 32)
    (hkl : (applyOptions k opts).KLength = 0
      ∨ (applyOptions k opts).KLength = 8 * (k.length : Int))
    (htop : top.length = 32) :
    ∃ inst outs,
      instanceForTOPc (8 * (k.length : Int)) = .ok inst ∧
      IteratesOf (layoutState top inst (List.replicate 16 0) (List.replicate 2 0)
          (List.replicate 6 0) k)
        (max (applyOptions k opts).KeccakIterations 1).toNat outs ∧
      ComputeTOPc k top opts w = (pullData (outs.getD (outs.length - 1) []) offsetTOP 32,
        deliver (applyOptions k opts).DebugHook
          (expectedReports "topc" (applyOptions k opts).KeccakIterations
            (layoutState top inst (List.replicate 16 0) (List.replicate 2 0)
              (List.replicate 6 0) k) outs) w) := by
  obtain ⟨inst, hinst⟩ := instanceForTOPc_isOk ((k.length : Int) * 8) (klen_bits k hk)
  have hS := assemble_topc top k inst htop (by omega)
  obtain ⟨outs, hit, hrun⟩ := permute_run
    (layoutState top inst (List.replicate 16 0) (List.replicate 2 0) (List.replicate 6 0) k)
    (applyOptions k opts).KeccakIterations (applyOptions k opts).DebugHook "topc"
    (callDebug (applyOptions k opts).DebugHook "topc.in"
      (layoutState top inst (List.replicate 16 0) (List.replicate 2 0) (List.replicate 6 0) k) w)
    (layoutState_length _ _ _ _ _ _ htop (by simp) (by simp) (by simp) (by omega))
  refine ⟨inst, outs, by rw [Int.mul_comm]; exact hinst, hit, ?_⟩
  unfold ComputeTOPc
  simp only [resolveKLength_ok k (applyOptions k opts) hk hkl, requireLen_ok _ _ _ htop, hinst,
    hS]
  rw [hrun]
  rfl

theorem F1_reports {σ : Type} (t : TUAK σ) (w : σ)
    (hsrc : (∃ c, t.topc = some c ∧ c.length = 32) ∨
      (t.topc = none ∧ ∃ top, t.top = some top ∧ top.length = 32))
    (hv : validateF1Inputs t = .ok ()) :
    ∃ c inst outs, c.length = 32 ∧
      instanceForF1 t.opts.MACLength (8 * (t.k.length : Int)) false = .ok inst ∧
      IteratesOf (layoutState c inst t.rand t.amf t.sqn t.k)
        (max t.opts.KeccakIterations 1).toNat outs ∧
      F1 t w = (extractMAC t (outs.getD (outs.length - 1) []), { t with topc := some c },
        deliver t.opts.DebugHook (expectedReports "f1" t.opts.KeccakIterations
          (layoutState c inst t.rand t.amf t.sqn t.k) outs) w) := by
  obtain ⟨hm, hk, hkl, hr, hs, ha⟩ := (validateF1Inputs_iff t).mp hv
  obtain ⟨inst, hinst⟩ := instanceForF1_isOk t.opts.MACLength ((t.k.length : Int) * 8) false
    hm (klen_bits t.k hk)
  obtain ⟨c, outs, hlen, hit, hrun⟩ := driver_reports validateF1Inputs
    (fun t => instanceForF1 t.opts.MACLength ((t.k.length : Int) * 8) false)
    assembleF1 "f1" "f1.in" extractMAC t w inst
    (fun c => layoutState c inst t.rand t.amf t.sqn t.k) hsrc hk hkl
    (fun _ => hv) (fun _ => hinst)
    (fun c hc => assemble_f1 c t.rand t.amf t.sqn t.k inst hc hr ha hs (by omega))
    (fun c hc => layoutState_length _ _ _ _ _ _ hc hr ha hs (by omega))
    (fun _ _ => rfl)
  exact ⟨c, inst, outs, hlen, by rw [Int.mul_comm]; exact hinst, hit, hrun⟩

theorem F1Star_reports {σ : Type} (t : TUAK σ) (w : σ)
    (hsrc : (∃ c, t.topc = some c ∧ c.length = 32) ∨
      (t.topc = none ∧ ∃ top, t.top = some top ∧ top.length = 32))
    (hv : validateF1Inputs t = .ok ()) :
    ∃ c inst outs, c.length = 32 ∧
      instanceForF1 t.opts.MACLength (8 * (t.k.length : Int)) true = .ok inst ∧
      IteratesOf (layoutState c inst t.rand t.amf t.sqn t.k)
        (max t.opts.KeccakIterations 1).toNat outs ∧
      F1Star t w = (extractMAC t (outs.getD (outs.length - 1) []), { t with topc := some c },
        deliver t.opts.DebugHook (expectedReports "f1star" t.opts.KeccakIterations
          (layoutState c inst t.rand t.amf t.sqn t.k) outs) w) := by
  obtain ⟨hm, hk, hkl, hr, hs, ha⟩ := (validateF1Inputs_iff t).mp hv
  obtain ⟨inst, hinst⟩ := instanceForF1_isOk t.opts.MACLength ((t.k.length : Int) * 8) true
    hm (klen_bits t.k hk)
  obtain ⟨c, outs, hlen, hit, hrun⟩ := driver_reports validateF1Inputs
    (fun t => instanceForF1 t.opts.MACLength ((t.k.length : Int) * 8) true)
    assembleF1 "f1star" "f1star.in" extractMAC t w inst
    (fun c => layoutState c inst t.rand t.amf t.sqn t.k) hsrc hk hkl
    (fun _ => hv) (fun _ => hinst)
    (fun c hc => assemble_f1 c t.rand t.amf t.sqn t.k inst hc hr ha hs (by omega))
    (fun c hc => layoutState_length _ _ _ _ _ _ hc hr ha hs (by omega))
    (fun _ _ => rfl)
  exact ⟨c, inst, outs, hlen, by rw [Int.mul_comm]; exact hinst, hit, hrun⟩

theorem F2345_reports {σ : Type} (t : TUAK σ) (w : σ)
    (hsrc : (∃ c, t.topc = some c ∧ c.length = 32) ∨
      (t.topc = none ∧ ∃ top, t.top = some top ∧ top.length = 32))
    (hv : validateF2345Inputs t = .ok ()) :
    ∃ c inst outs, c.length = 32 ∧
      instanceForF2345 t.opts.RESLength t.opts.CKLength t.opts.IKLength
        (8 * (t.k.length : Int)) = .ok inst ∧
      IteratesOf (layoutState c inst t.rand (List.replicate 2 0) (List.replicate 6 0) t.k)
        (max t.opts.KeccakIterations 1).toNat outs ∧
      F2345 t w = (extractF2345 t (outs.getD (outs.length - 1) []), { t with topc := some c },
        deliver t.opts.DebugHook (expectedReports "f2345" t.opts.KeccakIterations
          (layoutState c inst t.rand (List.replicate 2 0) (List.replicate 6 0) t.k) outs) w) := by
  obtain ⟨hres, hck, hik, hk, hkl, hr⟩ := (validateF2345Inputs_iff t).mp hv
  obtain ⟨inst, hinst⟩ := instanceForF2345_isOk t.opts.RESLength t.opts.CKLength
    t.opts.IKLength ((t.k.length : Int) * 8) hres hck hik (klen_bits t.k hk)
  obtain ⟨c, outs, hlen, hit, hrun⟩ := driver_reports validateF2345Inputs
    (fun t => instanceForF2345 t.opts.RESLength t.opts.CKLength t.opts.IKLength
      ((t.k.length : Int) * 8))
    assembleF2345 "f2345" "f2345.in" extractF2345 t w inst
    (fun c => layoutState c inst t.rand (List.replicate 2 0) (List.replicate 6 0) t.k)
    hsrc hk hkl (fun _ => hv) (fun _ => hinst)
    (fun c hc => assemble_f2345 c t.rand t.k inst hc hr (by omega))
    (fun c hc => layoutState_length _ _ _ _ _ _ hc hr (by simp) (by simp) (by omega))
    (fun _ _ => rfl)
  exact ⟨c, inst, outs, hlen, by rw [Int.mul_comm]; exact hinst, hit, hrun⟩

theorem F5Star_reports {σ : Type} (t : TUAK σ) (w : σ)
    (hsrc : (∃ c, t.topc = some c ∧ c.length = 32) ∨
      (t.topc = none ∧ ∃ top, t.top = some top ∧ top.length = 32))
    (hv : validateF5StarInputs t = .ok ()) :
    ∃ c inst outs, c.length = 32 ∧
      instanceForF5Star (8 * (t.k.length : Int)) = .ok inst ∧
      IteratesOf (layoutState c inst t.rand (List.replicate 2 0) (List.replicate 6 0) t.k)
        (max t.opts.KeccakIterations 1).toNat outs ∧
      F5Star t w = (pullData (outs.getD (outs.length - 1) []) 96 6, { t with topc := some c },
        deliver t.opts.DebugHook (expectedReports "f5star" t.opts.KeccakIterations
          (layoutState c inst t.rand (List.replicate 2 0) (List.replicate 6 0) t.k) outs) w) := by
  obtain ⟨hk, hkl, hr⟩ := (validateF5StarInputs_iff t).mp hv
  obtain ⟨inst, hinst⟩ := instanceForF5Star_isOk ((t.k.length : Int) * 8) (klen_bits t.k hk)
  obtain ⟨c, outs, hlen, hit, hrun⟩ := driver_reports validateF5StarInputs
    (fun t => instanceForF5Star ((t.k.length : Int) * 8))
    assembleF2345 "f5star" "f5star.in" (fun _ out => pullData out 96 6) t w inst
    (fun c => layoutState c inst t.rand (List.replicate 2 0) (List.replicate 6 0) t.k)
    hsrc hk hkl (fun _ => hv) (fun _ => hinst)
    (fun c hc => assemble_f2345 c t.rand t.k inst hc hr (by omega))
    (fun c hc => layoutState_length _ _ _ _ _ _ hc hr (by simp) (by simp) (by omega))
    (fun _ _ => rfl)
  exact ⟨c, inst, outs, hlen, by rw [Int.mul_comm]; exact hinst, hit, hrun⟩

end Tuak
namespace Tuak

/-! ## The hook does not change results -/

theorem applyOptions_append_hook {σ : Type} (k : List Nat) (opts : List (Opt σ))
    (hook : DebugHook σ) :
    applyOptions k (opts ++ [WithDebugHook hook])
      = { applyOptions k opts with DebugHook := hook } := by
  have e : configuredOptions (opts ++ [WithDebugHook hook])
      = { configuredOptions opts with DebugHook := hook } := by
    unfold configuredOptions
    rw [List.foldl_append]
    rfl
  rw [applyOptions_eq, applyOptions_eq, e]
  by_cases h : (configuredOptions opts).KLength = 0 ∧ k.length > 0
  · rw [if_pos h, if_pos h]
  · rw [if_neg h, if_neg h]

theorem ComputeTOPc_hook_irrelevant {σ : Type} (k top : List Nat) (opts : List (Opt σ))
    (hook : DebugHook σ) (w w2 : σ) :
    (ComputeTOPc k top (opts ++ [WithDebugHook hook]) w2).1 = (ComputeTOPc k top opts w).1 := by
  apply ComputeTOPc_fst_congr
  · rw [applyOptions_append_hook]
  · rw [applyOptions_append_hook]

theorem ComputeTOPc_session_world {σ : Type} (t : TUAK σ) (top : List Nat) (w : σ) :
    ComputeTOPc t.k top
      [WithKLength t.opts.KLength, WithKeccakIterations t.opts.KeccakIterations] w
      = ((ComputeTOPc t.k top
          ([WithKLength t.opts.KLength, WithKeccakIterations t.opts.KeccakIterations]
            : List (Opt σ)) w).1, w) :=
  Prod.ext rfl (ComputeTOPc_snd_hookless _ _ _ _ (applyOptions_hookless _ _ _))

/-- On a session that holds a TOPc the result does not depend on the hook or on the world. -/
theorem driver_hook_topc {σ α : Type} (V : TUAK σ → Except TuakError Unit)
    (I : TUAK σ → Except TuakError Nat)
    (A : List Nat → Nat → TUAK σ → Except TuakError (List Nat)) (l li : String)
    (X : TUAK σ → List Nat → Except TuakError α) (t : TUAK σ) (hook : DebugHook σ)
    (w w2 : σ) (c : List Nat) (h : t.topc = some c)
    (hV : V (withHook t hook) = V t) (hI : I (withHook t hook) = I t)
    (hA : ∀ i, A c i (withHook t hook) = A c i t)
    (hX : ∀ out, X (withHook t hook) out = X t out) :
    (driver V I A l li X (withHook t hook) w2).1 = (driver V I A l li X t w).1 := by
  unfold driver
  rw [ensureTOPc_of_topc (withHook t hook) w2 c h, ensureTOPc_of_topc t w c h]
  simp only []
  rw [hV]
  cases V t with
  | error e => rfl
  | ok u =>
    simp only []
    rw [hI]
    cases I t with
    | error e => rfl
    | ok i =>
      simp only []
      rw [hA]
      cases A c i t with
      | error e => rfl
      | ok S =>
        simp only []
        have h1 := permute_fst S (withHook t hook).opts.KeccakIterations
          (withHook t hook).opts.DebugHook l
          (callDebug (withHook t hook).opts.DebugHook li S w2)
        have h2 := permute_fst S t.opts.KeccakIterations t.opts.DebugHook l
          (callDebug t.opts.DebugHook li S w)
        rcases hp1 : permute S (withHook t hook).opts.KeccakIterations
          (withHook t hook).opts.DebugHook l
          (callDebug (withHook t hook).opts.DebugHook li S w2) with ⟨r1, x1⟩
        rcases hp2 : permute S t.opts.KeccakIterations t.opts.DebugHook l
          (callDebug t.opts.DebugHook li S w) with ⟨r2, x2⟩
        rw [hp1] at h1
        rw [hp2] at h2
        have e : r1 = r2 := h1.trans h2.symm
        subst e
        cases r1 with
        | error e => rfl
        | ok out => exact hX out

/-- The result of a session function does not depend on the hook or on the world. -/
theorem driver_hook_irrelevant {σ α : Type} (V : TUAK σ → Except TuakError Unit)
    (I : TUAK σ → Except TuakError Nat)
    (A : List Nat → Nat → TUAK σ → Except TuakError (List Nat)) (l li : String)
    (X : TUAK σ → List Nat → Except TuakError α) (t : TUAK σ) (hook : DebugHook σ)
    (w w2 : σ)
    (hV : ∀ s : TUAK σ, V (withHook s hook) = V s)
    (hI : ∀ s : TUAK σ, I (withHook s hook) = I s)
    (hA : ∀ (s : TUAK σ) c i, A c i (withHook s hook) = A c i s)
    (hX : ∀ (s : TUAK σ) out, X (withHook s hook) out = X s out) :
    (driver V I A l li X (withHook t hook) w2).1 = (driver V I A l li X t w).1 := by
  cases h1 : t.topc with
  | some c =>
    exact driver_hook_topc V I A l li X t hook w w2 c h1 (hV t) (hI t) (fun i => hA t c i)
      (hX t)
  | none =>
    cases h2 : t.top with
    | none =>
      rw [driver_missing V I A l li X (withHook t hook) w2 h1 h2,
        driver_missing V I A l li X t w h1 h2]
    | some top =>
      have hw : (ComputeTOPc t.k top
          ([WithKLength t.opts.KLength, WithKeccakIterations t.opts.KeccakIterations]
            : List (Opt σ)) w2).1
          = (ComputeTOPc t.k top
          ([WithKLength t.opts.KLength, WithKeccakIterations t.opts.KeccakIterations]
            : List (Opt σ)) w).1 := ComputeTOPc_fst_congr _ _ _ _ _ _ rfl rfl
      cases hc : (ComputeTOPc t.k top
          ([WithKLength t.opts.KLength, WithKeccakIterations t.opts.KeccakIterations]
            : List (Opt σ)) w).1 with
      | error e =>
        have e1 := ComputeTOPc_session_world t top w
        have e2 := ComputeTOPc_session_world t top w2
        rw [hw] at e2
        rw [hc] at e1 e2
        rw [driver_derive_error V I A l li X (withHook t hook) w2 w2 top e h1 h2 e2,
          driver_derive_error V I A l li X t w w top e h1 h2 e1]
      | ok c =>
        have hc2 := hw.trans hc
        rw [(driver_derive V I A l li X (withHook t hook) w2 top c h1 h2 hc2).1,
          (driver_derive V I A l li X t w top c h1 h2 hc).1]
        exact driver_hook_topc V I A l li X { t with topc := some c } hook w w2 c rfl
          (hV _) (hI _) (fun i => hA _ c i) (hX _)

theorem F1_hook_irrelevant {σ : Type} (t : TUAK σ) (hook : DebugHook σ) (w w2 : σ) :
    (F1 (withHook t hook) w2).1 = (F1 t w).1 := by
  rw [F1_eq_driver, F1_eq_driver]
  exact driver_hook_irrelevant _ _ _ _ _ _ t hook w w2 (fun _ => rfl) (fun _ => rfl)
    (fun _ _ _ => rfl) (fun _ _ => rfl)

theorem F1Star_hook_irrelevant {σ : Type} (t : TUAK σ) (hook : DebugHook σ) (w w2 : σ) :
    (F1Star (withHook t hook) w2).1 = (F1Star t w).1 := by
  rw [F1Star_eq_driver, F1Star_eq_driver]
  exact driver_hook_irrelevant _ _ _ _ _ _ t hook w w2 (fun _ => rfl) (fun _ => rfl)
    (fun _ _ _ => rfl) (fun _ _ => rfl)

theorem F2345_hook_irrelevant {σ : Type} (t : TUAK σ) (hook : DebugHook σ) (w w2 : σ) :
    (F2345 (withHook t hook) w2).1 = (F2345 t w).1 := by
  rw [F2345_eq_driver, F2345_eq_driver]
  exact driver_hook_irrelevant _ _ _ _ _ _ t hook w w2 (fun _ => rfl) (fun _ => rfl)
    (fun _ _ _ => rfl) (fun _ _ => rfl)

theorem F5Star_hook_irrelevant {σ : Type} (t : TUAK σ) (hook : DebugHook σ) (w w2 : σ) :
    (F5Star (withHook t hook) w2).1 = (F5Star t w).1 := by
  rw [F5Star_eq_driver, F5Star_eq_driver]
  exact driver_hook_irrelevant _ _ _ _ _ _ t hook w w2 (fun _ => rfl) (fun _ => rfl)
    (fun _ _ _ => rfl) (fun _ _ => rfl)

end Tuak
namespace Tuak

/-! ## F2345 and F5Star do not read SQN, AMF or MACLength -/

/-- On a session that holds a TOPc: a change of the session that validation, instance byte,
assembly and extraction do not see, and that keeps the iteration count and the hook, changes
neither the result nor the world. -/
theorem driver_blind_topc {σ α : Type} (V : TUAK σ → Except TuakError Unit)
    (I : TUAK σ → Except TuakError Nat)
    (A : List Nat → Nat → TUAK σ → Except TuakError (List Nat)) (l li : String)
    (X : TUAK σ → List Nat → Except TuakError α) (t1 t2 : TUAK σ) (w : σ) (c : List Nat)
    (h1 : t1.topc = some c) (h2 : t2.topc = some c)
    (hn : t1.opts.KeccakIterations = t2.opts.KeccakIterations)
    (hh : t1.opts.DebugHook = t2.opts.DebugHook)
    (hV : V t1 = V t2) (hI : I t1 = I t2) (hA : ∀ i, A c i t1 = A c i t2)
    (hX : ∀ out, X t1 out = X t2 out) :
    (driver V I A l li X t1 w).1 = (driver V I A l li X t2 w).1 ∧
    (driver V I A l li X t1 w).2.2 = (driver V I A l li X t2 w).2.2 := by
  unfold driver
  rw [ensureTOPc_of_topc t1 w c h1, ensureTOPc_of_topc t2 w c h2]
  simp only []
  rw [hV]
  cases V t2 with
  | error e => exact ⟨rfl, rfl⟩
  | ok u =>
    simp only []
    rw [hI]
    cases I t2 with
    | error e => exact ⟨rfl, rfl⟩
    | ok i =>
      simp only []
      rw [hA]
      cases A c i t2 with
      | error e => exact ⟨rfl, rfl⟩
      | ok S =>
        simp only []
        rw [hn, hh]
        rcases hp : permute S t2.opts.KeccakIterations t2.opts.DebugHook l
          (callDebug t2.opts.DebugHook li S w) with ⟨r, x⟩
        cases r with
        | error e => exact ⟨rfl, rfl⟩
        | ok out => exact ⟨hX out, rfl⟩

theorem driver_blind {σ α : Type} (V : TUAK σ → Except TuakError Unit)
    (I : TUAK σ → Except TuakError Nat)
    (A : List Nat → Nat → TUAK σ → Except TuakError (List Nat)) (l li : String)
    (X : TUAK σ → List Nat → Except TuakError α) (t : TUAK σ) (sqn amf : List Nat)
    (mac : Int) (w : σ)
    (hV : ∀ s : TUAK σ, V (withSqnAmfMac s sqn amf mac) = V s)
    (hI : ∀ s : TUAK σ, I (withSqnAmfMac s sqn amf mac) = I s)
    (hA : ∀ (s : TUAK σ) c i, A c i (withSqnAmfMac s sqn amf mac) = A c i s)
    (hX : ∀ (s : TUAK σ) out, X (withSqnAmfMac s sqn amf mac) out = X s out) :
    (driver V I A l li X (withSqnAmfMac t sqn amf mac) w).1 = (driver V I A l li X t w).1 ∧
    (driver V I A l li X (withSqnAmfMac t sqn amf mac) w).2.2
      = (driver V I A l li X t w).2.2 := by
  cases h1 : t.topc with
  | some c =>
    exact driver_blind_topc V I A l li X (withSqnAmfMac t sqn amf mac) t w c h1 h1 rfl rfl
      (hV t) (hI t) (fun i => hA t c i) (hX t)
  | none =>
    cases h2 : t.top with
    | none =>
      rw [driver_missing V I A l li X (withSqnAmfMac t sqn amf mac) w h1 h2,
        driver_missing V I A l li X t w h1 h2]
      exact ⟨rfl, rfl⟩
    | some top =>
      cases hc : (ComputeTOPc t.k top
          ([WithKLength t.opts.KLength, WithKeccakIterations t.opts.KeccakIterations]
            : List (Opt σ)) w).1 with
      | error e =>
        have e1 := ComputeTOPc_session_world t top w
        rw [hc] at e1
        rw [driver_derive_error V I A l li X (withSqnAmfMac t sqn amf mac) w w top e h1 h2 e1,
          driver_derive_error V I A l li X t w w top e h1 h2 e1]
        exact ⟨rfl, rfl⟩
      | ok c =>
        rw [(driver_derive V I A l li X (withSqnAmfMac t sqn amf mac) w top c h1 h2 hc).1,
          (driver_derive V I A l li X t w top c h1 h2 hc).1]
        exact driver_blind_topc V I A l li X
          (withSqnAmfMac { t with topc := some c } sqn amf mac) { t with topc := some c } w c
          rfl rfl rfl rfl (hV _) (hI _) (fun i => hA _ c i) (hX _)

theorem F2345_blind {σ : Type} (t : TUAK σ) (sqn amf : List Nat) (mac : Int) (w : σ) :
    (F2345 (withSqnAmfMac t sqn amf mac) w).1 = (F2345 t w).1 ∧
    (F2345 (withSqnAmfMac t sqn amf mac) w).2.2 = (F2345 t w).2.2 := by
  rw [F2345_eq_driver, F2345_eq_driver]
  exact driver_blind _ _ _ _ _ _ t sqn amf mac w (fun _ => rfl) (fun _ => rfl)
    (fun _ _ _ => rfl) (fun _ _ => rfl)

theorem F5Star_blind {σ : Type} (t : TUAK σ) (sqn amf : List Nat) (mac : Int) (w : σ) :
    (F5Star (withSqnAmfMac t sqn amf mac) w).1 = (F5Star t w).1 ∧
    (F5Star (withSqnAmfMac t sqn amf mac) w).2.2 = (F5Star t w).2.2 := by
  rw [F5Star_eq_driver, F5Star_eq_driver]
  exact driver_blind _ _ _ _ _ _ t sqn amf mac w (fun _ => rfl) (fun _ => rfl)
    (fun _ _ _ => rfl) (fun _ _ => rfl)

/-- Two sessions that agree on every field but SQN, AMF and MACLength are related by
`withSqnAmfMac`. -/
theorem eq_withSqnAmfMac {σ : Type} (t1 t2 : TUAK σ)
    (hk : t1.k = t2.k) (htop : t1.top = t2.top) (htopc : t1.topc = t2.topc)
    (hrand : t1.rand = t2.rand) (hkl : t1.opts.KLength = t2.opts.KLength)
    (hres : t1.opts.RESLength = t2.opts.RESLength)
    (hck : t1.opts.CKLength = t2.opts.CKLength) (hik : t1.opts.IKLength = t2.opts.IKLength)
    (hn : t1.opts.KeccakIterations = t2.opts.KeccakIterations)
    (hh : t1.opts.DebugHook = t2.opts.DebugHook) :
    t2 = withSqnAmfMac t1 t2.sqn t2.amf t2.opts.MACLength := by
  obtain ⟨k1, top1, topc1, rand1, sqn1, amf1, o1⟩ := t1
  obtain ⟨k2, top2, topc2, rand2, sqn2, amf2, o2⟩ := t2
  obtain ⟨a1, b1, c1, d1, e1, f1, g1⟩ := o1
  obtain ⟨a2, b2, c2, d2, e2, f2, g2⟩ := o2
  simp only at hk htop htopc hrand hkl hres hck hik hn hh
  subst hk htop htopc hrand hkl hres hck hik hn hh
  rfl

end Tuak
namespace Tuak

/-! ## A present hook is called on every report -/

/-- With a hook present, `callDebug` on each report in turn is the hook itself called on
each report in turn. -/
theorem deliver_present {σ : Type} (f : String → List Nat → σ → σ)
    (reports : List (String × List Nat)) (w : σ) :
    deliver (some f) reports w = calledOnEach f reports w := by
  unfold deliver calledOnEach
  induction reports generalizing w with
  | nil => rfl
  | cons r rs ih =>
    rw [List.foldl_cons, List.foldl_cons, ih]
    rfl

theorem calledOnEach_recordCall (reports log : List (String × List Nat)) :
    calledOnEach recordCall reports log = log ++ reports := by
  unfold calledOnEach
  induction reports generalizing log with
  | nil => rw [List.foldl_nil, List.append_nil]
  | cons r rs ih =>
    rw [List.foldl_cons, ih]
    unfold recordCall
    rw [List.append_assoc]
    rfl

end Tuak
namespace Tuak.Keccak

/-! ## Bits of 64-bit words -/

theorem testBit_high {x : Nat} (h : x < 2 ^ 64) {i : Nat} (hi : 64 ≤ i) : x.testBit i = false :=
  Nat.testBit_lt_two_pow (lt_of_lt_of_le h (Nat.pow_le_pow_right (by omega) hi))

theorem eq_of_low_bits {x y : Nat} (hx : x < 2 ^ 64) (hy : y < 2 ^ 64)
    (h : ∀ i, i < 64 → x.testBit i = y.testBit i) : x = y := by
  apply Nat.eq_of_testBit_eq
  intro i
  by_cases hi : i < 64
  · exact h i hi
  · rw [testBit_high hx (by omega), testBit_high hy (by omega)]

theorem xor_lt {x y : Nat} (hx : x < 2 ^ 64) (hy : y < 2 ^ 64) : x ^^^ y < 2 ^ 64 :=
  Nat.xor_lt_two_pow hx hy

/-- Bit `i` of a rotated word is bit `i - k` (mod 64) of the word. -/
theorem rotateLeft64_testBit (x k i : Nat) (h : x < 2 ^ 64) :
    (rotateLeft64 x k).testBit i
      = (decide (i < 64) && x.testBit ((i + 64 - k % 64) % 64)) := by
  unfold rotateLeft64
  rw [Nat.testBit_or, Nat.testBit_mod_two_pow, Nat.testBit_shiftLeft, Nat.testBit_shiftRight]
  have hs : k % 64 < 64 := Nat.mod_lt _ (by omega)
  by_cases hi : i < 64
  · by_cases hge : k % 64 ≤ i
    · have e1 : (i + 64 - k % 64) % 64 = i - k % 64 := by omega
      have e2 : x.testBit (64 - k % 64 + i) = false := testBit_high h (by omega)
      rw [e1, e2]
      simp [hi, hge]
    · have e1 : (i + 64 - k % 64) % 64 = 64 - k % 64 + i := by omega
      rw [e1]
      simp [hi, hge]
  · have e2 : x.testBit (64 - k % 64 + i) = false := testBit_high h (by omega)
    rw [e2]
    simp [hi]

theorem rotateLeft64_xor (x y k : Nat) (hx : x < 2 ^ 64) (hy : y < 2 ^ 64) :
    rotateLeft64 (x ^^^ y) k = rotateLeft64 x k ^^^ rotateLeft64 y k := by
  apply eq_of_low_bits (rotateLeft64_lt _ _ (xor_lt hx hy))
    (xor_lt (rotateLeft64_lt _ _ hx) (rotateLeft64_lt _ _ hy))
  intro i hi
  rw [rotateLeft64_testBit _ _ _ (xor_lt hx hy), Nat.testBit_xor, Nat.testBit_xor,
    rotateLeft64_testBit _ _ _ hx, rotateLeft64_testBit _ _ _ hy]
  simp [hi]

theorem rotateLeft64_rotateLeft64 (x j k : Nat) (hx : x < 2 ^ 64) :
    rotateLeft64 (rotateLeft64 x j) k = rotateLeft64 x (j + k) := by
  apply eq_of_low_bits (rotateLeft64_lt _ _ (rotateLeft64_lt _ _ hx)) (rotateLeft64_lt _ _ hx)
  intro i hi
  rw [rotateLeft64_testBit _ _ _ (rotateLeft64_lt _ _ hx), rotateLeft64_testBit _ _ _ hx,
    rotateLeft64_testBit _ _ _ hx]
  have h1 : (i + 64 - k % 64) % 64 < 64 := Nat.mod_lt _ (by omega)
  have e : ((i + 64 - k % 64) % 64 + 64 - j % 64) % 64 = (i + 64 - (j + k) % 64) % 64 := by
    omega
  simp [hi, h1, e]

theorem rotateLeft64_mod (x k : Nat) : rotateLeft64 x (k % 64) = rotateLeft64 x k := by
  unfold rotateLeft64
  rw [Nat.mod_mod]

theorem rotateLeft64_sixtyfour (x : Nat) (hx : x < 2 ^ 64) : rotateLeft64 x 64 = x := by
  rw [← rotateLeft64_mod]
  exact rotateLeft64_zero x hx

theorem rotateLeft64_injective (x y k : Nat) (hx : x < 2 ^ 64) (hy : y < 2 ^ 64)
    (h : rotateLeft64 x k = rotateLeft64 y k) : x = y := by
  have e : (k + (64 - k % 64)) % 64 = 0 := by omega
  have back : ∀ u, u < 2 ^ 64 → rotateLeft64 (rotateLeft64 u k) (64 - k % 64) = u := by
    intro u hu
    rw [rotateLeft64_rotateLeft64 u k (64 - k % 64) hu,
      ← rotateLeft64_mod u (k + (64 - k % 64)), e]
    exact rotateLeft64_zero u hu
  rw [← back x hx, ← back y hy, h]

end Tuak.Keccak
namespace Tuak.Keccak

/-! ## Lanes of a 25-lane state -/

theorem lane_tabulate (f : Nat → Nat → Nat) (x y : Nat) (hx : x < 5) (hy : y < 5) :
    Reference.lane (Reference.tabulate f) x y = f x y := by
  unfold Reference.lane Reference.tabulate
  have hi : x + 5 * y < 25 := by omega
  rw [List.getD_eq_getElem _ _ (by rw [List.length_map, List.length_range]; exact hi),
    List.getElem_map, List.getElem_range]
  have e1 : (x + 5 * y) % 5 = x := by omega
  have e2 : (x + 5 * y) / 5 = y := by omega
  rw [e1, e2]

theorem ext_lanes {A B : List Nat} (hA : A.length = 25) (hB : B.length = 25)
    (h : ∀ x, x < 5 → ∀ y, y < 5 → Reference.lane A x y = Reference.lane B x y) : A = B := by
  apply List.ext_getElem (by rw [hA, hB])
  intro i h1 h2
  have hi : i < 25 := by omega
  have := h (i % 5) (Nat.mod_lt _ (by omega)) (i / 5) (by omega)
  unfold Reference.lane at this
  have e : i % 5 + 5 * (i / 5) = i := by omega
  rw [e, List.getD_eq_getElem _ _ h1, List.getD_eq_getElem _ _ h2] at this
  exact this

/-! ## XOR identities used below -/

theorem xor_shuffle (p q r : Nat) : (p ^^^ q) ^^^ (q ^^^ r) = p ^^^ r := by
  apply Nat.eq_of_testBit_eq
  intro i
  simp only [Nat.testBit_xor]
  cases p.testBit i <;> cases q.testBit i <;> cases r.testBit i <;> rfl

theorem xor_swap (a b p q : Nat) (h : a ^^^ p = b ^^^ q) : a ^^^ b = p ^^^ q := by
  apply Nat.eq_of_testBit_eq
  intro i
  have h1 := congrArg (fun n => Nat.testBit n i) h
  simp only [Nat.testBit_xor] at h1 ⊢
  revert h1
  cases a.testBit i <;> cases b.testBit i <;> cases p.testBit i <;> cases q.testBit i <;> simp

theorem xor_pair (a b c d : Nat) : (a ^^^ b) ^^^ (c ^^^ d) = (a ^^^ c) ^^^ (b ^^^ d) := by
  apply Nat.eq_of_testBit_eq
  intro i
  simp only [Nat.testBit_xor]
  cases a.testBit i <;> cases b.testBit i <;> cases c.testBit i <;> cases d.testBit i <;> rfl

theorem xor_five (e : Nat) : e ^^^ e ^^^ e ^^^ e ^^^ e = e := by
  rw [Nat.xor_self, Nat.zero_xor, Nat.xor_self, Nat.zero_xor]

theorem xor_cancel_of_eq (a b p : Nat) (h : a ^^^ p = b ^^^ p) : a = b := by
  apply Nat.eq_of_testBit_eq
  intro i
  have h1 := congrArg (fun n => Nat.testBit n i) h
  simp only [Nat.testBit_xor] at h1
  revert h1
  cases a.testBit i <;> cases b.testBit i <;> cases p.testBit i <;> simp

/-! ## Theta is injective -/

/-- The relation `c[x] = c[x-1] XOR rotl(c[x+1], 1)` squares: it holds with `k` steps and a
rotation by `k` for every power of two `k`. -/
theorem parity_double (c : Nat → Nat) (hb : ∀ x, c x < 2 ^ 64) (k : Nat)
    (h : ∀ x, x < 5 → c x = c ((x + 4 * k) % 5) ^^^ rotateLeft64 (c ((x + k) % 5)) k) :
    ∀ x, x < 5 →
      c x = c ((x + 4 * (2 * k)) % 5) ^^^ rotateLeft64 (c ((x + 2 * k) % 5)) (2 * k) := by
  intro x hx
  have h0 := h x hx
  have h1 := h ((x + 4 * k) % 5) (Nat.mod_lt _ (by omega))
  have h2 := h ((x + k) % 5) (Nat.mod_lt _ (by omega))
  have e1 : ((x + 4 * k) % 5 + 4 * k) % 5 = (x + 4 * (2 * k)) % 5 := by omega
  have e2 : ((x + 4 * k) % 5 + k) % 5 = x := by omega
  have e3 : ((x + k) % 5 + 4 * k) % 5 = x := by omega
  have e4 : ((x + k) % 5 + k) % 5 = (x + 2 * k) % 5 := by omega
  rw [e1, e2] at h1
  rw [e3, e4] at h2
  rw [h2, rotateLeft64_xor _ _ _ (hb _) (rotateLeft64_lt _ _ (hb _)),
    rotateLeft64_rotateLeft64 _ _ _ (hb _), h1, xor_shuffle] at h0
  rw [show k + k = 2 * k by omega] at h0
  exact h0

theorem parity_kernel (c : Nat → Nat) (hb : ∀ x, c x < 2 ^ 64)
    (h : ∀ x, x < 5 → c x = c ((x + 4) % 5) ^^^ rotateLeft64 (c ((x + 1) % 5)) 1) :
    ∀ x, x < 5 → c x = 0 := by
  have p1 : ∀ x, x < 5 → c x = c ((x + 4 * 1) % 5) ^^^ rotateLeft64 (c ((x + 1) % 5)) 1 := h
  have p2 := parity_double c hb 1 p1
  have p4 := parity_double c hb 2 p2
  have p8 := parity_double c hb 4 p4
  have p16 := parity_double c hb 8 p8
  have p32 := parity_double c hb 16 p16
  have p64 := parity_double c hb 32 p32
  have q : ∀ x, x < 5 → c x = c ((x + 1) % 5) ^^^ c ((x + 4) % 5) := by
    intro x hx
    have := p64 x hx
    rw [show 2 * 32 = 64 by rfl, rotateLeft64_sixtyfour _ (hb _)] at this
    have e1 : (x + 4 * 64) % 5 = (x + 1) % 5 := by omega
    have e2 : (x + 64) % 5 = (x + 4) % 5 := by omega
    rw [e1, e2] at this
    exact this
  have q0 := q 0 (by omega)
  have q1 := q 1 (by omega)
  have q2 := q 2 (by omega)
  have q3 := q 3 (by omega)
  have q4 := q 4 (by omega)
  simp only [Nat.reduceAdd, Nat.reduceMod] at q0 q1 q2 q3 q4
  have key : ∀ b0 b1 b2 b3 b4 : Bool, b0 = xor b1 b4 → b1 = xor b2 b0 → b2 = xor b3 b1 →
      b3 = xor b4 b2 → b4 = xor b0 b3 →
      b0 = false ∧ b1 = false ∧ b2 = false ∧ b3 = false ∧ b4 = false := by decide
  have bits : ∀ i, (c 0).testBit i = false ∧ (c 1).testBit i = false ∧
      (c 2).testBit i = false ∧ (c 3).testBit i = false ∧ (c 4).testBit i = false := by
    intro i
    apply key
    · have := congrArg (fun n => Nat.testBit n i) q0
      simpa only [Nat.testBit_xor] using this
    · have := congrArg (fun n => Nat.testBit n i) q1
      simpa only [Nat.testBit_xor] using this
    · have := congrArg (fun n => Nat.testBit n i) q2
      simpa only [Nat.testBit_xor] using this
    · have := congrArg (fun n => Nat.testBit n i) q3
      simpa only [Nat.testBit_xor] using this
    · have := congrArg (fun n => Nat.testBit n i) q4
      simpa only [Nat.testBit_xor] using this
  intro x hx
  apply Nat.eq_of_testBit_eq
  intro i
  rw [Nat.zero_testBit]
  obtain ⟨b0, b1, b2, b3, b4⟩ := bits i
  interval_cases x
  · exact b0
  · exact b1
  · exact b2
  · exact b3
  · exact b4

theorem theta_injective (A B : List Nat) (hA : A.length = 25) (hB : B.length = 25)
    (bA : Bounded64 A) (bB : Bounded64 B) (h : Reference.theta A = Reference.theta B) :
    A = B := by
  have hl : ∀ x, x < 5 → ∀ y, y < 5 →
      Reference.lane A x y ^^^ Reference.lane B x y
        = (Reference.columnParity A ((x + 4) % 5) ^^^ Reference.columnParity B ((x + 4) % 5))
          ^^^ rotateLeft64
            (Reference.columnParity A ((x + 1) % 5) ^^^ Reference.columnParity B ((x + 1) % 5))
            1 := by
    intro x hx y hy
    have := congrArg (fun S => Reference.lane S x y) h
    simp only [Reference.theta, lane_tabulate _ x y hx hy] at this
    rw [rotateLeft64_xor _ _ _ (columnParity_lt bA _) (columnParity_lt bB _), xor_pair]
    exact xor_swap _ _ _ _ this
  have hc : ∀ x, x < 5 →
      Reference.columnParity A x ^^^ Reference.columnParity B x
        = (Reference.columnParity A ((x + 4) % 5) ^^^ Reference.columnParity B ((x + 4) % 5))
          ^^^ rotateLeft64
            (Reference.columnParity A ((x + 1) % 5) ^^^ Reference.columnParity B ((x + 1) % 5))
            1 := by
    intro x hx
    have e : Reference.columnParity A x ^^^ Reference.columnParity B x
        = (Reference.lane A x 0 ^^^ Reference.lane B x 0)
          ^^^ (Reference.lane A x 1 ^^^ Reference.lane B x 1)
          ^^^ (Reference.lane A x 2 ^^^ Reference.lane B x 2)
          ^^^ (Reference.lane A x 3 ^^^ Reference.lane B x 3)
          ^^^ (Reference.lane A x 4 ^^^ Reference.lane B x 4) := by
      unfold Reference.columnParity
      rw [xor_pair, xor_pair (_ ^^^ _) _ (_ ^^^ _) _, xor_pair (_ ^^^ _) _ (_ ^^^ _) _,
        xor_pair (Reference.lane A x 0)]
    rw [e, hl x hx 0 (by omega), hl x hx 1 (by omega), hl x hx 2 (by omega),
      hl x hx 3 (by omega), hl x hx 4 (by omega), xor_five]
  have hz := parity_kernel
    (fun x => Reference.columnParity A x ^^^ Reference.columnParity B x)
    (fun x => xor_lt (columnParity_lt bA x) (columnParity_lt bB x)) hc
  apply ext_lanes hA hB
  intro x hx y hy
  have := hl x hx y hy
  have z1 := hz ((x + 4) % 5) (Nat.mod_lt _ (by omega))
  have z2 := hz ((x + 1) % 5) (Nat.mod_lt _ (by omega))
  simp only at z1 z2
  have e0 : (0 : Nat) ^^^ rotateLeft64 0 1 = 0 := by decide
  rw [z1, z2, e0] at this
  exact xor_cancel_of_eq _ _ (Reference.lane B x y) (by rw [this, Nat.xor_self])

end Tuak.Keccak
namespace Tuak.Keccak

/-! ## Rho and pi are injective -/

theorem rhoPi_injective (A B : List Nat) (hA : A.length = 25) (hB : B.length = 25)
    (bA : Bounded64 A) (bB : Bounded64 B) (h : Reference.rhoPi A = Reference.rhoPi B) :
    A = B := by
  obtain ⟨a0, a1, a2, a3, a4, a5, a6, a7, a8, a9, a10, a11, a12, a13, a14, a15, a16, a17,
    a18, a19, a20, a21, a22, a23, a24, rfl⟩ := length_eq_twentyfive hA
  obtain ⟨b0, b1, b2, b3, b4, b5, b6, b7, b8, b9, b10, b11, b12, b13, b14, b15, b16, b17,
    b18, b19, b20, b21, b22, b23, b24, rfl⟩ := length_eq_twentyfive hB
  simp only [Bounded64, List.mem_cons, List.mem_singleton, List.not_mem_nil, or_false,
    forall_eq_or_imp, forall_eq] at bA bB
  obtain ⟨p0, p1, p2, p3, p4, p5, p6, p7, p8, p9, p10, p11, p12, p13, p14, p15, p16, p17,
    p18, p19, p20, p21, p22, p23, p24⟩ := bA
  obtain ⟨q0, q1, q2, q3, q4, q5, q6, q7, q8, q9, q10, q11, q12, q13, q14, q15, q16, q17,
    q18, q19, q20, q21, q22, q23, q24⟩ := bB
  simp [Reference.rhoPi, Reference.lane, Reference.rotationOffsets, List.range,
    List.range.loop] at h
  obtain ⟨h0, h6, h12, h18, h24, h3, h9, h10, h16, h22, h1, h7, h13, h19, h20, h4, h5, h11,
    h17, h23, h2, h8, h14, h15, h21⟩ := h
  simp only [List.cons.injEq, and_true]
  exact ⟨rotateLeft64_injective a0 b0 _ p0 q0 h0, rotateLeft64_injective a1 b1 _ p1 q1 h1,
    rotateLeft64_injective a2 b2 _ p2 q2 h2, rotateLeft64_injective a3 b3 _ p3 q3 h3,
    rotateLeft64_injective a4 b4 _ p4 q4 h4, rotateLeft64_injective a5 b5 _ p5 q5 h5,
    rotateLeft64_injective a6 b6 _ p6 q6 h6, rotateLeft64_injective a7 b7 _ p7 q7 h7,
    rotateLeft64_injective a8 b8 _ p8 q8 h8, rotateLeft64_injective a9 b9 _ p9 q9 h9,
    rotateLeft64_injective a10 b10 _ p10 q10 h10, rotateLeft64_injective a11 b11 _ p11 q11 h11,
    rotateLeft64_injective a12 b12 _ p12 q12 h12, rotateLeft64_injective a13 b13 _ p13 q13 h13,
    rotateLeft64_injective a14 b14 _ p14 q14 h14, rotateLeft64_injective a15 b15 _ p15 q15 h15,
    rotateLeft64_injective a16 b16 _ p16 q16 h16, rotateLeft64_injective a17 b17 _ p17 q17 h17,
    rotateLeft64_injective a18 b18 _ p18 q18 h18, rotateLeft64_injective a19 b19 _ p19 q19 h19,
    rotateLeft64_injective a20 b20 _ p20 q20 h20, rotateLeft64_injective a21 b21 _ p21 q21 h21,
    rotateLeft64_injective a22 b22 _ p22 q22 h22, rotateLeft64_injective a23 b23 _ p23 q23 h23,
    rotateLeft64_injective a24 b24 _ p24 q24 h24⟩

/-! ## Chi is injective -/

theorem not64_testBit (x i : Nat) (hi : i < 64) : (not64 x).testBit i = !x.testBit i := by
  unfold not64
  rw [Nat.testBit_xor, Nat.testBit_two_pow_sub_one]
  simp [hi]

set_option maxRecDepth 100000 in
theorem chi_bits_injective : ∀ a0 a1 a2 a3 a4 b0 b1 b2 b3 b4 : Bool,
    xor a0 (!a1 && a2) = xor b0 (!b1 && b2) → xor a1 (!a2 && a3) = xor b1 (!b2 && b3) →
    xor a2 (!a3 && a4) = xor b2 (!b3 && b4) → xor a3 (!a4 && a0) = xor b3 (!b4 && b0) →
    xor a4 (!a0 && a1) = xor b4 (!b0 && b1) →
    a0 = b0 ∧ a1 = b1 ∧ a2 = b2 ∧ a3 = b3 ∧ a4 = b4 := by
  decide

theorem chi_row_injective (a0 a1 a2 a3 a4 b0 b1 b2 b3 b4 : Nat)
    (p0 : a0 < 2 ^ 64) (p1 : a1 < 2 ^ 64) (p2 : a2 < 2 ^ 64) (p3 : a3 < 2 ^ 64)
    (p4 : a4 < 2 ^ 64) (q0 : b0 < 2 ^ 64) (q1 : b1 < 2 ^ 64) (q2 : b2 < 2 ^ 64)
    (q3 : b3 < 2 ^ 64) (q4 : b4 < 2 ^ 64)
    (h0 : a0 ^^^ (not64 a1 &&& a2) = b0 ^^^ (not64 b1 &&& b2))
    (h1 : a1 ^^^ (not64 a2 &&& a3) = b1 ^^^ (not64 b2 &&& b3))
    (h2 : a2 ^^^ (not64 a3 &&& a4) = b2 ^^^ (not64 b3 &&& b4))
    (h3 : a3 ^^^ (not64 a4 &&& a0) = b3 ^^^ (not64 b4 &&& b0))
    (h4 : a4 ^^^ (not64 a0 &&& a1) = b4 ^^^ (not64 b0 &&& b1)) :
    a0 = b0 ∧ a1 = b1 ∧ a2 = b2 ∧ a3 = b3 ∧ a4 = b4 := by
  have bits : ∀ i, i < 64 → a0.testBit i = b0.testBit i ∧ a1.testBit i = b1.testBit i ∧
      a2.testBit i = b2.testBit i ∧ a3.testBit i = b3.testBit i ∧
      a4.testBit i = b4.testBit i := by
    intro i hi
    apply chi_bits_injective
    · have := congrArg (fun n => Nat.testBit n i) h0
      simpa only [Nat.testBit_xor, Nat.testBit_and, not64_testBit _ _ hi] using this
    · have := congrArg (fun n => Nat.testBit n i) h1
      simpa only [Nat.testBit_xor, Nat.testBit_and, not64_testBit _ _ hi] using this
    · have := congrArg (fun n => Nat.testBit n i) h2
      simpa only [Nat.testBit_xor, Nat.testBit_and, not64_testBit _ _ hi] using this
    · have := congrArg (fun n => Nat.testBit n i) h3
      simpa only [Nat.testBit_xor, Nat.testBit_and, not64_testBit _ _ hi] using this
    · have := congrArg (fun n => Nat.testBit n i) h4
      simpa only [Nat.testBit_xor, Nat.testBit_and, not64_testBit _ _ hi] using this
  exact ⟨eq_of_low_bits p0 q0 (fun i hi => (bits i hi).1),
    eq_of_low_bits p1 q1 (fun i hi => (bits i hi).2.1),
    eq_of_low_bits p2 q2 (fun i hi => (bits i hi).2.2.1),
    eq_of_low_bits p3 q3 (fun i hi => (bits i hi).2.2.2.1),
    eq_of_low_bits p4 q4 (fun i hi => (bits i hi).2.2.2.2)⟩

theorem chi_injective (A B : List Nat) (hA : A.length = 25) (hB : B.length = 25)
    (bA : Bounded64 A) (bB : Bounded64 B) (h : Reference.chi A = Reference.chi B) :
    A = B := by
  have hl : ∀ x, x < 5 → ∀ y, y < 5 →
      Reference.lane A x y
          ^^^ (not64 (Reference.lane A ((x + 1) % 5) y) &&& Reference.lane A ((x + 2) % 5) y)
        = Reference.lane B x y
          ^^^ (not64 (Reference.lane B ((x + 1) % 5) y)
            &&& Reference.lane B ((x + 2) % 5) y) := by
    intro x hx y hy
    have := congrArg (fun S => Reference.lane S x y) h
    simpa only [Reference.chi, lane_tabulate _ x y hx hy] using this
  have rows : ∀ y, y < 5 →
      Reference.lane A 0 y = Reference.lane B 0 y ∧
      Reference.lane A 1 y = Reference.lane B 1 y ∧
      Reference.lane A 2 y = Reference.lane B 2 y ∧
      Reference.lane A 3 y = Reference.lane B 3 y ∧
      Reference.lane A 4 y = Reference.lane B 4 y := by
    intro y hy
    exact chi_row_injective _ _ _ _ _ _ _ _ _ _ (lane_lt bA _ _) (lane_lt bA _ _)
      (lane_lt bA _ _) (lane_lt bA _ _) (lane_lt bA _ _) (lane_lt bB _ _) (lane_lt bB _ _)
      (lane_lt bB _ _) (lane_lt bB _ _) (lane_lt bB _ _)
      (hl 0 (by omega) y hy) (hl 1 (by omega) y hy) (hl 2 (by omega) y hy)
      (hl 3 (by omega) y hy) (hl 4 (by omega) y hy)
  apply ext_lanes hA hB
  intro x hx y hy
  obtain ⟨r0, r1, r2, r3, r4⟩ := rows y hy
  interval_cases x
  · exact r0
  · exact r1
  · exact r2
  · exact r3
  · exact r4

/-! ## Iota is injective; so is a round, and 24 rounds -/

theorem iota_injective (A B : List Nat) (hA : A.length = 25) (hB : B.length = 25) (r : Nat)
    (h : Reference.iota A r = Reference.iota B r) : A = B := by
  match A, B, hA, hB with
  | a :: as, b :: bs, _, _ =>
    simp only [Reference.iota, Reference.lane, List.set_cons_zero, List.cons.injEq] at h
    have e : a = b := xor_cancel_of_eq a b (Reference.roundConstant r) (by simpa using h.1)
    rw [e, h.2]

theorem round_injective (A B : List Nat) (hA : A.length = 25) (hB : B.length = 25)
    (bA : Bounded64 A) (bB : Bounded64 B) (r : Nat)
    (h : Reference.round A r = Reference.round B r) : A = B := by
  have tA := theta_bounded bA
  have tB := theta_bounded bB
  have rA := rhoPi_length_bounded tA
  have rB := rhoPi_length_bounded tB
  unfold Reference.round at h
  have h1 := iota_injective _ _ (chi_length _) (chi_length _) r h
  have h2 := chi_injective _ _ rA.1 rB.1 rA.2 rB.2 h1
  have h3 := rhoPi_injective _ _ (theta_length A) (theta_length B) tA tB h2
  exact theta_injective A B hA hB bA bB h3

theorem rounds_upto_injective (n : Nat) (hn : n ≤ 24) :
    ∀ A B : List Nat, A.length = 25 → B.length = 25 → Bounded64 A → Bounded64 B →
      ((List.range n).foldl Reference.round A).length = 25 ∧
      Bounded64 ((List.range n).foldl Reference.round A) ∧
      ((List.range n).foldl Reference.round A = (List.range n).foldl Reference.round B →
        A = B) := by
  induction n with
  | zero =>
    intro A B hA hB bA bB
    exact ⟨hA, bA, fun h => h⟩
  | succ n ih =>
    intro A B hA hB bA bB
    obtain ⟨lA, cA, inj⟩ := ih (by omega) A B hA hB bA bB
    obtain ⟨lB, cB, _⟩ := ih (by omega) B A hB hA bB bA
    rw [List.range_succ, List.foldl_append, List.foldl_append]
    simp only [List.foldl_cons, List.foldl_nil]
    have hr := round_length_bounded cA n (by omega)
    exact ⟨hr.1, hr.2, fun h => inj (round_injective _ _ lA lB cA cB n h)⟩

theorem rounds_injective (A B : List Nat) (hA : A.length = 25) (hB : B.length = 25)
    (bA : Bounded64 A) (bB : Bounded64 B) (h : Reference.rounds A = Reference.rounds B) :
    A = B :=
  (rounds_upto_injective 24 (by omega) A B hA hB bA bB).2.2 h

end Tuak.Keccak
namespace Tuak.Keccak

/-! ## The byte/lane conversions are injective -/

theorem getD_lt_256 (a : List Nat) (ha : ∀ b ∈ a, b < 256) (n : Nat) : a.getD n 0 < 256 := by
  rw [List.getD_eq_getElem?_getD]
  cases hi : a[n]? with
  | none => simp
  | some v => simpa using ha v (List.getElem?_mem hi)

theorem lanesOfBytes_getD (a : List Nat) (i : Nat) (hi : i < 25) :
    (Reference.lanesOfBytes a).getD i 0
      = a.getD (8 * i + 0) 0 + a.getD (8 * i + 1) 0 * 256 + a.getD (8 * i + 2) 0 * 65536
        + a.getD (8 * i + 3) 0 * 16777216 + a.getD (8 * i + 4) 0 * 4294967296
        + a.getD (8 * i + 5) 0 * 1099511627776 + a.getD (8 * i + 6) 0 * 281474976710656
        + a.getD (8 * i + 7) 0 * 72057594037927936 := by
  unfold Reference.lanesOfBytes
  rw [List.getD_eq_getElem _ _ (by rw [List.length_map, List.length_range]; exact hi),
    List.getElem_map, List.getElem_range]
  simp [List.range, List.range.loop]
  ring

theorem lanesOfBytes_injective (a b : List Nat) (ha : a.length = 200) (hb : b.length = 200)
    (ba : ∀ x ∈ a, x < 256) (bb : ∀ x ∈ b, x < 256)
    (h : Reference.lanesOfBytes a = Reference.lanesOfBytes b) : a = b := by
  apply List.ext_getElem (by rw [ha, hb])
  intro k h1 h2
  have hk : k < 200 := by omega
  have hi : k / 8 < 25 := by omega
  have hs := congrArg (fun L => L.getD (k / 8) 0) h
  simp only [lanesOfBytes_getD _ _ hi] at hs
  have a0 := getD_lt_256 a ba (8 * (k / 8) + 0)
  have a1 := getD_lt_256 a ba (8 * (k / 8) + 1)
  have a2 := getD_lt_256 a ba (8 * (k / 8) + 2)
  have a3 := getD_lt_256 a ba (8 * (k / 8) + 3)
  have a4 := getD_lt_256 a ba (8 * (k / 8) + 4)
  have a5 := getD_lt_256 a ba (8 * (k / 8) + 5)
  have a6 := getD_lt_256 a ba (8 * (k / 8) + 6)
  have a7 := getD_lt_256 a ba (8 * (k / 8) + 7)
  have b0 := getD_lt_256 b bb (8 * (k / 8) + 0)
  have b1 := getD_lt_256 b bb (8 * (k / 8) + 1)
  have b2 := getD_lt_256 b bb (8 * (k / 8) + 2)
  have b3 := getD_lt_256 b bb (8 * (k / 8) + 3)
  have b4 := getD_lt_256 b bb (8 * (k / 8) + 4)
  have b5 := getD_lt_256 b bb (8 * (k / 8) + 5)
  have b6 := getD_lt_256 b bb (8 * (k / 8) + 6)
  have b7 := getD_lt_256 b bb (8 * (k / 8) + 7)
  have digits : ∀ j, j < 8 → a.getD (8 * (k / 8) + j) 0 = b.getD (8 * (k / 8) + j) 0 := by
    intro j hj
    interval_cases j <;> omega
  have e : 8 * (k / 8) + k % 8 = k := by omega
  have := digits (k % 8) (Nat.mod_lt _ (by omega))
  rw [e, List.getD_eq_getElem _ _ h1, List.getD_eq_getElem _ _ h2] at this
  exact this

theorem bytesOfLanes_getD (A : List Nat) (k : Nat) (hk : k < 200) :
    (Reference.bytesOfLanes A).getD k 0 = A.getD (k / 8) 0 / 256 ^ (k % 8) % 256 := by
  unfold Reference.bytesOfLanes
  rw [List.getD_eq_getElem _ _ (by rw [List.length_map, List.length_range]; exact hk),
    List.getElem_map, List.getElem_range]

theorem bytesOfLanes_length (A : List Nat) : (Reference.bytesOfLanes A).length = 200 := by
  simp [Reference.bytesOfLanes]

theorem bytesOfLanes_lt (A : List Nat) : ∀ x ∈ Reference.bytesOfLanes A, x < 256 := by
  intro x hx
  simp only [Reference.bytesOfLanes, List.mem_map] at hx
  obtain ⟨k, _, rfl⟩ := hx
  exact Nat.mod_lt _ (by omega)

theorem eq_of_digits (u v : Nat) (hu : u < 2 ^ 64) (hv : v < 2 ^ 64)
    (d : ∀ j, j < 8 → u / 256 ^ j % 256 = v / 256 ^ j % 256) : u = v := by
  have d0 := d 0 (by omega)
  have d1 := d 1 (by omega)
  have d2 := d 2 (by omega)
  have d3 := d 3 (by omega)
  have d4 := d 4 (by omega)
  have d5 := d 5 (by omega)
  have d6 := d 6 (by omega)
  have d7 := d 7 (by omega)
  simp only [Nat.reducePow, Nat.pow_zero, Nat.div_one] at d0 d1 d2 d3 d4 d5 d6 d7 hu hv
  omega

theorem bytesOfLanes_injective (A B : List Nat) (hA : A.length = 25) (hB : B.length = 25)
    (bA : Bounded64 A) (bB : Bounded64 B)
    (h : Reference.bytesOfLanes A = Reference.bytesOfLanes B) : A = B := by
  apply List.ext_getElem (by rw [hA, hB])
  intro i h1 h2
  have hi : i < 25 := by omega
  have digit : ∀ j, j < 8 →
      A.getD i 0 / 256 ^ j % 256 = B.getD i 0 / 256 ^ j % 256 := by
    intro j hj
    have hs := congrArg (fun L => L.getD (8 * i + j) 0) h
    simp only [bytesOfLanes_getD _ _ (show 8 * i + j < 200 by omega)] at hs
    have e1 : (8 * i + j) / 8 = i := by omega
    have e2 : (8 * i + j) % 8 = j := by omega
    rw [e1, e2] at hs
    exact hs
  have := eq_of_digits _ _ (getD_lt_of_bounded bA i) (getD_lt_of_bounded bB i) digit
  rw [List.getD_eq_getElem _ _ h1, List.getD_eq_getElem _ _ h2] at this
  exact this

/-! ## `PermuteF1600` is injective on 200-byte states -/

theorem permuteF1600_reference (input : List Nat) (hlen : input.length = 200)
    (hbytes : ∀ b ∈ input, b < 256) :
    PermuteF1600 input = .ok (Reference.keccakF1600 input) := by
  unfold PermuteF1600
  rw [if_neg (by simp [hlen])]
  simp only []
  rw [load_refines input hbytes,
    keccakF1600_refines _ (lanesOfBytes_length input) (lanesOfBytes_bounded input hbytes),
    store_refines]
  rfl

theorem rounds_length_bounded (A : List Nat) (hA : A.length = 25) (bA : Bounded64 A) :
    (Reference.rounds A).length = 25 ∧ Bounded64 (Reference.rounds A) :=
  ⟨(rounds_upto_injective 24 (by omega) A A hA hA bA bA).1,
    (rounds_upto_injective 24 (by omega) A A hA hA bA bA).2.1⟩

theorem reference_injective (a b : List Nat) (ha : a.length = 200) (hb : b.length = 200)
    (ba : ∀ x ∈ a, x < 256) (bb : ∀ x ∈ b, x < 256)
    (h : Reference.keccakF1600 a = Reference.keccakF1600 b) : a = b := by
  unfold Reference.keccakF1600 at h
  have la := lanesOfBytes_length a
  have lb := lanesOfBytes_length b
  have ca := lanesOfBytes_bounded a ba
  have cb := lanesOfBytes_bounded b bb
  have ra := rounds_length_bounded _ la ca
  have rb := rounds_length_bounded _ lb cb
  have h1 := bytesOfLanes_injective _ _ ra.1 rb.1 ra.2 rb.2 h
  have h2 := rounds_injective _ _ la lb ca cb h1
  exact lanesOfBytes_injective a b ha hb ba bb h2

theorem permuteF1600_injective (a b : List Nat) (ha : a.length = 200) (hb : b.length = 200)
    (ba : ∀ x ∈ a, x < 256) (bb : ∀ x ∈ b, x < 256)
    (h : PermuteF1600 a = PermuteF1600 b) : a = b := by
  rw [permuteF1600_reference a ha ba, permuteF1600_reference b hb bb] at h
  exact reference_injective a b ha hb ba bb (Except.ok.inj h)

end Tuak.Keccak
namespace Tuak.Keccak

/-! ## `PermuteF1600` is onto the 200-byte states -/

theorem byteStates_finite :
    Finite { l : List Nat // l.length = 200 ∧ ∀ b ∈ l, b < 256 } := by
  apply Finite.of_injective
    (fun (s : { l : List Nat // l.length = 200 ∧ ∀ b ∈ l, b < 256 }) (i : Fin 200) =>
      (⟨s.1.getD i.1 0, getD_lt_256 s.1 s.2.2 i.1⟩ : Fin 256))
  intro s t h
  apply Subtype.ext
  apply List.ext_getElem (by rw [s.2.1, t.2.1])
  intro i h1 h2
  have hi : i < 200 := by rw [← s.2.1]; exact h1
  have := congrArg (fun g => (g ⟨i, hi⟩).1) h
  simp only at this
  rw [List.getD_eq_getElem _ _ h1, List.getD_eq_getElem _ _ h2] at this
  exact this

theorem reference_surjective (c : List Nat) (hc : c.length = 200) (bc : ∀ x ∈ c, x < 256) :
    ∃ a : List Nat, a.length = 200 ∧ (∀ x ∈ a, x < 256) ∧ Reference.keccakF1600 a = c := by
  haveI := byteStates_finite
  have inj : Function.Injective
      (fun (s : { l : List Nat // l.length = 200 ∧ ∀ b ∈ l, b < 256 }) =>
        (⟨Reference.keccakF1600 s.1, bytesOfLanes_length _, bytesOfLanes_lt _⟩ :
          { l : List Nat // l.length = 200 ∧ ∀ b ∈ l, b < 256 })) := by
    intro s t h
    apply Subtype.ext
    exact reference_injective s.1 t.1 s.2.1 t.2.1 s.2.2 t.2.2 (congrArg Subtype.val h)
  obtain ⟨s, hs⟩ := Finite.surjective_of_injective inj ⟨c, hc, bc⟩
  exact ⟨s.1, s.2.1, s.2.2, congrArg Subtype.val hs⟩

theorem permuteF1600_surjective (c : List Nat) (hc : c.length = 200)
    (bc : ∀ x ∈ c, x < 256) :
    ∃ a : List Nat, a.length = 200 ∧ (∀ x ∈ a, x < 256) ∧ PermuteF1600 a = .ok c := by
  obtain ⟨a, ha, ba, h⟩ := reference_surjective c hc bc
  exact ⟨a, ha, ba, by rw [permuteF1600_reference a ha ba, h]⟩

end Tuak.Keccak
namespace Tuak

/-! ## Claims on the permutation engine -/

/-- C1: for every 200-byte input, `PermuteF1600` returns the Keccak-f[1600] permutation of it
in the reference formulation (little-endian lanes `A[x+5y]`, 24 rounds of theta, rho+pi, chi,
iota, lanes written back little-endian): the in-place chained rho+pi loop and the flat-index
theta and chi loops compute exactly the reference mappings. -/
theorem PermuteF1600_refines_reference (input : List Nat) (hlen : input.length = 200)
    (hbytes : ∀ b ∈ input, b < 256) :
    Keccak.PermuteF1600 input = .ok (Keccak.Reference.keccakF1600 input) := by
  unfold Keccak.PermuteF1600
  rw [if_neg (by simp [hlen])]
  simp only []
  rw [Keccak.load_refines input hbytes,
    Keccak.keccakF1600_refines _ (Keccak.lanesOfBytes_length input)
      (Keccak.lanesOfBytes_bounded input hbytes),
    Keccak.store_refines]
  rfl

theorem PermuteF1600_refines_reference_witness :
    (List.replicate 200 0).length = 200 ∧
    Keccak.PermuteF1600 (List.replicate 200 0)
      = .ok (Keccak.Reference.keccakF1600 (List.replicate 200 0)) :=
  ⟨List.length_replicate _ _,
    PermuteF1600_refines_reference (List.replicate 200 0) (List.length_replicate _ _)
      (fun b hb => by rw [List.eq_of_mem_replicate hb]; norm_num)⟩

/-- C2: `PermuteF1600` returns an error exactly when its input is not 200 bytes long, and on
every 200-byte input it succeeds with a result of exactly 200 bytes. -/
theorem PermuteF1600_error_iff (input : List Nat) :
    ((∃ e, Keccak.PermuteF1600 input = .error e) ↔ input.length ≠ 200) ∧
    (input.length = 200 → ∃ out, Keccak.PermuteF1600 input = .ok out ∧ out.length = 200) := by
  refine ⟨⟨?_, ?_⟩, permuteF1600_ok input⟩
  · rintro ⟨e, he⟩ hlen
    obtain ⟨out, hout, _⟩ := permuteF1600_ok input hlen
    rw [hout] at he
    cases he
  · intro h
    exact ⟨_, permuteF1600_error input h⟩

set_option maxRecDepth 100000 in
/-- C3: on the all-zero 200-byte state `PermuteF1600` succeeds and the first 8 bytes of the
result are E7 DD E1 40 79 8F 25 F1, the published Keccak-f[1600] zero-state vector
(lane 0 = 0xF1258F7940E1DDE7). -/
theorem PermuteF1600_zero_state :
    (Keccak.PermuteF1600 (List.replicate 200 0)).map (List.take 8)
      = .ok [0xE7, 0xDD, 0xE1, 0x40, 0x79, 0x8F, 0x25, 0xF1] := by
  decide!

end Tuak
namespace Tuak

/-! ## Claims on the algorithm driver -/

/-- C4 (amended): for valid inputs (K of 16 or 32 bytes with KLength unset or 8*len(K), TOPc of
32 bytes, RAND 16, SQN 6, AMF 2 bytes, MACLength in {64,128,256}), `F1` returns the
byte-reversal of the first MACLength/8 bytes of `PermuteF1600` applied max(n, 1) times,
n = KeccakIterations, to the state laid out as reverse(TOPc) at 0, the F1 instance byte at 32,
reverse("TUAK1.0") at 33, reverse(RAND) at 40, reverse(AMF) at 56, reverse(SQN) at 58,
reverse(K) at 64, 0x1F at 96, 0x80 at 135 and zero elsewhere. -/
theorem F1_spec {σ : Type} (t : TUAK σ) (w : σ) (topc : List Nat)
    (htopc : t.topc = some topc) (hlen : topc.length = 32)
    (hk : t.k.length = 16 ∨ t.k.length = 32)
    (hkl : t.opts.KLength = 0 ∨ t.opts.KLength = 8 * (t.k.length : Int))
    (hrand : t.rand.length = 16) (hsqn : t.sqn.length = 6) (hamf : t.amf.length = 2)
    (hmac : t.opts.MACLength = 64 ∨ t.opts.MACLength = 128 ∨ t.opts.MACLength = 256) :
    ∃ inst out,
      instanceForF1 t.opts.MACLength (8 * (t.k.length : Int)) false = .ok inst ∧
      permuteTimes (max t.opts.KeccakIterations 1).toNat
        (layoutState topc inst t.rand t.amf t.sqn t.k) = .ok out ∧
      (F1 t w).1 = .ok (out.take (t.opts.MACLength / 8).toNat).reverse := by
  obtain ⟨inst, hinst⟩ := instanceForF1_isOk t.opts.MACLength ((t.k.length : Int) * 8) false
    hmac (klen_bits t.k hk)
  have hS := assemble_f1 topc t.rand t.amf t.sqn t.k inst hlen hrand hamf hsqn (by omega)
  obtain ⟨out, hout, houtlen, hperm⟩ := permute_ok (layoutState topc inst t.rand t.amf t.sqn t.k)
    t.opts.KeccakIterations t.opts.DebugHook "f1"
    (callDebug t.opts.DebugHook "f1.in" (layoutState topc inst t.rand t.amf t.sqn t.k) w)
    (layoutState_length _ _ _ _ _ _ hlen hrand hamf hsqn (by omega))
  refine ⟨inst, out, by rw [Int.mul_comm]; exact hinst, hout, ?_⟩
  have hn : (Int.tdiv t.opts.MACLength 8).toNat = (t.opts.MACLength / 8).toNat ∧
      (t.opts.MACLength / 8).toNat ≤ 200 := by
    rcases hmac with h | h | h <;> rw [h] <;> decide
  unfold F1
  simp only [ensureTOPc_of_topc t w topc htopc,
    validateF1Inputs_ok t hmac hk hkl hrand hsqn hamf, hinst, hS]
  rw [permute_eq_pair _ _ _ _ _ out hperm]
  simp only [hn.1]
  exact pullData_take out _ (by rw [houtlen]; exact hn.2)

theorem F1_spec_witness :
    ∃ inst out,
      instanceForF1 exampleSession.opts.MACLength (8 * (exampleSession.k.length : Int)) false
        = .ok inst ∧
      permuteTimes (max exampleSession.opts.KeccakIterations 1).toNat
        (layoutState exampleTOPc inst exampleSession.rand exampleSession.amf exampleSession.sqn
          exampleSession.k) = .ok out ∧
      (F1 exampleSession ()).1
        = .ok (out.take (exampleSession.opts.MACLength / 8).toNat).reverse :=
  F1_spec exampleSession () exampleTOPc rfl (by decide) (by decide) (by decide) (by decide)
    (by decide) (by decide) (by decide)

/-- C4 as stated fails when KeccakIterations = 0: the claim has `PermuteF1600` applied 0 times,
so that the MAC would be the reversed first 8 bytes of the packed state itself; the code
runs the permutation once (and returns f9a54e6aeaa8618d, MAC-A of test set 1). -/
theorem F1_zero_iterations_counterexample :
    ¬ ∃ inst out,
      instanceForF1 exampleSessionZeroIter.opts.MACLength
        (8 * (exampleSessionZeroIter.k.length : Int)) false = .ok inst ∧
      permuteTimes exampleSessionZeroIter.opts.KeccakIterations.toNat
        (layoutState exampleTOPc inst exampleSessionZeroIter.rand exampleSessionZeroIter.amf
          exampleSessionZeroIter.sqn exampleSessionZeroIter.k) = .ok out ∧
      (F1 exampleSessionZeroIter ()).1
        = .ok (out.take (exampleSessionZeroIter.opts.MACLength / 8).toNat).reverse := by
  rintro ⟨inst, out, h1, h2, h3⟩
  have e1 : instanceForF1 exampleSessionZeroIter.opts.MACLength
      (8 * (exampleSessionZeroIter.k.length : Int)) false = .ok 8 := by decide
  rw [e1] at h1
  cases h1
  have e2 : permuteTimes exampleSessionZeroIter.opts.KeccakIterations.toNat
      (layoutState exampleTOPc 8 exampleSessionZeroIter.rand exampleSessionZeroIter.amf
        exampleSessionZeroIter.sqn exampleSessionZeroIter.k)
      = .ok (layoutState exampleTOPc 8 exampleSessionZeroIter.rand exampleSessionZeroIter.amf
        exampleSessionZeroIter.sqn exampleSessionZeroIter.k) := rfl
  rw [e2] at h2
  cases h2
  rw [F1_exampleSessionZeroIter] at h3
  revert h3
  decide

/-- C5 (amended): for K of 16 or 32 bytes (KLength unset or 8*len(K)) and TOP of 32 bytes,
`ComputeTOPc` returns the byte-reversal of bytes [0,32) of `PermuteF1600` applied max(n, 1)
times, n the KeccakIterations after the options are applied (1 when not configured), to the
state laid out as reverse(TOP) at 0, the TOPc instance byte at 32, reverse("TUAK1.0") at 33,
reverse(K) at 64, 0x1F at 96, 0x80 at 135 and zero elsewhere (bytes 40..63 included). -/
theorem ComputeTOPc_spec {σ : Type} (k top : List Nat) (opts : List (Opt σ)) (w : σ)
    (hk : k.length = 16 ∨ k.length = 32)
    (hkl : (applyOptions k opts).KLength = 0
      ∨ (applyOptions k opts).KLength = 8 * (k.length : Int))
    (htop : top.length = 32) :
    ∃ inst out,
      instanceForTOPc (8 * (k.length : Int)) = .ok inst ∧
      ((layoutState top inst (List.replicate 16 0) (List.replicate 2 0) (List.replicate 6 0)
        k).drop 40).take 24 = List.replicate 24 0 ∧
      permuteTimes (max (applyOptions k opts).KeccakIterations 1).toNat
        (layoutState top inst (List.replicate 16 0) (List.replicate 2 0) (List.replicate 6 0) k)
        = .ok out ∧
      (ComputeTOPc k top opts w).1 = .ok (out.take 32).reverse := by
  obtain ⟨inst, hinst⟩ := instanceForTOPc_isOk ((k.length : Int) * 8) (klen_bits k hk)
  have hS := assemble_topc top k inst htop (by omega)
  obtain ⟨out, hout, houtlen, hperm⟩ := permute_ok
    (layoutState top inst (List.replicate 16 0) (List.replicate 2 0) (List.replicate 6 0) k)
    (applyOptions k opts).KeccakIterations (applyOptions k opts).DebugHook "topc"
    (callDebug (applyOptions k opts).DebugHook "topc.in"
      (layoutState top inst (List.replicate 16 0) (List.replicate 2 0) (List.replicate 6 0) k) w)
    (layoutState_length _ _ _ _ _ _ htop (by simp) (by simp) (by simp) (by omega))
  refine ⟨inst, out, by rw [Int.mul_comm]; exact hinst,
    layoutState_rand_amf_sqn_zero top k inst htop, hout, ?_⟩
  unfold ComputeTOPc
  simp only [resolveKLength_ok k (applyOptions k opts) hk hkl, requireLen_ok _ _ _ htop, hinst,
    hS]
  rw [permute_eq_pair _ _ _ _ _ out hperm]
  exact pullData_take out 32 (by omega)

theorem ComputeTOPc_spec_witness :
    ∃ inst out,
      instanceForTOPc (8 * (exampleK.length : Int)) = .ok inst ∧
      ((layoutState exampleTOP inst (List.replicate 16 0) (List.replicate 2 0)
        (List.replicate 6 0) exampleK).drop 40).take 24 = List.replicate 24 0 ∧
      permuteTimes (max (applyOptions exampleK ([] : List (Opt Unit))).KeccakIterations 1).toNat
        (layoutState exampleTOP inst (List.replicate 16 0) (List.replicate 2 0)
          (List.replicate 6 0) exampleK) = .ok out ∧
      (ComputeTOPc exampleK exampleTOP ([] : List (Opt Unit)) ()).1
        = .ok (out.take 32).reverse :=
  ComputeTOPc_spec exampleK exampleTOP [] () (by decide) (by decide) (by decide)

/-- C5 as stated fails when KeccakIterations is configured as 0: the claim has `PermuteF1600`
applied 0 times, so that TOPc would be bytes [0,32) of the packed state reversed, that is TOP
itself; the code runs the permutation once (and returns the TOPc of test set 1). -/
theorem ComputeTOPc_zero_iterations_counterexample :
    ¬ ∃ inst out,
      instanceForTOPc (8 * (exampleK.length : Int)) = .ok inst ∧
      permuteTimes
        (applyOptions exampleK ([WithKeccakIterations 0] : List (Opt Unit))).KeccakIterations.toNat
        (layoutState exampleTOP inst (List.replicate 16 0) (List.replicate 2 0)
          (List.replicate 6 0) exampleK) = .ok out ∧
      (ComputeTOPc exampleK exampleTOP ([WithKeccakIterations 0] : List (Opt Unit)) ()).1
        = .ok (out.take 32).reverse := by
  rintro ⟨inst, out, h1, h2, h3⟩
  have e1 : instanceForTOPc (8 * (exampleK.length : Int)) = .ok 0 := by decide
  rw [e1] at h1
  cases h1
  have e2 : permuteTimes
      (applyOptions exampleK ([WithKeccakIterations 0] : List (Opt Unit))).KeccakIterations.toNat
      (layoutState exampleTOP 0 (List.replicate 16 0) (List.replicate 2 0)
        (List.replicate 6 0) exampleK)
      = .ok (layoutState exampleTOP 0 (List.replicate 16 0) (List.replicate 2 0)
        (List.replicate 6 0) exampleK) := rfl
  rw [e2] at h2
  cases h2
  rw [ComputeTOPc_example_zeroIter] at h3
  revert h3
  decide

end Tuak
namespace Tuak

/-- C6: for valid inputs `F2345` makes one iterated permutation run on the state holding
reverse(TOPc) at 0, the F2345 instance byte at 32, reverse("TUAK1.0") at 33, reverse(RAND)
at 40, reverse(K) at 64, the two padding bytes and zeros elsewhere (bytes 56..63 are zero), and
from that single result `out` returns RES = reverse(out[0 .. RESLength/8)),
CK = reverse(out[32 .. 32+CKLength/8)), IK = reverse(out[64 .. 64+IKLength/8)) and
AK = reverse(out[96 .. 102)). -/
theorem F2345_spec {σ : Type} (t : TUAK σ) (w : σ) (topc : List Nat)
    (htopc : t.topc = some topc) (hlen : topc.length = 32)
    (hk : t.k.length = 16 ∨ t.k.length = 32)
    (hkl : t.opts.KLength = 0 ∨ t.opts.KLength = 8 * (t.k.length : Int))
    (hrand : t.rand.length = 16)
    (hres : t.opts.RESLength = 32 ∨ t.opts.RESLength = 64 ∨ t.opts.RESLength = 128
      ∨ t.opts.RESLength = 256)
    (hck : t.opts.CKLength = 128 ∨ t.opts.CKLength = 256)
    (hik : t.opts.IKLength = 128 ∨ t.opts.IKLength = 256) :
    ∃ inst out,
      instanceForF2345 t.opts.RESLength t.opts.CKLength t.opts.IKLength
        (8 * (t.k.length : Int)) = .ok inst ∧
      ((layoutState topc inst t.rand (List.replicate 2 0) (List.replicate 6 0) t.k).drop
        56).take 8 = List.replicate 8 0 ∧
      (permute (layoutState topc inst t.rand (List.replicate 2 0) (List.replicate 6 0) t.k)
        t.opts.KeccakIterations t.opts.DebugHook "f2345"
        (callDebug t.opts.DebugHook "f2345.in"
          (layoutState topc inst t.rand (List.replicate 2 0) (List.replicate 6 0) t.k) w)).1
        = .ok out ∧
      permuteTimes (max t.opts.KeccakIterations 1).toNat
        (layoutState topc inst t.rand (List.replicate 2 0) (List.replicate 6 0) t.k) = .ok out ∧
      (F2345 t w).1 = .ok
        { res := (out.take (t.opts.RESLength / 8).toNat).reverse
          ck := ((out.drop 32).take (t.opts.CKLength / 8).toNat).reverse
          ik := ((out.drop 64).take (t.opts.IKLength / 8).toNat).reverse
          ak := ((out.drop 96).take 6).reverse } := by
  obtain ⟨inst, hinst⟩ := instanceForF2345_isOk t.opts.RESLength t.opts.CKLength
    t.opts.IKLength ((t.k.length : Int) * 8) hres hck hik (klen_bits t.k hk)
  have hS := assemble_f2345 topc t.rand t.k inst hlen hrand (by omega)
  obtain ⟨out, hout, houtlen, hperm⟩ := permute_ok
    (layoutState topc inst t.rand (List.replicate 2 0) (List.replicate 6 0) t.k)
    t.opts.KeccakIterations t.opts.DebugHook "f2345"
    (callDebug t.opts.DebugHook "f2345.in"
      (layoutState topc inst t.rand (List.replicate 2 0) (List.replicate 6 0) t.k) w)
    (layoutState_length _ _ _ _ _ _ hlen hrand (by simp) (by simp) (by omega))
  refine ⟨inst, out, by rw [Int.mul_comm]; exact hinst,
    layoutState_amf_sqn_zero topc t.rand t.k inst hlen hrand, hperm, hout, ?_⟩
  have hr : (Int.tdiv t.opts.RESLength 8).toNat = (t.opts.RESLength / 8).toNat ∧
      (t.opts.RESLength / 8).toNat ≤ 32 := by
    rcases hres with h | h | h | h <;> rw [h] <;> decide
  have hc : (Int.tdiv t.opts.CKLength 8).toNat = (t.opts.CKLength / 8).toNat ∧
      (t.opts.CKLength / 8).toNat ≤ 32 := by
    rcases hck with h | h <;> rw [h] <;> decide
  have hi : (Int.tdiv t.opts.IKLength 8).toNat = (t.opts.IKLength / 8).toNat ∧
      (t.opts.IKLength / 8).toNat ≤ 32 := by
    rcases hik with h | h <;> rw [h] <;> decide
  unfold F2345
  simp only [ensureTOPc_of_topc t w topc htopc,
    validateF2345Inputs_ok t hres hck hik hk hkl hrand, hinst, hS]
  rw [permute_eq_pair _ _ _ _ _ out hperm]
  simp only [hr.1, hc.1, hi.1]
  rw [pullData_take out _ (by have := hr.2; omega),
    pullData_ok out 32 _ (by have := hc.2; omega),
    pullData_ok out 64 _ (by have := hi.2; omega),
    pullData_ok out 96 6 (by omega)]
  rfl

theorem F2345_spec_witness :
    ∃ inst out,
      instanceForF2345 exampleSession.opts.RESLength exampleSession.opts.CKLength
        exampleSession.opts.IKLength (8 * (exampleSession.k.length : Int)) = .ok inst ∧
      ((layoutState exampleTOPc inst exampleSession.rand (List.replicate 2 0)
        (List.replicate 6 0) exampleSession.k).drop 56).take 8 = List.replicate 8 0 ∧
      (permute (layoutState exampleTOPc inst exampleSession.rand (List.replicate 2 0)
          (List.replicate 6 0) exampleSession.k)
        exampleSession.opts.KeccakIterations exampleSession.opts.DebugHook "f2345"
        (callDebug exampleSession.opts.DebugHook "f2345.in"
          (layoutState exampleTOPc inst exampleSession.rand (List.replicate 2 0)
            (List.replicate 6 0) exampleSession.k) ())).1 = .ok out ∧
      permuteTimes (max exampleSession.opts.KeccakIterations 1).toNat
        (layoutState exampleTOPc inst exampleSession.rand (List.replicate 2 0)
          (List.replicate 6 0) exampleSession.k) = .ok out ∧
      (F2345 exampleSession ()).1 = .ok
        { res := (out.take (exampleSession.opts.RESLength / 8).toNat).reverse
          ck := ((out.drop 32).take (exampleSession.opts.CKLength / 8).toNat).reverse
          ik := ((out.drop 64).take (exampleSession.opts.IKLength / 8).toNat).reverse
          ak := ((out.drop 96).take 6).reverse } :=
  F2345_spec exampleSession () exampleTOPc rfl (by decide) (by decide) (by decide) (by decide)
    (by decide) (by decide) (by decide)

/-- C7: for valid inputs (K of 16 or 32 bytes, 32-byte TOPc, 16-byte RAND) `F5Star` returns
exactly 6 bytes, the byte-reversal of bytes [96,102) of the iterated permutation of the state
holding reverse(TOPc) at 0, the F5* instance byte at 32, reverse("TUAK1.0") at 33,
reverse(RAND) at 40, reverse(K) at 64, the padding bytes and zeros elsewhere. -/
theorem F5Star_spec {σ : Type} (t : TUAK σ) (w : σ) (topc : List Nat)
    (htopc : t.topc = some topc) (hlen : topc.length = 32)
    (hk : t.k.length = 16 ∨ t.k.length = 32)
    (hkl : t.opts.KLength = 0 ∨ t.opts.KLength = 8 * (t.k.length : Int))
    (hrand : t.rand.length = 16) :
    ∃ inst out ak,
      instanceForF5Star (8 * (t.k.length : Int)) = .ok inst ∧
      (permute (layoutState topc inst t.rand (List.replicate 2 0) (List.replicate 6 0) t.k)
        t.opts.KeccakIterations t.opts.DebugHook "f5star"
        (callDebug t.opts.DebugHook "f5star.in"
          (layoutState topc inst t.rand (List.replicate 2 0) (List.replicate 6 0) t.k) w)).1
        = .ok out ∧
      permuteTimes (max t.opts.KeccakIterations 1).toNat
        (layoutState topc inst t.rand (List.replicate 2 0) (List.replicate 6 0) t.k) = .ok out ∧
      (F5Star t w).1 = .ok ak ∧ ak.length = 6 ∧ ak = ((out.drop 96).take 6).reverse := by
  obtain ⟨inst, hinst⟩ := instanceForF5Star_isOk ((t.k.length : Int) * 8) (klen_bits t.k hk)
  have hS := assemble_f2345 topc t.rand t.k inst hlen hrand (by omega)
  obtain ⟨out, hout, houtlen, hperm⟩ := permute_ok
    (layoutState topc inst t.rand (List.replicate 2 0) (List.replicate 6 0) t.k)
    t.opts.KeccakIterations t.opts.DebugHook "f5star"
    (callDebug t.opts.DebugHook "f5star.in"
      (layoutState topc inst t.rand (List.replicate 2 0) (List.replicate 6 0) t.k) w)
    (layoutState_length _ _ _ _ _ _ hlen hrand (by simp) (by simp) (by omega))
  refine ⟨inst, out, ((out.drop 96).take 6).reverse, by rw [Int.mul_comm]; exact hinst, hperm,
    hout, ?_, by simp [houtlen], rfl⟩
  unfold F5Star
  simp only [ensureTOPc_of_topc t w topc htopc, validateF5StarInputs_ok t hk hkl hrand, hinst,
    hS]
  rw [permute_eq_pair _ _ _ _ _ out hperm]
  exact pullData_ok out 96 6 (by omega)

theorem F5Star_spec_witness :
    ∃ inst out ak,
      instanceForF5Star (8 * (exampleSession.k.length : Int)) = .ok inst ∧
      (permute (layoutState exampleTOPc inst exampleSession.rand (List.replicate 2 0)
          (List.replicate 6 0) exampleSession.k)
        exampleSession.opts.KeccakIterations exampleSession.opts.DebugHook "f5star"
        (callDebug exampleSession.opts.DebugHook "f5star.in"
          (layoutState exampleTOPc inst exampleSession.rand (List.replicate 2 0)
            (List.replicate 6 0) exampleSession.k) ())).1 = .ok out ∧
      permuteTimes (max exampleSession.opts.KeccakIterations 1).toNat
        (layoutState exampleTOPc inst exampleSession.rand (List.replicate 2 0)
          (List.replicate 6 0) exampleSession.k) = .ok out ∧
      (F5Star exampleSession ()).1 = .ok ak ∧ ak.length = 6 ∧
      ak = ((out.drop 96).take 6).reverse :=
  F5Star_spec exampleSession () exampleTOPc rfl (by decide) (by decide) (by decide) (by decide)

end Tuak
namespace Tuak

/-- C8: `F1` and `F1Star` differ only in the star bit of the instance byte: on every session
one succeeds exactly when the other does, and then the state `F1Star` feeds to the permutation
is the state `F1` feeds to it with bit 0x80 of byte 32 set (it is clear in the state of `F1`),
and both pull the same MACLength/8 bytes from offset 0 of the permuted state. -/
theorem F1Star_differs_in_star_bit {σ : Type} (t : TUAK σ) (w : σ) :
    ((∃ m, (F1 t w).1 = .ok m) ↔ (∃ m, (F1Star t w).1 = .ok m)) ∧
    ((∃ m, (F1 t w).1 = .ok m) →
      ∃ (t' : TUAK σ) (w' : σ) (S S' : List Nat),
        S.length = 200 ∧ S.getD 32 0 &&& 0x80 = 0 ∧ S' = S.set 32 (S.getD 32 0 ||| 0x80) ∧
        F1 t w = macFromState t' "f1" "f1.in" S w' ∧
        F1Star t w = macFromState t' "f1star" "f1star.in" S' w') := by
  unfold F1 F1Star
  rcases hE : ensureTOPc t w with ⟨r, t', w'⟩
  cases r with
  | error e => simp
  | ok topc =>
    simp only []
    cases hv : validateF1Inputs t' with
    | error e => simp
    | ok u =>
      obtain ⟨hm, hk⟩ := validateF1Inputs_inv t' hv
      obtain ⟨b, hb, hb', hbit⟩ := instanceForF1_star_pair _ _ hm (klen_bits _ hk)
      simp only [hb, hb']
      cases h1 : pushData newState offsetTOP topc with
      | error e => simp [Except.bind]
      | ok s1 =>
        have hl1 : s1.length = 200 := by
          rw [pushData_length _ _ _ _ h1]
          rfl
        simp only [bind_ok_eq]
        rw [f1_chain_factor s1 _ _ _ _ b (by omega),
          f1_chain_factor s1 _ _ _ _ (b ||| 0x80) (by omega)]
        generalize hB : Except.bind (pushData (List.drop 33 s1) 0 algoName) _ = cB
        cases cB with
        | error e => simp [Except.map]
        | ok Bf =>
          have hBf : Bf.length = 167 := by
            rw [f1_tail_length _ _ _ _ _ _ hB, List.length_drop, hl1]
          have hA : (s1.take 32).length = 32 := by rw [List.length_take, hl1]; rfl
          have hS : (s1.take 32 ++ [b] ++ Bf).length = 200 := by
            simp [hBf, hl1]
          have hS' : (s1.take 32 ++ [b ||| 0x80] ++ Bf).length = 200 := by
            simp [hBf, hl1]
          have hget : (s1.take 32 ++ [b] ++ Bf).getD 32 0 = b := by
            rw [List.append_assoc, List.getD_append_right _ _ _ _ (by rw [hA]), hA]
            rfl
          simp only [Except.map]
          refine ⟨⟨fun _ => macFromState_ok t' _ _ _ w' hS' hm,
            fun _ => macFromState_ok t' _ _ _ w' hS hm⟩, fun _ => ?_⟩
          refine ⟨t', w', s1.take 32 ++ [b] ++ Bf, s1.take 32 ++ [b ||| 0x80] ++ Bf, hS, ?_, ?_,
            rfl, rfl⟩
          · rw [hget]; exact hbit
          · rw [hget, List.append_assoc, List.append_assoc,
              List.set_append_right _ _ (by rw [hA]), hA]
            rfl

end Tuak
namespace Tuak

/-! ## Claims on the instance selector -/

/-- C9: for `mac` in {64,128,256} and `k` in {128,256}, `instanceForF1 mac k star` is the byte
(0x80 if star) + (0x08, 0x10, 0x20 for mac = 64, 128, 256) + (0x01 if k = 256), whose bits of
value 0x40, 0x04 and 0x02 are clear; for every other `mac` or `k` it is an error. -/
theorem instanceForF1_spec (mac k : Int) (star : Bool) :
    ((mac = 64 ∨ mac = 128 ∨ mac = 256) ∧ (k = 128 ∨ k = 256) →
      ∃ b, instanceForF1 mac k star = .ok b ∧
        b = (if star then 0x80 else 0)
          + (if mac = 64 then 0x08 else if mac = 128 then 0x10 else 0x20)
          + (if k = 256 then 0x01 else 0) ∧
        b &&& 0x40 = 0 ∧ b &&& 0x04 = 0 ∧ b &&& 0x02 = 0) ∧
    (¬ ((mac = 64 ∨ mac = 128 ∨ mac = 256) ∧ (k = 128 ∨ k = 256)) →
      ∃ e, instanceForF1 mac k star = .error e) := by
  constructor
  · rintro ⟨hm, hk⟩
    rcases hm with rfl | rfl | rfl <;> rcases hk with rfl | rfl <;> cases star <;>
      exact ⟨_, rfl, by decide, by decide, by decide, by decide⟩
  · intro h
    unfold instanceForF1
    by_cases hk : k = 128 ∨ k = 256
    · have hm : ¬ (mac = 64 ∨ mac = 128 ∨ mac = 256) := fun hm => h ⟨hm, hk⟩
      have h1 : mac ≠ 64 := fun e => hm (Or.inl e)
      have h2 : mac ≠ 128 := fun e => hm (Or.inr (Or.inl e))
      have h3 : mac ≠ 256 := fun e => hm (Or.inr (Or.inr e))
      rw [if_neg (by rcases hk with rfl | rfl <;> decide)]
      simp only [h1, h2, h3, if_false]
      exact ⟨_, rfl⟩
    · rw [if_pos (by constructor <;> intro e <;> exact hk (by simp [e]))]
      exact ⟨_, rfl⟩

/-- C10: for `res` in {32,64,128,256} and `ck`, `ik`, `k` in {128,256},
`instanceForF2345 res ck ik k` is the byte 0x40 + (0x00, 0x08, 0x10, 0x20 for res = 32, 64, 128,
256) + (0x04 if ck = 256) + (0x02 if ik = 256) + (0x01 if k = 256), whose bit of value 0x80
is clear; it is an error exactly when some argument is outside its legal set. -/
theorem instanceForF2345_spec (res ck ik k : Int) :
    ((res = 32 ∨ res = 64 ∨ res = 128 ∨ res = 256) ∧ (ck = 128 ∨ ck = 256) ∧
        (ik = 128 ∨ ik = 256) ∧ (k = 128 ∨ k = 256) →
      ∃ b, instanceForF2345 res ck ik k = .ok b ∧
        b = 0x40
          + (if res = 32 then 0x00 else if res = 64 then 0x08 else if res = 128 then 0x10
              else 0x20)
          + (if ck = 256 then 0x04 else 0) + (if ik = 256 then 0x02 else 0)
          + (if k = 256 then 0x01 else 0) ∧
        b &&& 0x80 = 0) ∧
    ((∃ e, instanceForF2345 res ck ik k = .error e) ↔
      ¬ ((res = 32 ∨ res = 64 ∨ res = 128 ∨ res = 256) ∧ (ck = 128 ∨ ck = 256) ∧
        (ik = 128 ∨ ik = 256) ∧ (k = 128 ∨ k = 256))) := by
  have hok : (res = 32 ∨ res = 64 ∨ res = 128 ∨ res = 256) ∧ (ck = 128 ∨ ck = 256) ∧
        (ik = 128 ∨ ik = 256) ∧ (k = 128 ∨ k = 256) →
      ∃ b, instanceForF2345 res ck ik k = .ok b ∧
        b = 0x40
          + (if res = 32 then 0x00 else if res = 64 then 0x08 else if res = 128 then 0x10
              else 0x20)
          + (if ck = 256 then 0x04 else 0) + (if ik = 256 then 0x02 else 0)
          + (if k = 256 then 0x01 else 0) ∧
        b &&& 0x80 = 0 := by
    rintro ⟨hr, hc, hi, hk⟩
    rcases hr with rfl | rfl | rfl | rfl <;> rcases hc with rfl | rfl <;>
      rcases hi with rfl | rfl <;> rcases hk with rfl | rfl <;>
      exact ⟨_, rfl, by decide, by decide⟩
  refine ⟨hok, ⟨?_, ?_⟩⟩
  · rintro ⟨e, he⟩ hlegal
    obtain ⟨b, hb, _⟩ := hok hlegal
    rw [hb] at he
    cases he
  · intro h
    unfold instanceForF2345
    by_cases hk : k = 128 ∨ k = 256
    · rw [if_neg (by rcases hk with rfl | rfl <;> decide)]
      by_cases hr : res = 32 ∨ res = 64 ∨ res = 128 ∨ res = 256
      · by_cases hc : ck = 128 ∨ ck = 256
        · have hi : ¬ (ik = 128 ∨ ik = 256) := fun hi => h ⟨hr, hc, hi, hk⟩
          have i1 : ik ≠ 128 := fun e => hi (Or.inl e)
          have i2 : ik ≠ 256 := fun e => hi (Or.inr e)
          rcases hr with rfl | rfl | rfl | rfl <;> rcases hc with rfl | rfl <;>
            simp [i1, i2]
        · have c1 : ck ≠ 128 := fun e => hc (Or.inl e)
          have c2 : ck ≠ 256 := fun e => hc (Or.inr e)
          rcases hr with rfl | rfl | rfl | rfl <;> simp [c1, c2]
      · have r1 : res ≠ 32 := fun e => hr (Or.inl e)
        have r2 : res ≠ 64 := fun e => hr (Or.inr (Or.inl e))
        have r3 : res ≠ 128 := fun e => hr (Or.inr (Or.inr (Or.inl e)))
        have r4 : res ≠ 256 := fun e => hr (Or.inr (Or.inr (Or.inr e)))
        simp [r1, r2, r3, r4]
    · rw [if_pos (by constructor <;> intro e <;> exact hk (by simp [e]))]
      exact ⟨_, rfl⟩

end Tuak
namespace Tuak

/-- C11: `instanceForTOPc k` is 0x00 for k = 128 and 0x01 for k = 256 (only the bit of value
1 is ever set) and an error for every other `k`. -/
theorem instanceForTOPc_spec (k : Int) :
    (k = 128 → instanceForTOPc k = .ok 0x00) ∧
    (k = 256 → instanceForTOPc k = .ok 0x01) ∧
    (∀ b, instanceForTOPc k = .ok b → b &&& 0xFE = 0) ∧
    (k ≠ 128 ∧ k ≠ 256 → ∃ e, instanceForTOPc k = .error e) := by
  refine ⟨?_, ?_, ?_, ?_⟩
  · rintro rfl
    rfl
  · rintro rfl
    rfl
  · intro b hb
    unfold instanceForTOPc at hb
    split_ifs at hb with h1 h2
    · cases hb
      decide
    · cases hb
      decide
  · intro h
    unfold instanceForTOPc
    rw [if_pos h]
    exact ⟨_, rfl⟩

/-- C12: `instanceForF5Star k` is 0xC0 for k = 128 and 0xC1 for k = 256 (bits 0 and 1 set,
bits 2 to 6 clear, bit 7 the K-256 flag) and an error for every other `k`. -/
theorem instanceForF5Star_spec (k : Int) :
    (k = 128 → instanceForF5Star k = .ok 0xC0) ∧
    (k = 256 → instanceForF5Star k = .ok 0xC1) ∧
    (∀ b, instanceForF5Star k = .ok b →
      b &&& 0xC0 = 0xC0 ∧ b &&& 0x3E = 0 ∧ (b &&& 0x01 = 0x01 ↔ k = 256)) ∧
    (k ≠ 128 ∧ k ≠ 256 → ∃ e, instanceForF5Star k = .error e) := by
  refine ⟨?_, ?_, ?_, ?_⟩
  · rintro rfl
    rfl
  · rintro rfl
    rfl
  · intro b hb
    unfold instanceForF5Star at hb
    split_ifs at hb with h1
    have hk : k = 128 ∨ k = 256 := by omega
    rcases hk with rfl | rfl
    · cases hb
      decide
    · cases hb
      decide
  · intro h
    unfold instanceForF5Star
    rw [if_pos h]
    exact ⟨_, rfl⟩

end Tuak
namespace Tuak

/-! ## Claims on validation -/

/-- C13: `ComputeTOPc(K, TOP, options)` returns an error exactly when len(K) is neither 16 nor
32, or a non-zero configured KLength differs from 8*len(K), or len(TOP) is not 32; in every
other case it succeeds and the TOPc returned is exactly 32 bytes long. -/
theorem ComputeTOPc_error_iff {σ : Type} (k top : List Nat) (opts : List (Opt σ)) (w : σ) :
    ((∃ e, (ComputeTOPc k top opts w).1 = .error e) ↔
      ((k.length ≠ 16 ∧ k.length ≠ 32) ∨
       ((configuredOptions opts).KLength ≠ 0 ∧
         (configuredOptions opts).KLength ≠ 8 * (k.length : Int)) ∨
       top.length ≠ 32)) ∧
    (¬ ((k.length ≠ 16 ∧ k.length ≠ 32) ∨
       ((configuredOptions opts).KLength ≠ 0 ∧
         (configuredOptions opts).KLength ≠ 8 * (k.length : Int)) ∨
       top.length ≠ 32) →
      ∃ topc, (ComputeTOPc k top opts w).1 = .ok topc ∧ topc.length = 32) ∧
    (∀ e, (ComputeTOPc k top opts w).1 = .error e → e ≠ .runtimeFault) := by
  have hvalid : ¬ ((k.length ≠ 16 ∧ k.length ≠ 32) ∨
       ((configuredOptions opts).KLength ≠ 0 ∧
         (configuredOptions opts).KLength ≠ 8 * (k.length : Int)) ∨
       top.length ≠ 32) ↔
      ((k.length = 16 ∨ k.length = 32) ∧
        ((applyOptions k opts).KLength = 0
          ∨ (applyOptions k opts).KLength = 8 * (k.length : Int)) ∧ top.length = 32) := by
    constructor
    · intro h
      have hk : k.length = 16 ∨ k.length = 32 := by
        by_contra hk
        exact h (Or.inl (by omega))
      refine ⟨hk, (applyOptions_klength_iff k opts (by omega)).mpr
        (fun hn => h (Or.inr (Or.inl hn))), ?_⟩
      by_contra ht
      exact h (Or.inr (Or.inr ht))
    · rintro ⟨hk, hkl, ht⟩ h
      rcases h with h | h | h
      · omega
      · exact (applyOptions_klength_iff k opts (by omega)).mp hkl h
      · exact h ht
  have hok : ¬ ((k.length ≠ 16 ∧ k.length ≠ 32) ∨
       ((configuredOptions opts).KLength ≠ 0 ∧
         (configuredOptions opts).KLength ≠ 8 * (k.length : Int)) ∨
       top.length ≠ 32) →
      ∃ topc, (ComputeTOPc k top opts w).1 = .ok topc ∧ topc.length = 32 := by
    intro h
    obtain ⟨hk, hkl, ht⟩ := hvalid.mp h
    exact ComputeTOPc_ok_of_valid k top opts w hk hkl ht
  refine ⟨⟨?_, ?_⟩, hok, ?_⟩
  · rintro ⟨e, he⟩
    by_contra h
    obtain ⟨topc, htopc, _⟩ := hok h
    rw [htopc] at he
    cases he
  · intro h
    obtain ⟨e, he, _⟩ := ComputeTOPc_error_of_invalid k top opts w
      (fun hv => (hvalid.mpr hv) h)
    exact ⟨e, he⟩
  · intro e he
    by_cases h : (k.length = 16 ∨ k.length = 32) ∧
        ((applyOptions k opts).KLength = 0
          ∨ (applyOptions k opts).KLength = 8 * (k.length : Int)) ∧ top.length = 32
    · obtain ⟨topc, htopc, _⟩ := ComputeTOPc_ok_of_valid k top opts w h.1 h.2.1 h.2.2
      rw [htopc] at he
      cases he
    · obtain ⟨e', he', hne⟩ := ComputeTOPc_error_of_invalid k top opts w h
      rw [he'] at he
      cases he
      exact hne

/-- C14: for every session (as built by the constructors) holding a 32-byte TOPc, `F1`
succeeds exactly when MACLength is 64, 128 or 256, len(K) is 16 or 32 with KLength equal to
8*len(K), len(RAND) = 16, len(SQN) = 6 and len(AMF) = 2; otherwise it returns an error and no
MAC. On success the MAC is exactly MACLength/8 bytes long. -/
theorem F1_succeeds_iff {σ : Type} (t : TUAK σ) (w : σ) (topc : List Nat)
    (hc : Constructed t) (htopc : t.topc = some topc) (hlen : topc.length = 32) :
    ((∃ mac, (F1 t w).1 = .ok mac) ↔
      ((t.opts.MACLength = 64 ∨ t.opts.MACLength = 128 ∨ t.opts.MACLength = 256) ∧
       (t.k.length = 16 ∨ t.k.length = 32) ∧ t.opts.KLength = 8 * (t.k.length : Int) ∧
       t.rand.length = 16 ∧ t.sqn.length = 6 ∧ t.amf.length = 2)) ∧
    (¬ ((t.opts.MACLength = 64 ∨ t.opts.MACLength = 128 ∨ t.opts.MACLength = 256) ∧
       (t.k.length = 16 ∨ t.k.length = 32) ∧ t.opts.KLength = 8 * (t.k.length : Int) ∧
       t.rand.length = 16 ∧ t.sqn.length = 6 ∧ t.amf.length = 2) →
      ∃ e, (F1 t w).1 = .error e ∧ e ≠ .runtimeFault) ∧
    (∀ mac, (F1 t w).1 = .ok mac → mac.length = (t.opts.MACLength / 8).toNat) := by
  have hvalid : validateF1Inputs t = .ok () ↔
      ((t.opts.MACLength = 64 ∨ t.opts.MACLength = 128 ∨ t.opts.MACLength = 256) ∧
       (t.k.length = 16 ∨ t.k.length = 32) ∧ t.opts.KLength = 8 * (t.k.length : Int) ∧
       t.rand.length = 16 ∧ t.sqn.length = 6 ∧ t.amf.length = 2) := by
    rw [validateF1Inputs_iff]
    constructor
    · rintro ⟨hm, hk, hkl, hr, hs, ha⟩
      refine ⟨hm, hk, ?_, hr, hs, ha⟩
      rcases hkl with h0 | h1
      · exact absurd h0 (constructed_klength t hc (by omega))
      · exact h1
    · rintro ⟨hm, hk, hkl, hr, hs, ha⟩
      exact ⟨hm, hk, Or.inr hkl, hr, hs, ha⟩
  rw [← hvalid]
  cases hv : validateF1Inputs t with
  | error e =>
    have he := F1_invalid t w topc e htopc hv
    refine ⟨⟨?_, ?_⟩, ?_, ?_⟩
    · rintro ⟨mac, hmac⟩
      rw [he] at hmac
      cases hmac
    · intro h
      cases h
    · intro _
      exact ⟨e, by rw [he], validateF1Inputs_error_kind t e hv⟩
    · intro mac hmac
      rw [he] at hmac
      cases hmac
  | ok u =>
    obtain ⟨m, hm, hml⟩ := F1_valid_run t w topc htopc hlen hv
    refine ⟨⟨fun _ => rfl, fun _ => ⟨m, hm⟩⟩, fun h => absurd rfl h, ?_⟩
    intro mac hmac
    rw [hm] at hmac
    cases hmac
    exact hml

theorem F1_succeeds_iff_witness :
    ((∃ mac, (F1 exampleSession ()).1 = .ok mac) ↔
      ((exampleSession.opts.MACLength = 64 ∨ exampleSession.opts.MACLength = 128
          ∨ exampleSession.opts.MACLength = 256) ∧
       (exampleSession.k.length = 16 ∨ exampleSession.k.length = 32) ∧
       exampleSession.opts.KLength = 8 * (exampleSession.k.length : Int) ∧
       exampleSession.rand.length = 16 ∧ exampleSession.sqn.length = 6 ∧
       exampleSession.amf.length = 2)) ∧
    (¬ ((exampleSession.opts.MACLength = 64 ∨ exampleSession.opts.MACLength = 128
          ∨ exampleSession.opts.MACLength = 256) ∧
       (exampleSession.k.length = 16 ∨ exampleSession.k.length = 32) ∧
       exampleSession.opts.KLength = 8 * (exampleSession.k.length : Int) ∧
       exampleSession.rand.length = 16 ∧ exampleSession.sqn.length = 6 ∧
       exampleSession.amf.length = 2) →
      ∃ e, (F1 exampleSession ()).1 = .error e ∧ e ≠ .runtimeFault) ∧
    (∀ mac, (F1 exampleSession ()).1 = .ok mac →
      mac.length = (exampleSession.opts.MACLength / 8).toNat) :=
  F1_succeeds_iff exampleSession () exampleTOPc
    ⟨[WithMACLength 64, WithRESLength 32, WithCKLength 128, WithIKLength 128], rfl⟩ rfl
    (by decide)

/-- C15: for every session (as built by the constructors) holding a 32-byte TOPc, `F2345`
succeeds exactly when RESLength is in {32,64,128,256}, CKLength and IKLength are in {128,256},
len(K) is 16 or 32 with KLength equal to 8*len(K), and len(RAND) = 16; on success the four
outputs have lengths RESLength/8, CKLength/8, IKLength/8 and 6, and on failure there is an
error and none of the four outputs. -/
theorem F2345_succeeds_iff {σ : Type} (t : TUAK σ) (w : σ) (topc : List Nat)
    (hc : Constructed t) (htopc : t.topc = some topc) (hlen : topc.length = 32) :
    ((∃ r, (F2345 t w).1 = .ok r) ↔
      ((t.opts.RESLength = 32 ∨ t.opts.RESLength = 64 ∨ t.opts.RESLength = 128
          ∨ t.opts.RESLength = 256) ∧
       (t.opts.CKLength = 128 ∨ t.opts.CKLength = 256) ∧
       (t.opts.IKLength = 128 ∨ t.opts.IKLength = 256) ∧
       (t.k.length = 16 ∨ t.k.length = 32) ∧ t.opts.KLength = 8 * (t.k.length : Int) ∧
       t.rand.length = 16)) ∧
    (∀ r, (F2345 t w).1 = .ok r →
      r.res.length = (t.opts.RESLength / 8).toNat ∧ r.ck.length = (t.opts.CKLength / 8).toNat ∧
      r.ik.length = (t.opts.IKLength / 8).toNat ∧ r.ak.length = 6) ∧
    ((¬ ∃ r, (F2345 t w).1 = .ok r) → ∃ e, (F2345 t w).1 = .error e ∧ e ≠ .runtimeFault) := by
  have hvalid : validateF2345Inputs t = .ok () ↔
      ((t.opts.RESLength = 32 ∨ t.opts.RESLength = 64 ∨ t.opts.RESLength = 128
          ∨ t.opts.RESLength = 256) ∧
       (t.opts.CKLength = 128 ∨ t.opts.CKLength = 256) ∧
       (t.opts.IKLength = 128 ∨ t.opts.IKLength = 256) ∧
       (t.k.length = 16 ∨ t.k.length = 32) ∧ t.opts.KLength = 8 * (t.k.length : Int) ∧
       t.rand.length = 16) := by
    rw [validateF2345Inputs_iff]
    constructor
    · rintro ⟨h1, h2, h3, hk, hkl, hr⟩
      refine ⟨h1, h2, h3, hk, ?_, hr⟩
      rcases hkl with h0 | h1
      · exact absurd h0 (constructed_klength t hc (by omega))
      · exact h1
    · rintro ⟨h1, h2, h3, hk, hkl, hr⟩
      exact ⟨h1, h2, h3, hk, Or.inr hkl, hr⟩
  rw [← hvalid]
  cases hv : validateF2345Inputs t with
  | error e =>
    have he := F2345_invalid t w topc e htopc hv
    refine ⟨⟨?_, ?_⟩, ?_, ?_⟩
    · rintro ⟨r, hr⟩
      rw [he] at hr
      cases hr
    · intro h
      cases h
    · intro r hr
      rw [he] at hr
      cases hr
    · intro _
      exact ⟨e, by rw [he], validateF2345Inputs_error_kind t e hv⟩
  | ok u =>
    obtain ⟨r, hr, hl⟩ := F2345_valid_run t w topc htopc hlen hv
    refine ⟨⟨fun _ => rfl, fun _ => ⟨r, hr⟩⟩, ?_, fun h => absurd ⟨r, hr⟩ h⟩
    intro r' hr'
    rw [hr] at hr'
    cases hr'
    exact hl

theorem F2345_succeeds_iff_witness :
    ((∃ r, (F2345 exampleSession ()).1 = .ok r) ↔
      ((exampleSession.opts.RESLength = 32 ∨ exampleSession.opts.RESLength = 64
          ∨ exampleSession.opts.RESLength = 128 ∨ exampleSession.opts.RESLength = 256) ∧
       (exampleSession.opts.CKLength = 128 ∨ exampleSession.opts.CKLength = 256) ∧
       (exampleSession.opts.IKLength = 128 ∨ exampleSession.opts.IKLength = 256) ∧
       (exampleSession.k.length = 16 ∨ exampleSession.k.length = 32) ∧
       exampleSession.opts.KLength = 8 * (exampleSession.k.length : Int) ∧
       exampleSession.rand.length = 16)) ∧
    (∀ r, (F2345 exampleSession ()).1 = .ok r →
      r.res.length = (exampleSession.opts.RESLength / 8).toNat ∧
      r.ck.length = (exampleSession.opts.CKLength / 8).toNat ∧
      r.ik.length = (exampleSession.opts.IKLength / 8).toNat ∧ r.ak.length = 6) ∧
    ((¬ ∃ r, (F2345 exampleSession ()).1 = .ok r) →
      ∃ e, (F2345 exampleSession ()).1 = .error e ∧ e ≠ .runtimeFault) :=
  F2345_succeeds_iff exampleSession () exampleTOPc
    ⟨[WithMACLength 64, WithRESLength 32, WithCKLength 128, WithIKLength 128], rfl⟩ rfl
    (by decide)

end Tuak
namespace Tuak

/-! ## Claims on the session -/

/-- C16 (the code at the failing inputs): `NewWithTOPc` with a 5-byte TOPc and otherwise the
inputs of test set 1: the inputs pass `validateF1Inputs`, `F1` packs the 5 reversed TOPc
bytes at [0,5) with zeros up to the instance byte, and returns an 8-byte MAC rather than an
error; with a 201-byte TOPc `F1` runs off the end of the 200-byte state (a Go panic). The
length of TOPc is never validated. -/
theorem F1_unvalidated_topc :
    shortTopcSession.topc = some exampleShortTOPc ∧ exampleShortTOPc.length = 5 ∧
    validateF1Inputs shortTopcSession = .ok () ∧
    assembleF1 exampleShortTOPc 0x08 shortTopcSession = .ok shortTopcState ∧
    (∃ mac, (F1 shortTopcSession ()).1 = .ok mac ∧ mac.length = 8) ∧
    (F1 longTopcSession ()).1 = .error .runtimeFault := by
  refine ⟨rfl, rfl, validateF1Inputs_shortTopc, assembleF1_shortTopc, ?_, ?_⟩
  · obtain ⟨out, _, hout, hrun⟩ := driver_topc_run validateF1Inputs
      (fun t => instanceForF1 t.opts.MACLength ((t.k.length : Int) * 8) false)
      assembleF1 "f1" "f1.in" extractMAC shortTopcSession () exampleShortTOPc shortTopcState
      0x08 rfl validateF1Inputs_shortTopc (by decide) assembleF1_shortTopc
      (assembleF1_length _ _ _ _ assembleF1_shortTopc)
    rw [F1_eq_driver, hrun]
    exact ⟨_, (extractMAC_ok shortTopcSession out hout (by decide)).1,
      (extractMAC_ok shortTopcSession out hout (by decide)).2⟩
  · rw [F1_eq_driver, driver_topc_fault validateF1Inputs
      (fun t => instanceForF1 t.opts.MACLength ((t.k.length : Int) * 8) false)
      assembleF1 "f1" "f1.in" extractMAC longTopcSession () (List.replicate 201 0x55) 0x08
      .runtimeFault rfl validateF1Inputs_longTopc (by decide) assembleF1_longTopc]

/-- C17 as stated fails on a session constructed from TOP: with MACLength not configured `F1`
returns the validation error, but TOPc has been derived before the validation (`ensureTOPc`
comes first and runs the permutation), and the session now holds it. -/
theorem F1_derives_before_validation_counterexample :
    topSessionNoLengths.topc = none ∧
    (F1 topSessionNoLengths ()).1 = .error .macLengthNotSet ∧
    (F1 topSessionNoLengths ()).2.1.topc = some exampleTOPc := by
  have hT : (ComputeTOPc topSessionNoLengths.k exampleTOP
      ([WithKLength topSessionNoLengths.opts.KLength,
        WithKeccakIterations topSessionNoLengths.opts.KeccakIterations] : List (Opt Unit))
      ()).1 = .ok exampleTOPc := ComputeTOPc_example _ () (by decide) (by decide)
  obtain ⟨e1, e2⟩ := driver_derive validateF1Inputs
    (fun t => instanceForF1 t.opts.MACLength ((t.k.length : Int) * 8) false)
    assembleF1 "f1" "f1.in" extractMAC topSessionNoLengths () exampleTOP exampleTOPc rfl rfl hT
  refine ⟨rfl, ?_, ?_⟩
  · rw [F1_eq_driver, e1, driver_topc_invalid _ _ _ _ _ _ _ () exampleTOPc .macLengthNotSet rfl
      (by decide)]
  · rw [F1_eq_driver, e2]

/-- C17 (amended): on a session that already holds a TOPc, a call of F1, F1Star, F2345 or
F5Star that returns an error leaves the session and the world of the hook unchanged (it
returns before any state is reported or permuted); on a session constructed from TOP the
TOPc is derived first, so whenever that derivation succeeds the session holds the derived
TOPc after the call, also when the call fails validation, and no other field changes. -/
theorem error_effects {σ : Type} (t : TUAK σ) (w : σ) :
    (∀ c e, t.topc = some c →
      ((F1 t w).1 = .error e → F1 t w = (.error e, t, w)) ∧
      ((F1Star t w).1 = .error e → F1Star t w = (.error e, t, w)) ∧
      ((F2345 t w).1 = .error e → F2345 t w = (.error e, t, w)) ∧
      ((F5Star t w).1 = .error e → F5Star t w = (.error e, t, w))) ∧
    (∀ top c, t.topc = none → t.top = some top →
      (ComputeTOPc t.k top
        [WithKLength t.opts.KLength, WithKeccakIterations t.opts.KeccakIterations] w).1
          = .ok c →
      (F1 t w).2.1 = { t with topc := some c } ∧
      (F1Star t w).2.1 = { t with topc := some c } ∧
      (F2345 t w).2.1 = { t with topc := some c } ∧
      (F5Star t w).2.1 = { t with topc := some c }) := by
  refine ⟨fun c e h => ⟨F1_error_unchanged t w c e h, F1Star_error_unchanged t w c e h,
    F2345_error_unchanged t w c e h, F5Star_error_unchanged t w c e h⟩, ?_⟩
  intro top c h1 h2 h
  refine ⟨?_, ?_, ?_, ?_⟩
  · rw [F1_eq_driver]
    exact (driver_derive _ _ _ _ _ _ t w top c h1 h2 h).2
  · rw [F1Star_eq_driver]
    exact (driver_derive _ _ _ _ _ _ t w top c h1 h2 h).2
  · rw [F2345_eq_driver]
    exact (driver_derive _ _ _ _ _ _ t w top c h1 h2 h).2
  · rw [F5Star_eq_driver]
    exact (driver_derive _ _ _ _ _ _ t w top c h1 h2 h).2

/-- C18: whenever `ComputeTOPc(K, TOP, options)` succeeds with value T, the session
`New(K, TOP, RAND, SQN, AMF, options)` and the session
`NewWithTOPc(K, T, RAND, SQN, AMF, options)` return identical results (the same outputs or
the same error) from F1, F1Star, F2345 and F5Star. -/
theorem New_agrees_with_NewWithTOPc {σ : Type} (k top rand sqn amf : List Nat)
    (opts : List (Opt σ)) (w0 w : σ) (T : List Nat)
    (h : (ComputeTOPc k top opts w0).1 = .ok T) :
    (F1 (New k (some top) rand sqn amf opts) w).1
      = (F1 (NewWithTOPc k (some T) rand sqn amf opts) w).1 ∧
    (F1Star (New k (some top) rand sqn amf opts) w).1
      = (F1Star (NewWithTOPc k (some T) rand sqn amf opts) w).1 ∧
    (F2345 (New k (some top) rand sqn amf opts) w).1
      = (F2345 (NewWithTOPc k (some T) rand sqn amf opts) w).1 ∧
    (F5Star (New k (some top) rand sqn amf opts) w).1
      = (F5Star (NewWithTOPc k (some T) rand sqn amf opts) w).1 := by
  have hT : (ComputeTOPc (New k (some top) rand sqn amf opts).k top
      ([WithKLength (New k (some top) rand sqn amf opts).opts.KLength,
        WithKeccakIterations (New k (some top) rand sqn amf opts).opts.KeccakIterations]
          : List (Opt σ)) w).1 = .ok T := by
    rw [← h]
    exact ComputeTOPc_fst_congr k top _ opts w w0 (applyOptions_reapply k opts).1
      (congrArg (fun x => max x 1) (applyOptions_reapply k opts).2)
  refine ⟨?_, ?_, ?_, ?_⟩
  · rw [F1_eq_driver, F1_eq_driver,
      (driver_derive _ _ _ _ _ _ (New k (some top) rand sqn amf opts) w top T rfl rfl hT).1]
    refine (driver_congr _ _ _ _ _ _
      { New k (some top) rand sqn amf opts with topc := some T }
      (NewWithTOPc k (some T) rand sqn amf opts) w T ?_ ?_ ?_ ?_ ?_ ?_ ?_).1 <;>
      first | rfl | (intro _; rfl)
  · rw [F1Star_eq_driver, F1Star_eq_driver,
      (driver_derive _ _ _ _ _ _ (New k (some top) rand sqn amf opts) w top T rfl rfl hT).1]
    refine (driver_congr _ _ _ _ _ _
      { New k (some top) rand sqn amf opts with topc := some T }
      (NewWithTOPc k (some T) rand sqn amf opts) w T ?_ ?_ ?_ ?_ ?_ ?_ ?_).1 <;>
      first | rfl | (intro _; rfl)
  · rw [F2345_eq_driver, F2345_eq_driver,
      (driver_derive _ _ _ _ _ _ (New k (some top) rand sqn amf opts) w top T rfl rfl hT).1]
    refine (driver_congr _ _ _ _ _ _
      { New k (some top) rand sqn amf opts with topc := some T }
      (NewWithTOPc k (some T) rand sqn amf opts) w T ?_ ?_ ?_ ?_ ?_ ?_ ?_).1 <;>
      first | rfl | (intro _; rfl)
  · rw [F5Star_eq_driver, F5Star_eq_driver,
      (driver_derive _ _ _ _ _ _ (New k (some top) rand sqn amf opts) w top T rfl rfl hT).1]
    refine (driver_congr _ _ _ _ _ _
      { New k (some top) rand sqn amf opts with topc := some T }
      (NewWithTOPc k (some T) rand sqn amf opts) w T ?_ ?_ ?_ ?_ ?_ ?_ ?_).1 <;>
      first | rfl | (intro _; rfl)

theorem New_agrees_with_NewWithTOPc_witness :
    (F1 (New exampleK (some exampleTOP) exampleRAND exampleSQN exampleAMF
        ([WithMACLength 64, WithRESLength 32, WithCKLength 128, WithIKLength 128]
          : List (Opt Unit))) ()).1
      = (F1 (NewWithTOPc exampleK (some exampleTOPc) exampleRAND exampleSQN exampleAMF
        [WithMACLength 64, WithRESLength 32, WithCKLength 128, WithIKLength 128]) ()).1 ∧
    (F1Star (New exampleK (some exampleTOP) exampleRAND exampleSQN exampleAMF
        ([WithMACLength 64, WithRESLength 32, WithCKLength 128, WithIKLength 128]
          : List (Opt Unit))) ()).1
      = (F1Star (NewWithTOPc exampleK (some exampleTOPc) exampleRAND exampleSQN exampleAMF
        [WithMACLength 64, WithRESLength 32, WithCKLength 128, WithIKLength 128]) ()).1 ∧
    (F2345 (New exampleK (some exampleTOP) exampleRAND exampleSQN exampleAMF
        ([WithMACLength 64, WithRESLength 32, WithCKLength 128, WithIKLength 128]
          : List (Opt Unit))) ()).1
      = (F2345 (NewWithTOPc exampleK (some exampleTOPc) exampleRAND exampleSQN exampleAMF
        [WithMACLength 64, WithRESLength 32, WithCKLength 128, WithIKLength 128]) ()).1 ∧
    (F5Star (New exampleK (some exampleTOP) exampleRAND exampleSQN exampleAMF
        ([WithMACLength 64, WithRESLength 32, WithCKLength 128, WithIKLength 128]
          : List (Opt Unit))) ()).1
      = (F5Star (NewWithTOPc exampleK (some exampleTOPc) exampleRAND exampleSQN exampleAMF
        [WithMACLength 64, WithRESLength 32, WithCKLength 128, WithIKLength 128]) ()).1 :=
  New_agrees_with_NewWithTOPc exampleK exampleTOP exampleRAND exampleSQN exampleAMF
    [WithMACLength 64, WithRESLength 32, WithCKLength 128, WithIKLength 128] () () exampleTOPc
    (ComputeTOPc_example _ () (by decide) (by decide))

/-- C19: TOPc caching. On a session whose TOPc is set, each of F1, F1Star, F2345, F5Star
(succeeding or failing) takes that TOPc as it is, leaves every session field unchanged and
does not look at TOP; on a session holding only TOP, a call for which the derivation
`ComputeTOPc(K, TOP)` (with the session's K length and iteration count) succeeds stores
exactly that value as the session's TOPc, changes no other field, and the same call repeated
on the resulting session returns the same result. -/
theorem TOPc_caching {σ : Type} (t : TUAK σ) (w : σ) :
    (∀ c, t.topc = some c →
      ensureTOPc t w = (.ok c, t, w) ∧
      ((F1 t w).2.1 = t ∧ (F1Star t w).2.1 = t ∧ (F2345 t w).2.1 = t ∧
        (F5Star t w).2.1 = t) ∧
      (∀ x, (F1 { t with top := x } w).1 = (F1 t w).1 ∧
        (F1Star { t with top := x } w).1 = (F1Star t w).1 ∧
        (F2345 { t with top := x } w).1 = (F2345 t w).1 ∧
        (F5Star { t with top := x } w).1 = (F5Star t w).1)) ∧
    (∀ top c, t.topc = none → t.top = some top →
      (ComputeTOPc t.k top
        [WithKLength t.opts.KLength, WithKeccakIterations t.opts.KeccakIterations] w).1
          = .ok c →
      ((F1 t w).2.1 = { t with topc := some c } ∧
        ∀ w2, (F1 (F1 t w).2.1 w2).1 = (F1 t w).1) ∧
      ((F1Star t w).2.1 = { t with topc := some c } ∧
        ∀ w2, (F1Star (F1Star t w).2.1 w2).1 = (F1Star t w).1) ∧
      ((F2345 t w).2.1 = { t with topc := some c } ∧
        ∀ w2, (F2345 (F2345 t w).2.1 w2).1 = (F2345 t w).1) ∧
      ((F5Star t w).2.1 = { t with topc := some c } ∧
        ∀ w2, (F5Star (F5Star t w).2.1 w2).1 = (F5Star t w).1)) := by
  constructor
  · intro c h
    refine ⟨ensureTOPc_of_topc t w c h, ⟨?_, ?_, ?_, ?_⟩, fun x => ⟨?_, ?_, ?_, ?_⟩⟩
    · rw [F1_eq_driver]
      exact driver_topc_session _ _ _ _ _ _ t w c h
    · rw [F1Star_eq_driver]
      exact driver_topc_session _ _ _ _ _ _ t w c h
    · rw [F2345_eq_driver]
      exact driver_topc_session _ _ _ _ _ _ t w c h
    · rw [F5Star_eq_driver]
      exact driver_topc_session _ _ _ _ _ _ t w c h
    · rw [F1_eq_driver, F1_eq_driver]
      refine (driver_congr _ _ _ _ _ _ { t with top := x } t w c h h ?_ ?_ ?_ ?_ ?_).1 <;>
        first | rfl | (intro _; rfl)
    · rw [F1Star_eq_driver, F1Star_eq_driver]
      refine (driver_congr _ _ _ _ _ _ { t with top := x } t w c h h ?_ ?_ ?_ ?_ ?_).1 <;>
        first | rfl | (intro _; rfl)
    · rw [F2345_eq_driver, F2345_eq_driver]
      refine (driver_congr _ _ _ _ _ _ { t with top := x } t w c h h ?_ ?_ ?_ ?_ ?_).1 <;>
        first | rfl | (intro _; rfl)
    · rw [F5Star_eq_driver, F5Star_eq_driver]
      refine (driver_congr _ _ _ _ _ _ { t with top := x } t w c h h ?_ ?_ ?_ ?_ ?_).1 <;>
        first | rfl | (intro _; rfl)
  · intro top c h1 h2 h
    refine ⟨⟨?_, fun w2 => ?_⟩, ⟨?_, fun w2 => ?_⟩, ⟨?_, fun w2 => ?_⟩, ⟨?_, fun w2 => ?_⟩⟩
    · rw [F1_eq_driver]
      exact (driver_derive _ _ _ _ _ _ t w top c h1 h2 h).2
    · simp only [F1_eq_driver]
      exact driver_repeat _ _ _ _ _ _ t w w2 top c h1 h2 h
    · rw [F1Star_eq_driver]
      exact (driver_derive _ _ _ _ _ _ t w top c h1 h2 h).2
    · simp only [F1Star_eq_driver]
      exact driver_repeat _ _ _ _ _ _ t w w2 top c h1 h2 h
    · rw [F2345_eq_driver]
      exact (driver_derive _ _ _ _ _ _ t w top c h1 h2 h).2
    · simp only [F2345_eq_driver]
      exact driver_repeat _ _ _ _ _ _ t w w2 top c h1 h2 h
    · rw [F5Star_eq_driver]
      exact (driver_derive _ _ _ _ _ _ t w top c h1 h2 h).2
    · simp only [F5Star_eq_driver]
      exact driver_repeat _ _ _ _ _ _ t w w2 top c h1 h2 h

/-- C20: on every session that holds neither a TOP nor a TOPc, each of F1, F1Star, F2345 and
F5Star returns an error and no output, whatever the other inputs and options are. -/
theorem missing_top_and_topc {σ : Type} (t : TUAK σ) (w : σ) (h1 : t.top = none)
    (h2 : t.topc = none) :
    F1 t w = (.error .missingTopcAndTop, t, w) ∧
    F1Star t w = (.error .missingTopcAndTop, t, w) ∧
    F2345 t w = (.error .missingTopcAndTop, t, w) ∧
    F5Star t w = (.error .missingTopcAndTop, t, w) := by
  refine ⟨?_, ?_, ?_, ?_⟩
  · rw [F1_eq_driver]
    exact driver_missing _ _ _ _ _ _ t w h2 h1
  · rw [F1Star_eq_driver]
    exact driver_missing _ _ _ _ _ _ t w h2 h1
  · rw [F2345_eq_driver]
    exact driver_missing _ _ _ _ _ _ t w h2 h1
  · rw [F5Star_eq_driver]
    exact driver_missing _ _ _ _ _ _ t w h2 h1

theorem missing_top_and_topc_witness :
    F1 noTopSession () = (.error .missingTopcAndTop, noTopSession, ()) ∧
    F1Star noTopSession () = (.error .missingTopcAndTop, noTopSession, ()) ∧
    F2345 noTopSession () = (.error .missingTopcAndTop, noTopSession, ()) ∧
    F5Star noTopSession () = (.error .missingTopcAndTop, noTopSession, ()) :=
  missing_top_and_topc noTopSession () rfl rfl

end Tuak
namespace Tuak

/-! ## Claims on the state codec -/

/-- C21: for every state, offset and data with offset + len(data) <= len(state), `pushData`
succeeds and reading back `pullData(state', offset, len(data))` from the state it leaves
returns exactly `data`. -/
theorem pullData_pushData (state : List Nat) (offset : Nat) (data : List Nat)
    (h : offset + data.length ≤ state.length) :
    ∃ state', pushData state offset data = .ok state' ∧
      pullData state' offset data.length = .ok data := by
  refine ⟨_, pushData_ok state offset data h, ?_⟩
  have hlen : (state.take offset).length = offset := by
    rw [List.length_take]
    omega
  rw [pullData_ok _ _ _ (by simp; omega)]
  congr 1
  rw [List.append_assoc, List.drop_left' hlen, List.take_left' (by simp), List.reverse_reverse]

theorem pullData_pushData_witness :
    ∃ state', pushData newState offsetK exampleK = .ok state' ∧
      pullData state' offsetK exampleK.length = .ok exampleK :=
  pullData_pushData newState offsetK exampleK (by rw [newState_length]; decide)

/-- C22: for every state, offset and data with offset + len(data) <= len(state), `pushData`
writes `data` in reversed byte order and touches nothing else: afterwards
state[offset+i] = data[len(data)-1-i] for every i < len(data), every byte outside
[offset, offset+len(data)) is unchanged and the length is unchanged. Dually, for
offset + n <= len(state), `pullData(state, offset, n)` returns n bytes with
out[i] = state[offset+n-1-i]. -/
theorem pushData_frame (state : List Nat) (offset : Nat) (data : List Nat)
    (h : offset + data.length ≤ state.length) :
    (∃ state', pushData state offset data = .ok state' ∧
      state'.length = state.length ∧
      (∀ i, i < data.length → state'.getD (offset + i) 0 = data.getD (data.length - 1 - i) 0) ∧
      (∀ j, j < offset ∨ offset + data.length ≤ j → state'.getD j 0 = state.getD j 0)) ∧
    (∀ n, offset + n ≤ state.length →
      ∃ out, pullData state offset n = .ok out ∧ out.length = n ∧
        ∀ i, i < n → out.getD i 0 = state.getD (offset + n - 1 - i) 0) := by
  have hlen : (state.take offset).length = offset := by
    rw [List.length_take]
    omega
  constructor
  · refine ⟨_, pushData_ok state offset data h, ?_, ?_, ?_⟩
    · simp only [List.length_append, List.length_take, List.length_reverse, List.length_drop]
      omega
    · intro i hi
      rw [List.append_assoc, List.getD_append_right _ _ _ _ (by rw [hlen]; omega), hlen,
        List.getD_append _ _ _ _ (by rw [List.length_reverse]; omega),
        List.getD_eq_getElem _ _ (by rw [List.length_reverse]; omega),
        List.getD_eq_getElem _ _ (by omega), List.getElem_reverse]
      congr 1
      omega
    · intro j hj
      rcases hj with hj | hj
      · rw [List.append_assoc, List.getD_append _ _ _ _ (by rw [hlen]; exact hj)]
        simp only [List.getD_eq_getElem?_getD, List.getElem?_take, hj, if_true]
      · rw [List.getD_append_right _ _ _ _
          (by simp only [List.length_append, hlen, List.length_reverse]; exact hj)]
        simp only [List.length_append, hlen, List.length_reverse, List.getD_eq_getElem?_getD,
          List.getElem?_drop]
        congr 2
        omega
  · intro n hn
    refine ⟨_, pullData_ok state offset n hn, ?_, ?_⟩
    · simp only [List.length_reverse, List.length_take, List.length_drop]
      omega
    · intro i hi
      have hl : ((state.drop offset).take n).length = n := by
        simp only [List.length_take, List.length_drop]
        omega
      rw [List.getD_eq_getElem _ _ (by rw [List.length_reverse, hl]; exact hi),
        List.getD_eq_getElem _ _ (by omega), List.getElem_reverse, List.getElem_take,
        List.getElem_drop]
      congr 1
      rw [hl]
      omega

theorem pushData_frame_witness :
    (∃ state', pushData newState offsetK exampleK = .ok state' ∧
      state'.length = newState.length ∧
      (∀ i, i < exampleK.length →
        state'.getD (offsetK + i) 0 = exampleK.getD (exampleK.length - 1 - i) 0) ∧
      (∀ j, j < offsetK ∨ offsetK + exampleK.length ≤ j →
        state'.getD j 0 = newState.getD j 0)) ∧
    (∀ n, offsetK + n ≤ newState.length →
      ∃ out, pullData newState offsetK n = .ok out ∧ out.length = n ∧
        ∀ i, i < n → out.getD i 0 = newState.getD (offsetK + n - 1 - i) 0) :=
  pushData_frame newState offsetK exampleK (by rw [newState_length]; decide)

set_option maxRecDepth 100000 in
/-- C23: `newState` returns a buffer of exactly 200 bytes in which byte 96 is 0x1F, byte 135
is 0x80 and every other byte is 0. -/
theorem newState_spec :
    newState.length = 200 ∧ newState.getD 96 0 = 0x1F ∧ newState.getD 135 0 = 0x80 ∧
    (∀ i, i ≠ 96 → i ≠ 135 → newState.getD i 0 = 0) ∧
    newState = List.replicate 96 0 ++ [0x1F] ++ List.replicate 38 0 ++ [0x80]
      ++ List.replicate 64 0 := by
  refine ⟨by decide, by decide, by decide, ?_, by decide⟩
  intro i h1 h2
  by_cases hi : i < 200
  · have key : ∀ j, j < 200 → j ≠ 96 → j ≠ 135 → newState.getD j 0 = 0 := by decide
    exact key i hi h1 h2
  · rw [List.getD_eq_default _ _ (by rw [newState_length]; omega)]

end Tuak
namespace Tuak

/-! ## Claims on the debug helpers and the iterated permutation -/

/-- C24: `DebugHexBytes` formats bytes as space-separated lowercase hex: the empty input gives
the empty string; for n >= 1 bytes the result has length 3n-1, characters 3i and 3i+1 are the
high and low lowercase hex digit of byte i, and character 3i+2 is a space for every byte but
the last, so no space leads or trails; bytes 1, 2, 3 give "01 02 03". -/
theorem DebugHexBytes_spec (data : List Nat) (hb : ∀ b ∈ data, b < 256) :
    DebugHexBytes [] = "" ∧
    DebugHexBytes [1, 2, 3] = "01 02 03" ∧
    (1 ≤ data.length → (DebugHexBytes data).length = 3 * data.length - 1) ∧
    (∀ i, i < data.length →
      (DebugHexBytes data).data.getD (3 * i) 'X' = lowerHexDigit (data.getD i 0 / 16) ∧
      (DebugHexBytes data).data.getD (3 * i + 1) 'X' = lowerHexDigit (data.getD i 0 % 16) ∧
      (i + 1 < data.length → (DebugHexBytes data).data.getD (3 * i + 2) 'X' = ' ')) := by
  refine ⟨rfl, by decide, ?_, ?_⟩
  · intro h
    show (DebugHexBytes data).data.length = _
    rw [DebugHexBytes_data data h]
    exact (hex_loop data data.length).1
  · intro i hi
    have hv : data.getD i 0 < 256 := by
      rw [List.getD_eq_getElem _ _ hi]
      exact hb _ (List.getElem_mem hi)
    rw [DebugHexBytes_data data (by omega)]
    obtain ⟨c0, c1, c2⟩ := (hex_loop data data.length).2 i hi
    obtain ⟨d0, d1⟩ := hexEncode_digits _ hv
    exact ⟨c0.trans d0, c1.trans d1, c2⟩

theorem DebugHexBytes_spec_witness :
    (∀ b ∈ [0x00, 0xab, 0xff], b < 256) ∧
    (DebugHexBytes [0x00, 0xab, 0xff]).length = 3 * 3 - 1 ∧
    DebugHexBytes [0x00, 0xab, 0xff] = "00 ab ff" :=
  ⟨by decide, (DebugHexBytes_spec [0x00, 0xab, 0xff] (by decide)).2.2.1 (by decide), by decide⟩

/-- C25: `permute(state, n, ...)` returns `PermuteF1600` composed with itself max(n, 1)
times, each call's output being the next call's input: n = 1 gives `PermuteF1600(state)`,
n = 2 gives `PermuteF1600(PermuteF1600(state))`, any n <= 0 behaves exactly like n = 1
(same result, same hook calls); on a 200-byte state it returns 200 bytes, and it fails
exactly when the state is not 200 bytes. -/
theorem permute_spec {σ : Type} (state : List Nat) (n : Int) (hook : DebugHook σ)
    (label : String) (w : σ) :
    (permute state n hook label w).1
      = (permuteTimes (max n 1).toNat state).mapError TuakError.keccak ∧
    (permute state 1 hook label w).1
      = (Keccak.PermuteF1600 state).mapError TuakError.keccak ∧
    (permute state 2 hook label w).1
      = ((Keccak.PermuteF1600 state).bind Keccak.PermuteF1600).mapError TuakError.keccak ∧
    (n ≤ 0 → permute state n hook label w = permute state 1 hook label w) ∧
    (state.length = 200 →
      ∃ out, (permute state n hook label w).1 = .ok out ∧ out.length = 200) ∧
    ((∃ e, (permute state n hook label w).1 = .error e) ↔ state.length ≠ 200) := by
  refine ⟨permute_fst state n hook label w, ?_, ?_, ?_, ?_, ?_⟩
  · rw [permute_fst]
    show ((Except.ok state).bind Keccak.PermuteF1600).mapError _ = _
    rfl
  · rw [permute_fst]
    show (((Except.ok state).bind Keccak.PermuteF1600).bind Keccak.PermuteF1600).mapError _ = _
    rfl
  · intro h
    unfold permute
    rw [if_pos h]
    rfl
  · intro h
    obtain ⟨o, _, hl, ho⟩ := permute_ok state n hook label w h
    exact ⟨o, ho, hl⟩
  · constructor
    · rintro ⟨e, he⟩ h
      obtain ⟨o, _, _, ho⟩ := permute_ok state n hook label w h
      rw [ho] at he
      cases he
    · intro h
      rw [permute_fst]
      obtain ⟨m, hm⟩ : ∃ m, (max n 1).toNat = m + 1 := ⟨(max n 1).toNat - 1, by omega⟩
      rw [hm]
      clear hm
      induction m with
      | zero =>
        refine ⟨TuakError.keccak .errInvalidLength, ?_⟩
        show ((Except.ok state).bind Keccak.PermuteF1600).mapError _ = _
        rw [show (Except.ok state).bind Keccak.PermuteF1600 = Keccak.PermuteF1600 state from rfl,
          permuteF1600_error state h]
        rfl
      | succ m ih =>
        obtain ⟨e, he⟩ := ih
        refine ⟨e, ?_⟩
        rw [permuteTimes]
        cases hp : permuteTimes (m + 1) state with
        | error e' =>
          rw [hp] at he
          exact he
        | ok o =>
          rw [hp] at he
          cases he

end Tuak
namespace Tuak

/-! ## Claims on the constant tables and the instance bytes -/

set_option maxRecDepth 100000 in
/-- C27: the three constant tables are the Keccak-f[1600] reference tables. Each has 24
entries; `keccakRotc[i] = ((i+1)(i+2)/2) mod 64`; `keccakPiLane[i]` is `x + 5y` of the
successor number i (counted from 0, so entry 0 is one step away) of `(1,0)` under
`(x,y) -> (y, (2x+3y) mod 5)`, and the table is a permutation of 1..24 (no repetition, and
its members are exactly the values 1..24, so lane 0 is never moved); `keccakRoundConst[r]`
has bit `2^j - 1` equal to `rc(j+7r)` for j in 0..6 and every other bit zero, `rc` being the
output of the LFSR `x^8+x^6+x^5+x^4+1`. -/
theorem keccak_tables :
    Keccak.keccakRotc.length = 24 ∧ Keccak.keccakPiLane.length = 24 ∧
    Keccak.keccakRoundConst.length = 24 ∧
    (∀ i, i < 24 → Keccak.at_ Keccak.keccakRotc i = ((i + 1) * (i + 2) / 2) % 64) ∧
    (∀ i, i < 24 → Keccak.at_ Keccak.keccakPiLane i
      = (Keccak.Reference.piStep^[i + 1] (1, 0)).1
        + 5 * (Keccak.Reference.piStep^[i + 1] (1, 0)).2) ∧
    Keccak.keccakPiLane.Nodup ∧
    (∀ v, v ∈ Keccak.keccakPiLane ↔ 1 ≤ v ∧ v ≤ 24) ∧
    (∀ r, r < 24 → ∀ j, j < 7 →
      (Keccak.at_ Keccak.keccakRoundConst r).testBit (2 ^ j - 1)
        = Keccak.Reference.rc (j + 7 * r)) ∧
    (∀ r, r < 24 → ∀ b, (∀ j, j < 7 → b ≠ 2 ^ j - 1) →
      (Keccak.at_ Keccak.keccakRoundConst r).testBit b = false) := by
  refine ⟨rfl, rfl, rfl, by decide, by decide, by decide, ?_, by decide!, ?_⟩
  · intro v
    constructor
    · intro h
      have key : ∀ u ∈ Keccak.keccakPiLane, 1 ≤ u ∧ u ≤ 24 := by decide
      exact key v h
    · intro h
      have key : ∀ u, u < 25 → 1 ≤ u → u ∈ Keccak.keccakPiLane := by decide
      exact key v (by omega) h.1
  · intro r hr b hb
    by_cases hlt : b < 64
    · have key : ∀ r, r < 24 → ∀ b, b < 64 → b ∉ [0, 1, 3, 7, 15, 31, 63] →
          (Keccak.at_ Keccak.keccakRoundConst r).testBit b = false := by decide!
      refine key r hr b hlt ?_
      intro hm
      simp only [List.mem_cons, List.mem_singleton, List.not_mem_nil, or_false] at hm
      rcases hm with h | h | h | h | h | h | h
      · exact hb 0 (by omega) h
      · exact hb 1 (by omega) h
      · exact hb 2 (by omega) h
      · exact hb 3 (by omega) h
      · exact hb 4 (by omega) h
      · exact hb 5 (by omega) h
      · exact hb 6 (by omega) h
    · have hb64 : Keccak.at_ Keccak.keccakRoundConst r < 2 ^ 64 := by
        have key : ∀ r, r < 24 → Keccak.at_ Keccak.keccakRoundConst r < 2 ^ 64 := by decide
        exact key r hr
      exact Nat.testBit_lt_two_pow
        (lt_of_lt_of_le hb64 (Nat.pow_le_pow_right (by omega) (by omega)))

set_option maxRecDepth 100000 in
/-- C30: instance bytes separate the derivations. Over the legal parameters (K length 128 or
256; MAC length 64, 128 or 256; RES length 32, 64, 128 or 256; CK and IK length 128 or 256)
each of `instanceForTOPc`, `instanceForF1` with star = false, `instanceForF1` with
star = true, `instanceForF2345` and `instanceForF5Star` returns a byte, each is injective
in its parameters, and no byte of one is a byte of another. -/
theorem instance_bytes_separate :
    ((∀ k ∈ legalKLengths, ∃ b, instanceForTOPc k = .ok b) ∧
      (∀ star, ∀ m ∈ legalMACLengths, ∀ k ∈ legalKLengths,
        ∃ b, instanceForF1 m k star = .ok b) ∧
      (∀ r ∈ legalRESLengths, ∀ c ∈ legalCKIKLengths, ∀ i ∈ legalCKIKLengths,
        ∀ k ∈ legalKLengths, ∃ b, instanceForF2345 r c i k = .ok b) ∧
      (∀ k ∈ legalKLengths, ∃ b, instanceForF5Star k = .ok b)) ∧
    ((∀ k ∈ legalKLengths, ∀ k' ∈ legalKLengths,
        instanceForTOPc k = instanceForTOPc k' → k = k') ∧
      (∀ star, ∀ m ∈ legalMACLengths, ∀ k ∈ legalKLengths,
        ∀ m' ∈ legalMACLengths, ∀ k' ∈ legalKLengths,
        instanceForF1 m k star = instanceForF1 m' k' star → m = m' ∧ k = k') ∧
      (∀ r ∈ legalRESLengths, ∀ c ∈ legalCKIKLengths, ∀ i ∈ legalCKIKLengths,
        ∀ k ∈ legalKLengths,
        ∀ r' ∈ legalRESLengths, ∀ c' ∈ legalCKIKLengths, ∀ i' ∈ legalCKIKLengths,
        ∀ k' ∈ legalKLengths,
        instanceForF2345 r c i k = instanceForF2345 r' c' i' k' →
          r = r' ∧ c = c' ∧ i = i' ∧ k = k') ∧
      (∀ k ∈ legalKLengths, ∀ k' ∈ legalKLengths,
        instanceForF5Star k = instanceForF5Star k' → k = k')) ∧
    ((∀ k ∈ legalKLengths, ∀ star, ∀ m ∈ legalMACLengths, ∀ k' ∈ legalKLengths,
        instanceForTOPc k ≠ instanceForF1 m k' star) ∧
      (∀ k ∈ legalKLengths, ∀ r ∈ legalRESLengths, ∀ c ∈ legalCKIKLengths,
        ∀ i ∈ legalCKIKLengths, ∀ k' ∈ legalKLengths,
        instanceForTOPc k ≠ instanceForF2345 r c i k') ∧
      (∀ k ∈ legalKLengths, ∀ k' ∈ legalKLengths,
        instanceForTOPc k ≠ instanceForF5Star k') ∧
      (∀ m ∈ legalMACLengths, ∀ k ∈ legalKLengths,
        ∀ m' ∈ legalMACLengths, ∀ k' ∈ legalKLengths,
        instanceForF1 m k false ≠ instanceForF1 m' k' true) ∧
      (∀ star, ∀ m ∈ legalMACLengths, ∀ k ∈ legalKLengths,
        ∀ r ∈ legalRESLengths, ∀ c ∈ legalCKIKLengths, ∀ i ∈ legalCKIKLengths,
        ∀ k' ∈ legalKLengths,
        instanceForF1 m k star ≠ instanceForF2345 r c i k') ∧
      (∀ star, ∀ m ∈ legalMACLengths, ∀ k ∈ legalKLengths, ∀ k' ∈ legalKLengths,
        instanceForF1 m k star ≠ instanceForF5Star k') ∧
      (∀ r ∈ legalRESLengths, ∀ c ∈ legalCKIKLengths, ∀ i ∈ legalCKIKLengths,
        ∀ k ∈ legalKLengths, ∀ k' ∈ legalKLengths,
        instanceForF2345 r c i k ≠ instanceForF5Star k')) := by
  refine ⟨⟨?_, ?_, ?_, ?_⟩, ⟨by decide!, by decide!, by decide!, by decide!⟩,
    ⟨by decide!, by decide!, by decide!, by decide!, by decide!, by decide!, by decide!⟩⟩
  · have key : ∀ k ∈ legalKLengths, (instanceForTOPc k).isOk = true := by decide!
    intro k hk
    have := key k hk
    cases h : instanceForTOPc k with
    | ok b => exact ⟨b, rfl⟩
    | error e => rw [h] at this; cases this
  · have key : ∀ star, ∀ m ∈ legalMACLengths, ∀ k ∈ legalKLengths,
        (instanceForF1 m k star).isOk = true := by decide!
    intro star m hm k hk
    have := key star m hm k hk
    cases h : instanceForF1 m k star with
    | ok b => exact ⟨b, rfl⟩
    | error e => rw [h] at this; cases this
  · have key : ∀ r ∈ legalRESLengths, ∀ c ∈ legalCKIKLengths, ∀ i ∈ legalCKIKLengths,
        ∀ k ∈ legalKLengths, (instanceForF2345 r c i k).isOk = true := by decide!
    intro r hr c hc i hi k hk
    have := key r hr c hc i hi k hk
    cases h : instanceForF2345 r c i k with
    | ok b => exact ⟨b, rfl⟩
    | error e => rw [h] at this; cases this
  · have key : ∀ k ∈ legalKLengths, (instanceForF5Star k).isOk = true := by decide!
    intro k hk
    have := key k hk
    cases h : instanceForF5Star k with
    | ok b => exact ⟨b, rfl⟩
    | error e => rw [h] at this; cases this

end Tuak
namespace Tuak

/-! ## Claims on the packed state and the debug hook -/

/-- C26: the packed fields occupy consecutive, pairwise non-overlapping byte ranges below 96
(TOP/TOPc [0,32), instance byte [32,33), algorithm name [33,40), RAND [40,56), AMF [56,58),
SQN [58,64), K [64,96)), and for every valid input set of `ComputeTOPc`, `F1`, `F1Star`,
`F2345` and `F5Star` the state that enters the permutation (the one reported as `<fn>.in`,
whose iterates give the output) is 200 bytes long, has 0x1F at byte 96 and 0x80 at byte 135
and is zero on bytes [97,135) and [136,200). A session is valid with a 32-byte TOPc or,
holding none, with a 32-byte TOP. -/
theorem padding_invariant {σ : Type} (t : TUAK σ) (w : σ) (k top : List Nat)
    (opts : List (Opt σ))
    (hsrc : (∃ c, t.topc = some c ∧ c.length = 32) ∨
      (t.topc = none ∧ ∃ top, t.top = some top ∧ top.length = 32)) :
    (offsetTOP + 32 ≤ offsetInst ∧ offsetInst + 1 ≤ offsetAlgo ∧
      offsetAlgo + algoName.length ≤ offsetRAND ∧ offsetRAND + 16 ≤ offsetAMF ∧
      offsetAMF + 2 ≤ offsetSQN ∧ offsetSQN + 6 ≤ offsetK ∧ offsetK + 32 ≤ paddingByte96 ∧
      paddingByte96 = 96 ∧ paddingByte135 = 135 ∧ inSize = 200) ∧
    ((k.length = 16 ∨ k.length = 32) →
      ((applyOptions k opts).KLength = 0
        ∨ (applyOptions k opts).KLength = 8 * (k.length : Int)) →
      top.length = 32 →
      ∃ inst outs,
        PaddingIntact (layoutState top inst (List.replicate 16 0) (List.replicate 2 0)
          (List.replicate 6 0) k) ∧
        IteratesOf (layoutState top inst (List.replicate 16 0) (List.replicate 2 0)
            (List.replicate 6 0) k)
          (max (applyOptions k opts).KeccakIterations 1).toNat outs ∧
        ComputeTOPc k top opts w = (pullData (outs.getD (outs.length - 1) []) offsetTOP 32,
          deliver (applyOptions k opts).DebugHook
            (expectedReports "topc" (applyOptions k opts).KeccakIterations
              (layoutState top inst (List.replicate 16 0) (List.replicate 2 0)
                (List.replicate 6 0) k) outs) w)) ∧
    (validateF1Inputs t = .ok () →
      (∃ c inst outs,
        PaddingIntact (layoutState c inst t.rand t.amf t.sqn t.k) ∧
        IteratesOf (layoutState c inst t.rand t.amf t.sqn t.k)
          (max t.opts.KeccakIterations 1).toNat outs ∧
        F1 t w = (extractMAC t (outs.getD (outs.length - 1) []), { t with topc := some c },
          deliver t.opts.DebugHook (expectedReports "f1" t.opts.KeccakIterations
            (layoutState c inst t.rand t.amf t.sqn t.k) outs) w)) ∧
      (∃ c inst outs,
        PaddingIntact (layoutState c inst t.rand t.amf t.sqn t.k) ∧
        IteratesOf (layoutState c inst t.rand t.amf t.sqn t.k)
          (max t.opts.KeccakIterations 1).toNat outs ∧
        F1Star t w = (extractMAC t (outs.getD (outs.length - 1) []),
          { t with topc := some c },
          deliver t.opts.DebugHook (expectedReports "f1star" t.opts.KeccakIterations
            (layoutState c inst t.rand t.amf t.sqn t.k) outs) w))) ∧
    (validateF2345Inputs t = .ok () →
      ∃ c inst outs,
        PaddingIntact
          (layoutState c inst t.rand (List.replicate 2 0) (List.replicate 6 0) t.k) ∧
        IteratesOf (layoutState c inst t.rand (List.replicate 2 0) (List.replicate 6 0) t.k)
          (max t.opts.KeccakIterations 1).toNat outs ∧
        F2345 t w = (extractF2345 t (outs.getD (outs.length - 1) []),
          { t with topc := some c },
          deliver t.opts.DebugHook (expectedReports "f2345" t.opts.KeccakIterations
            (layoutState c inst t.rand (List.replicate 2 0) (List.replicate 6 0) t.k)
            outs) w)) ∧
    (validateF5StarInputs t = .ok () →
      ∃ c inst outs,
        PaddingIntact
          (layoutState c inst t.rand (List.replicate 2 0) (List.replicate 6 0) t.k) ∧
        IteratesOf (layoutState c inst t.rand (List.replicate 2 0) (List.replicate 6 0) t.k)
          (max t.opts.KeccakIterations 1).toNat outs ∧
        F5Star t w = (pullData (outs.getD (outs.length - 1) []) 96 6,
          { t with topc := some c },
          deliver t.opts.DebugHook (expectedReports "f5star" t.opts.KeccakIterations
            (layoutState c inst t.rand (List.replicate 2 0) (List.replicate 6 0) t.k)
            outs) w)) := by
  refine ⟨by decide, ?_, ?_, ?_, ?_⟩
  · intro hk hkl htop
    obtain ⟨inst, outs, _, hit, hrun⟩ := ComputeTOPc_reports k top opts w hk hkl htop
    exact ⟨inst, outs,
      layoutState_padding _ _ _ _ _ _ htop (by simp) (by simp) (by simp) hk, hit, hrun⟩
  · intro hv
    obtain ⟨_, hk, _, hr, hs, ha⟩ := (validateF1Inputs_iff t).mp hv
    constructor
    · obtain ⟨c, inst, outs, hc, _, hit, hrun⟩ := F1_reports t w hsrc hv
      exact ⟨c, inst, outs, layoutState_padding _ _ _ _ _ _ hc hr ha hs hk, hit, hrun⟩
    · obtain ⟨c, inst, outs, hc, _, hit, hrun⟩ := F1Star_reports t w hsrc hv
      exact ⟨c, inst, outs, layoutState_padding _ _ _ _ _ _ hc hr ha hs hk, hit, hrun⟩
  · intro hv
    obtain ⟨_, _, _, hk, _, hr⟩ := (validateF2345Inputs_iff t).mp hv
    obtain ⟨c, inst, outs, hc, _, hit, hrun⟩ := F2345_reports t w hsrc hv
    exact ⟨c, inst, outs,
      layoutState_padding _ _ _ _ _ _ hc hr (by simp) (by simp) hk, hit, hrun⟩
  · intro hv
    obtain ⟨hk, _, hr⟩ := (validateF5StarInputs_iff t).mp hv
    obtain ⟨c, inst, outs, hc, _, hit, hrun⟩ := F5Star_reports t w hsrc hv
    exact ⟨c, inst, outs,
      layoutState_padding _ _ _ _ _ _ hc hr (by simp) (by simp) hk, hit, hrun⟩

theorem padding_invariant_witness :
    ∃ c inst outs,
      PaddingIntact (layoutState c inst exampleSession.rand exampleSession.amf
        exampleSession.sqn exampleSession.k) ∧
      IteratesOf (layoutState c inst exampleSession.rand exampleSession.amf
          exampleSession.sqn exampleSession.k)
        (max exampleSession.opts.KeccakIterations 1).toNat outs ∧
      F1 exampleSession () = (extractMAC exampleSession (outs.getD (outs.length - 1) []),
        { exampleSession with topc := some c },
        deliver exampleSession.opts.DebugHook
          (expectedReports "f1" exampleSession.opts.KeccakIterations
            (layoutState c inst exampleSession.rand exampleSession.amf exampleSession.sqn
              exampleSession.k) outs) ()) :=
  ((padding_invariant exampleSession () exampleK exampleTOP []
    (Or.inl ⟨exampleTOPc, rfl, by decide⟩)).2.2.1 (by decide)).1

/-- C28: with a debug hook present, a run on valid inputs of `ComputeTOPc`, `F1`, `F1Star`,
`F2345` or `F5Star` with n = KeccakIterations calls the hook function exactly on this
sequence, in order: `<fn>.in` with the packed state S, then for i = 1..max(n,1) the state
after i permutations of S, labelled `<fn>.out` when n <= 1 and `<fn>.out.<i>` when n >= 2;
S and every reported state have 200 bytes, and the output is extracted from the last one.
The world after the run is the hook function folded over that sequence, whatever the hook
function is. The same holds for a session that holds a TOP only: deriving TOPc reports
nothing, since the hook is not passed to the derivation. -/
theorem hook_reports {σ : Type} (t : TUAK σ) (w : σ) (k top : List Nat)
    (opts : List (Opt σ)) (f : String → List Nat → σ → σ)
    (hsrc : (∃ c, t.topc = some c ∧ c.length = 32) ∨
      (t.topc = none ∧ ∃ top, t.top = some top ∧ top.length = 32))
    (hf : t.opts.DebugHook = some f) :
    (∀ (S o1 o2 : List Nat),
      expectedReports "topc" 0 S [o1] = [("topc.in", S), ("topc.out", o1)] ∧
      expectedReports "f1" 1 S [o1] = [("f1.in", S), ("f1.out", o1)] ∧
      expectedReports "f1star" 2 S [o1, o2]
        = [("f1star.in", S), ("f1star.out.1", o1), ("f1star.out.2", o2)]) ∧
    ((k.length = 16 ∨ k.length = 32) →
      ((applyOptions k opts).KLength = 0
        ∨ (applyOptions k opts).KLength = 8 * (k.length : Int)) →
      top.length = 32 → (applyOptions k opts).DebugHook = some f →
      ∃ S outs, S.length = 200 ∧
        IteratesOf S (max (applyOptions k opts).KeccakIterations 1).toNat outs ∧
        (ComputeTOPc k top opts w).2 = calledOnEach f
          (expectedReports "topc" (applyOptions k opts).KeccakIterations S outs) w ∧
        (ComputeTOPc k top opts w).1
          = pullData (outs.getD (outs.length - 1) []) offsetTOP 32) ∧
    (validateF1Inputs t = .ok () →
      (∃ S outs, S.length = 200 ∧
        IteratesOf S (max t.opts.KeccakIterations 1).toNat outs ∧
        (F1 t w).2.2 = calledOnEach f
          (expectedReports "f1" t.opts.KeccakIterations S outs) w ∧
        (F1 t w).1 = extractMAC t (outs.getD (outs.length - 1) [])) ∧
      (∃ S outs, S.length = 200 ∧
        IteratesOf S (max t.opts.KeccakIterations 1).toNat outs ∧
        (F1Star t w).2.2 = calledOnEach f
          (expectedReports "f1star" t.opts.KeccakIterations S outs) w ∧
        (F1Star t w).1 = extractMAC t (outs.getD (outs.length - 1) []))) ∧
    (validateF2345Inputs t = .ok () →
      ∃ S outs, S.length = 200 ∧
        IteratesOf S (max t.opts.KeccakIterations 1).toNat outs ∧
        (F2345 t w).2.2 = calledOnEach f
          (expectedReports "f2345" t.opts.KeccakIterations S outs) w ∧
        (F2345 t w).1 = extractF2345 t (outs.getD (outs.length - 1) [])) ∧
    (validateF5StarInputs t = .ok () →
      ∃ S outs, S.length = 200 ∧
        IteratesOf S (max t.opts.KeccakIterations 1).toNat outs ∧
        (F5Star t w).2.2 = calledOnEach f
          (expectedReports "f5star" t.opts.KeccakIterations S outs) w ∧
        (F5Star t w).1 = pullData (outs.getD (outs.length - 1) []) 96 6) := by
  refine ⟨fun S o1 o2 => ⟨rfl, rfl, ?_⟩, ?_, ?_, ?_, ?_⟩
  · have e1 : reportLabel "f1star" 2 1 = "f1star.out.1" := by decide
    have e2 : reportLabel "f1star" 2 2 = "f1star.out.2" := by decide
    have e3 : "f1star" ++ ".in" = "f1star.in" := by decide
    show [("f1star" ++ ".in", S), (reportLabel "f1star" 2 1, o1),
      (reportLabel "f1star" 2 2, o2)] = _
    rw [e1, e2, e3]
  · intro hk hkl htop hg
    obtain ⟨inst, outs, _, hit, hrun⟩ := ComputeTOPc_reports k top opts w hk hkl htop
    rw [hg, deliver_present] at hrun
    exact ⟨_, outs,
      layoutState_length _ _ _ _ _ _ htop (by simp) (by simp) (by simp) (by omega), hit,
      by rw [hrun], by rw [hrun]⟩
  · intro hv
    obtain ⟨_, hk, _, hr, hs, ha⟩ := (validateF1Inputs_iff t).mp hv
    constructor
    · obtain ⟨c, inst, outs, hc, _, hit, hrun⟩ := F1_reports t w hsrc hv
      rw [hf, deliver_present] at hrun
      exact ⟨_, outs, layoutState_length _ _ _ _ _ _ hc hr ha hs (by omega), hit,
        by rw [hrun], by rw [hrun]⟩
    · obtain ⟨c, inst, outs, hc, _, hit, hrun⟩ := F1Star_reports t w hsrc hv
      rw [hf, deliver_present] at hrun
      exact ⟨_, outs, layoutState_length _ _ _ _ _ _ hc hr ha hs (by omega), hit,
        by rw [hrun], by rw [hrun]⟩
  · intro hv
    obtain ⟨_, _, _, hk, _, hr⟩ := (validateF2345Inputs_iff t).mp hv
    obtain ⟨c, inst, outs, hc, _, hit, hrun⟩ := F2345_reports t w hsrc hv
    rw [hf, deliver_present] at hrun
    exact ⟨_, outs,
      layoutState_length _ _ _ _ _ _ hc hr (by simp) (by simp) (by omega), hit,
      by rw [hrun], by rw [hrun]⟩
  · intro hv
    obtain ⟨hk, _, hr⟩ := (validateF5StarInputs_iff t).mp hv
    obtain ⟨c, inst, outs, hc, _, hit, hrun⟩ := F5Star_reports t w hsrc hv
    rw [hf, deliver_present] at hrun
    exact ⟨_, outs,
      layoutState_length _ _ _ _ _ _ hc hr (by simp) (by simp) (by omega), hit,
      by rw [hrun], by rw [hrun]⟩

theorem hook_reports_witness :
    recordingSession.opts.DebugHook = some recordCall ∧
    recordingSession.opts.KeccakIterations = 2 ∧
    ∃ S o1 o2, S.length = 200 ∧ o1.length = 200 ∧ o2.length = 200 ∧
      Keccak.PermuteF1600 S = .ok o1 ∧ Keccak.PermuteF1600 o1 = .ok o2 ∧
      (F1 recordingSession []).2.2 = [("f1.in", S), ("f1.out.1", o1), ("f1.out.2", o2)] ∧
      (F1 recordingSession []).1 = extractMAC recordingSession o2 := by
  obtain ⟨S, outs, hS, ⟨hlen, hit⟩, hw, hr⟩ :=
    ((hook_reports recordingSession [] exampleK exampleTOP [] recordCall
      (Or.inl ⟨exampleTOPc, rfl, by decide⟩) rfl).2.2.1 (by decide)).1
  have hn : recordingSession.opts.KeccakIterations = 2 := rfl
  rw [hn] at hlen hit hw
  have h2 : outs.length = 2 := hlen
  match outs, h2 with
  | [o1, o2], _ =>
    obtain ⟨p1, l1⟩ := hit 0 (by decide)
    obtain ⟨p2, l2⟩ := hit 1 (by decide)
    have q1 : Keccak.PermuteF1600 S = .ok o1 := p1
    have q2 : Keccak.PermuteF1600 o1 = .ok o2 := by
      have e : permuteTimes (1 + 1) S = (Keccak.PermuteF1600 S).bind Keccak.PermuteF1600 := rfl
      rw [e, q1] at p2
      exact p2
    have e1 : reportLabel "f1" 2 1 = "f1.out.1" := by decide
    have e2 : reportLabel "f1" 2 2 = "f1.out.2" := by decide
    have e3 : "f1" ++ ".in" = "f1.in" := by decide
    have e : expectedReports "f1" 2 S [o1, o2]
        = [("f1.in", S), ("f1.out.1", o1), ("f1.out.2", o2)] := by
      show [("f1" ++ ".in", S), (reportLabel "f1" 2 1, o1), (reportLabel "f1" 2 2, o2)] = _
      rw [e1, e2, e3]
    rw [calledOnEach_recordCall, e] at hw
    exact ⟨rfl, rfl, S, o1, o2, hS, l1, l2, q1, q2, hw, hr⟩

/-- C29: the debug hook has no effect on computed outputs. Appending any hook option (or the
option that removes the hook) to any option list leaves the result of `ComputeTOPc` the
same, and replacing the hook of any session by any other (or by none) leaves the results of
`F1`, `F1Star`, `F2345` and `F5Star` the same, bytes or error, whatever the inputs and the
worlds the hooks act on; `New` and `NewWithTOPc` with a hook option appended build the
session with that hook and nothing else changed. -/
theorem hook_has_no_effect {σ : Type} (t : TUAK σ) (hook : DebugHook σ) (w w2 : σ)
    (k top rand sqn amf : List Nat) (src : Option (List Nat)) (opts : List (Opt σ)) :
    (ComputeTOPc k top (opts ++ [WithDebugHook hook]) w2).1 = (ComputeTOPc k top opts w).1 ∧
    (F1 (withHook t hook) w2).1 = (F1 t w).1 ∧
    (F1Star (withHook t hook) w2).1 = (F1Star t w).1 ∧
    (F2345 (withHook t hook) w2).1 = (F2345 t w).1 ∧
    (F5Star (withHook t hook) w2).1 = (F5Star t w).1 ∧
    New k src rand sqn amf (opts ++ [WithDebugHook hook])
      = withHook (New k src rand sqn amf opts) hook ∧
    NewWithTOPc k src rand sqn amf (opts ++ [WithDebugHook hook])
      = withHook (NewWithTOPc k src rand sqn amf opts) hook := by
  refine ⟨ComputeTOPc_hook_irrelevant k top opts hook w w2, F1_hook_irrelevant t hook w w2,
    F1Star_hook_irrelevant t hook w w2, F2345_hook_irrelevant t hook w w2,
    F5Star_hook_irrelevant t hook w w2, ?_, ?_⟩
  · unfold New withHook
    rw [applyOptions_append_hook]
  · unfold NewWithTOPc withHook
    rw [applyOptions_append_hook]

end Tuak
namespace Tuak

/-! ## Claims on independence and injectivity -/

/-- C31: `F2345` and `F5Star` do not depend on SQN, AMF or MACLength. Two sessions that agree
on K, TOP, TOPc, RAND and on every option but MACLength (their SQN, AMF and MACLength being
anything, of any length) give the same result of `F2345` and the same result of `F5Star`,
bytes or error, and make the same hook calls. -/
theorem F2345_F5Star_ignore_sqn_amf_mac {σ : Type} (t1 t2 : TUAK σ) (w : σ)
    (hk : t1.k = t2.k) (htop : t1.top = t2.top) (htopc : t1.topc = t2.topc)
    (hrand : t1.rand = t2.rand) (hkl : t1.opts.KLength = t2.opts.KLength)
    (hres : t1.opts.RESLength = t2.opts.RESLength)
    (hck : t1.opts.CKLength = t2.opts.CKLength) (hik : t1.opts.IKLength = t2.opts.IKLength)
    (hn : t1.opts.KeccakIterations = t2.opts.KeccakIterations)
    (hh : t1.opts.DebugHook = t2.opts.DebugHook) :
    (F2345 t1 w).1 = (F2345 t2 w).1 ∧ (F5Star t1 w).1 = (F5Star t2 w).1 ∧
    (F2345 t1 w).2.2 = (F2345 t2 w).2.2 ∧ (F5Star t1 w).2.2 = (F5Star t2 w).2.2 := by
  have e := eq_withSqnAmfMac t1 t2 hk htop htopc hrand hkl hres hck hik hn hh
  rw [e]
  obtain ⟨a1, a2⟩ := F2345_blind t1 t2.sqn t2.amf t2.opts.MACLength w
  obtain ⟨b1, b2⟩ := F5Star_blind t1 t2.sqn t2.amf t2.opts.MACLength w
  exact ⟨a1.symm, b1.symm, a2.symm, b2.symm⟩

theorem F2345_F5Star_ignore_sqn_amf_mac_witness :
    (exampleSession.sqn ≠ exampleSessionOtherSqnAmfMac.sqn ∧
      exampleSession.amf ≠ exampleSessionOtherSqnAmfMac.amf ∧
      exampleSession.opts.MACLength ≠ exampleSessionOtherSqnAmfMac.opts.MACLength) ∧
    ((F2345 exampleSession ()).1 = (F2345 exampleSessionOtherSqnAmfMac ()).1 ∧
      (F5Star exampleSession ()).1 = (F5Star exampleSessionOtherSqnAmfMac ()).1 ∧
      (F2345 exampleSession ()).2.2 = (F2345 exampleSessionOtherSqnAmfMac ()).2.2 ∧
      (F5Star exampleSession ()).2.2 = (F5Star exampleSessionOtherSqnAmfMac ()).2.2) :=
  ⟨⟨by decide, by decide, by decide⟩,
    F2345_F5Star_ignore_sqn_amf_mac exampleSession exampleSessionOtherSqnAmfMac ()
      rfl rfl rfl rfl rfl rfl rfl rfl rfl rfl⟩

/-- C32: `PermuteF1600` is a permutation of the 200-byte states. For 200-byte inputs a and b
(every entry a byte), `PermuteF1600(a) = PermuteF1600(b)` holds exactly when a = b; the
result is again a 200-byte state, and every 200-byte state is the result for some 200-byte
input. -/
theorem PermuteF1600_is_permutation (a b : List Nat) (ha : a.length = 200)
    (hb : b.length = 200) (ba : ∀ x ∈ a, x < 256) (bb : ∀ x ∈ b, x < 256) :
    (Keccak.PermuteF1600 a = Keccak.PermuteF1600 b ↔ a = b) ∧
    (∃ out, Keccak.PermuteF1600 a = .ok out ∧ out.length = 200 ∧ ∀ x ∈ out, x < 256) ∧
    (∃ pre, pre.length = 200 ∧ (∀ x ∈ pre, x < 256) ∧ Keccak.PermuteF1600 pre = .ok a) := by
  refine ⟨⟨fun h => Keccak.permuteF1600_injective a b ha hb ba bb h, fun h => by rw [h]⟩,
    ⟨_, Keccak.permuteF1600_reference a ha ba, Keccak.bytesOfLanes_length _,
      Keccak.bytesOfLanes_lt _⟩,
    Keccak.permuteF1600_surjective a ha ba⟩

theorem PermuteF1600_is_permutation_witness :
    (Keccak.PermuteF1600 (List.replicate 200 0)
        = Keccak.PermuteF1600 (1 :: List.replicate 199 0)
      ↔ List.replicate 200 0 = 1 :: List.replicate 199 0) ∧
    (∃ out, Keccak.PermuteF1600 (List.replicate 200 0) = .ok out ∧ out.length = 200 ∧
      ∀ x ∈ out, x < 256) ∧
    (∃ pre, pre.length = 200 ∧ (∀ x ∈ pre, x < 256) ∧
      Keccak.PermuteF1600 pre = .ok (List.replicate 200 0)) :=
  PermuteF1600_is_permutation (List.replicate 200 0) (1 :: List.replicate 199 0)
    (List.length_replicate _ _)
    (by rw [List.length_cons, List.length_replicate])
    (fun x hx => by rw [List.eq_of_mem_replicate hx]; norm_num)
    (fun x hx => by
      rcases List.mem_cons.mp hx with h | h
      · rw [h]; norm_num
      · rw [List.eq_of_mem_replicate h]; norm_num)

end Tuak
